import Mathlib

/-! Loudmouth connection engine (lm-connection.c).

A shallow embedding of the connection engine of `src/loudmouth/lm-connection.c`:
the handler registry and dispatch, the lifecycle state machine, the legacy
authentication exchange and the connect sequencer.  Each operation is a pure
function on an explicit connection record; what the C code does to the outside
(application callbacks, bytes written, sockets) is recorded as a list of events.
-/

namespace Loudmouth

/-! ## Enumerations -/

/-- Result of a message handler (lm-connection.h). -/
inductive LmHandlerResult where
  | REMOVE_MESSAGE
  | ALLOW_MORE_HANDLERS
  deriving DecidableEq, Repr

/-- Reason given to the disconnect callback (lm-connection.h). -/
inductive LmDisconnectReason where
  | OK
  | PING_TIME_OUT
  | HUP
  | ERROR
  | UNKNOWN
  deriving DecidableEq, Repr

/-- Modelled from the spec: the `LmConnectionState` enum is declared in a header
that is not among the sources; the five states and their order are those of the
spec, section 4.3. -/
inductive LmConnectionState where
  | DISCONNECTED
  | CONNECTING
  | CONNECTED
  | AUTHENTICATING
  | AUTHENTICATED
  deriving DecidableEq, Repr

/-- Integer value of a lifecycle state, the order the C comparisons use. -/
def LmConnectionState.toNat : LmConnectionState → Nat
  | .DISCONNECTED => 0
  | .CONNECTING => 1
  | .CONNECTED => 2
  | .AUTHENTICATING => 3
  | .AUTHENTICATED => 4

/-- Modelled from the spec: the `LmMessageType` enum is declared in lm-message.h,
which is not among the sources; the kinds are the stanza kinds of the spec's
glossary, and `UNKNOWN` is the last enumerator, the length of the chain array. -/
inductive LmMessageType where
  | MESSAGE
  | PRESENCE
  | IQ
  | STREAM
  | UNKNOWN
  deriving DecidableEq, Repr

/-- Modelled from the spec: the sub type of a message is the value of its `type`
attribute; only the names the source uses are listed. -/
inductive LmMessageSubType where
  | GET
  | SET
  | RESULT
  | ERROR
  deriving DecidableEq, Repr

/-- Error codes set through `g_set_error` in this file. -/
inductive LmError where
  | CONNECTION_NOT_OPEN
  | CONNECTION_OPEN
  | AUTH_FAILED
  deriving DecidableEq, Repr

/-- Modelled from the spec: the status codes given to the certificate decision
callback (`LmSSLStatus`, declared in a header that is not among the sources),
as the spec lists them in section 4.2. -/
inductive LmSSLStatus where
  | NO_CERT_FOUND
  | UNTRUSTED_CERT
  | CERT_EXPIRED
  | CERT_NOT_ACTIVATED
  | CERT_HOSTNAME_MISMATCH
  | CERT_FINGERPRINT_MISMATCH
  | GENERIC_ERROR
  deriving DecidableEq, Repr

/-- Modelled from the spec: the answers of the certificate decision callback
(`LmSSLResponse`): continue, or stop. -/
inductive LmSSLResponse where
  | CONTINUE
  | STOP
  deriving DecidableEq, Repr

/-- The condition a watch function is called with (`GIOCondition`), as far as
`connection_connect_cb` tells conditions apart: exactly `G_IO_ERR`, exactly
`G_IO_OUT`, or any other value. -/
inductive GIOCondition where
  | ERR
  | OUT
  | other
  deriving DecidableEq, Repr

/-! ## Messages -/

/-- Modelled from the spec: the stanza tree of lm-message-node.c (not among the
sources): a named node with an optional text value, attributes and children. -/
inductive LmMessageNode where
  | mk (name : String) (value : Option String) (attributes : List (String × String))
      (children : List LmMessageNode)
  deriving Repr

mutual
/-- Decidable equality of nodes. -/
def LmMessageNode.decEq : (a b : LmMessageNode) → Decidable (a = b)
  | .mk n1 v1 a1 c1, .mk n2 v2 a2 c2 =>
    if h1 : n1 = n2 then
      if h2 : v1 = v2 then
        if h3 : a1 = a2 then
          match LmMessageNode.decEqList c1 c2 with
          | isTrue h4 => isTrue (by rw [h1, h2, h3, h4])
          | isFalse h4 => isFalse (fun h => h4 (by injection h))
        else isFalse (fun h => h3 (by injection h))
      else isFalse (fun h => h2 (by injection h))
    else isFalse (fun h => h1 (by injection h))
/-- Decidable equality of lists of nodes. -/
def LmMessageNode.decEqList : (a b : List LmMessageNode) → Decidable (a = b)
  | [], [] => isTrue rfl
  | [], _ :: _ => isFalse (fun h => by cases h)
  | _ :: _, [] => isFalse (fun h => by cases h)
  | x :: xs, y :: ys =>
    match LmMessageNode.decEq x y with
    | isTrue h1 =>
      match LmMessageNode.decEqList xs ys with
      | isTrue h2 => isTrue (by rw [h1, h2])
      | isFalse h2 => isFalse (fun h => h2 (by injection h))
    | isFalse h1 => isFalse (fun h => h1 (by injection h))
end

instance : DecidableEq LmMessageNode := LmMessageNode.decEq

/-- Name of a node. -/
def LmMessageNode.name : LmMessageNode → String
  | .mk n _ _ _ => n

/-- Text value of a node. -/
def LmMessageNode.value : LmMessageNode → Option String
  | .mk _ v _ _ => v

/-- Attributes of a node, in the order they were set. -/
def LmMessageNode.attributes : LmMessageNode → List (String × String)
  | .mk _ _ a _ => a

/-- Children of a node, in the order they were added. -/
def LmMessageNode.children : LmMessageNode → List LmMessageNode
  | .mk _ _ _ c => c

/-- Modelled from the spec: attribute lookup of the node abstraction. -/
def lm_message_node_get_attribute (node : LmMessageNode) (name : String) : Option String :=
  node.attributes.lookup name

/-- Modelled from the spec: attribute set of the node abstraction; an existing
attribute of that name is replaced, otherwise the attribute is appended. -/
def lm_message_node_set_attribute (node : LmMessageNode) (name value : String) :
    LmMessageNode :=
  match node with
  | .mk n v a c =>
    if (a.lookup name).isSome then
      .mk n v (a.map fun kv => if kv.1 == name then (name, value) else kv) c
    else .mk n v (a ++ [(name, value)]) c

/-- Modelled from the spec: child lookup of the node abstraction, the first
direct child of that name. -/
def lm_message_node_get_child (node : LmMessageNode) (name : String) : Option LmMessageNode :=
  node.children.find? fun ch => ch.name == name

/-- Modelled from the spec: child add of the node abstraction, appended last. -/
def lm_message_node_add_child (node : LmMessageNode) (name : String) (value : Option String) :
    LmMessageNode :=
  match node with
  | .mk n v a c => .mk n v a (c ++ [.mk name value [] []])

/-- A message: its type (what `lm_message_get_type` returns) and its root node. -/
structure LmMessage where
  type : LmMessageType
  node : LmMessageNode
  deriving DecidableEq, Repr

/-- The accessor `lm_message_get_type`. -/
def lm_message_get_type (m : LmMessage) : LmMessageType := m.type

/-- Modelled from the spec: `lm_message_new_with_sub_type` of lm-message.c (not
among the sources) for an iq stanza: a root node `iq` whose `type` attribute is
the sub type, as in `<iq type="get">` of the spec, section 6. -/
def lm_message_new_with_sub_type (type : LmMessageType) (sub : String) : LmMessage :=
  { type := type, node := .mk "iq" none [("type", sub)] [] }

/-! ## Callbacks, handlers and the connection record -/

/-- A callback slot value (`LmCallback`): the function pointer (which may be
NULL), the user data and the destroy notifier. Pointers are numbered. -/
structure LmCallback where
  func : Option Nat
  user_data : Nat
  notify : Option Nat
  deriving DecidableEq, Repr

/-- Modelled from the spec: `_lm_utils_new_callback` of lm-utils.c (not among the
sources) allocates a slot value holding its three arguments. -/
def _lm_utils_new_callback (func : Option Nat) (user_data : Nat) (notify : Option Nat) :
    LmCallback :=
  { func := func, user_data := user_data, notify := notify }

/-- The user data of the discovery handler (`AuthReqData`). -/
structure AuthReqData where
  username : String
  password : String
  resource : String
  deriving DecidableEq, Repr

/-- The function behind a message handler: an application function, seen only
through the result it gives for a message, or one of the two static handler
functions of lm-connection.c. -/
inductive HandlerFunc where
  | user (f : LmMessage → LmHandlerResult)
  | auth_req_reply (data : AuthReqData)
  | auth_reply

/-- A message handler object; `ident` stands for its address, which is what the
source compares handlers by. -/
structure LmMessageHandler where
  ident : Nat
  func : HandlerFunc

/-- An entry of a type-based chain (`HandlerData`). The priority is the integer
value of the C enum `LmHandlerPriority`. -/
structure HandlerData where
  priority : Int
  handler : LmMessageHandler

/-- The enumerator `LM_HANDLER_PRIORITY_LAST`. -/
def LM_HANDLER_PRIORITY_LAST : Int := 1
/-- The enumerator `LM_HANDLER_PRIORITY_NORMAL`. -/
def LM_HANDLER_PRIORITY_NORMAL : Int := 2
/-- The enumerator `LM_HANDLER_PRIORITY_FIRST`. -/
def LM_HANDLER_PRIORITY_FIRST : Int := 3

/-- A proxy reference (`LmProxy`): the host and port to connect to instead. -/
structure LmProxy where
  server : String
  port : Nat
  deriving DecidableEq, Repr

/-- The connection record (`struct _LmConnection`), with the fields the engine
reads or writes. `incoming_source` counts the incoming-queue sources attached to
the main loop; `next_id` is the process-wide counter behind
`_lm_utils_generate_id`, carried here. -/
structure LmConnection where
  server : Option String
  port : Nat
  proxy : Option LmProxy
  stream_id : Option String
  id_handlers : List (String × LmMessageHandler)
  handlers : LmMessageType → List HandlerData
  io_channel : Option Nat
  fd : Int
  open_cb : Option LmCallback
  cancel_open : Bool
  auth_cb : Option LmCallback
  disconnect_cb : Option LmCallback
  ssl_func : Option Nat
  expected_fingerprint : Option String
  incoming_messages : List LmMessage
  incoming_source : Nat
  state : LmConnectionState
  next_id : Nat

/-- What the engine does to the outside, in the order it happens. -/
inductive Event where
  | handler (ident : Nat) (m : LmMessage)
  | open_result (func : Nat) (success : Bool)
  | auth_result (func : Nat) (success : Bool)
  | disconnect (func : Nat) (reason : LmDisconnectReason)
  | free_callback (cb : LmCallback)
  | send (str : String)
  | send_message (m : LmMessage)
  | flush
  | channel_unref (channel : Nat)
  | trying (addr : Nat) (port : Nat)
  | close_fd (fd : Nat)
  | watch (channel : Nat)
  | gnutls_global_init
  | gnutls_deinit
  | gnutls_handshake (fd : Int)
  | ssl_decision (status : LmSSLStatus)
  | socket_shutdown (fd : Int)
  | set_blocking (channel : Nat)
  | io_watches (channel : Nat)
  | proxy_negotiate (fd : Int)
  deriving DecidableEq, Repr

/-- The collaborators that are functions of their arguments: the hash primitive
of lm-sha.c and the text of the n-th generated id of lm-utils.c; and the
addresses `lm_message_handler_new` gives the two internal handlers. -/
structure Env where
  lm_sha_hash : String → String
  generate_id : Nat → String
  auth_req_handler : Nat
  auth_handler : Nat

/-! ## GLib containers -/

/-- The call `g_hash_table_lookup` on the id map. -/
def g_hash_table_lookup {β : Type} (t : List (String × β)) (key : String) : Option β :=
  t.lookup key

/-- The call `g_hash_table_remove`: no entry with that key is left. -/
def g_hash_table_remove {β : Type} (t : List (String × β)) (key : String) :
    List (String × β) :=
  t.filter fun kv => !(kv.1 == key)

/-- The call `g_hash_table_insert`: the new value replaces an older one. -/
def g_hash_table_insert {β : Type} (t : List (String × β)) (key : String) (v : β) :
    List (String × β) :=
  (key, v) :: g_hash_table_remove t key

/-- The call `g_slist_insert_sorted`: the new element goes before the first
element it does not compare greater than, or last. -/
def g_slist_insert_sorted {α : Type} (list : List α) (data : α) (func : α → α → Int) :
    List α :=
  match list with
  | [] => [data]
  | x :: rest =>
    if func data x > 0 then x :: g_slist_insert_sorted rest data func
    else data :: x :: rest

/-- A value of C type `gint` (32 bits, two's complement) from an integer. -/
def to_gint (x : Int) : Int := (x + 2 ^ 31) % 2 ^ 32 - 2 ^ 31

/-! ## State queries and sending -/

/-- The comparison `connection_handler_compare_func`: `b->priority - a->priority`
as a `gint`. -/
def connection_handler_compare_func (a b : HandlerData) : Int :=
  to_gint (b.priority - a.priority)

/-- The query `lm_connection_is_open`: state at least CONNECTED. -/
def lm_connection_is_open (c : LmConnection) : Bool :=
  decide (LmConnectionState.CONNECTED.toNat ≤ c.state.toNat)

/-- The query `lm_connection_is_authenticated`: state at least AUTHENTICATED. -/
def lm_connection_is_authenticated (c : LmConnection) : Bool :=
  decide (LmConnectionState.AUTHENTICATED.toNat ≤ c.state.toNat)

/-- The query `lm_connection_get_use_ssl`: a verification function is set. -/
def lm_connection_get_use_ssl (c : LmConnection) : Bool := c.ssl_func.isSome

/-- The query `lm_connection_get_state`. -/
def lm_connection_get_state (c : LmConnection) : LmConnectionState := c.state

/-- The static `connection_send`: refused below CONNECTING, otherwise the text
is written to the transport (with SSL through `gnutls_record_send`, whose result
is kept in an unsigned `gsize`, so that the retry loop on a negative result never
runs). Returns the gboolean, the error set and the events. -/
def connection_send (c : LmConnection) (str : String) : Bool × Option LmError × List Event :=
  if c.state.toNat < LmConnectionState.CONNECTING.toNat then
    (false, some .CONNECTION_NOT_OPEN, [])
  else (true, none, [.send str])

/-- The call `lm_connection_send`: the serialised message, cut before a closing
stream tag, goes through `connection_send`; the written text is recorded as the
message it serialises. -/
def lm_connection_send (c : LmConnection) (message : LmMessage) :
    Bool × Option LmError × List Event :=
  if c.state.toNat < LmConnectionState.CONNECTING.toNat then
    (false, some .CONNECTION_NOT_OPEN, [])
  else (true, none, [.send_message message])

/-- The call `lm_connection_send_raw`. -/
def lm_connection_send_raw (c : LmConnection) (str : String) :
    Bool × Option LmError × List Event :=
  connection_send c str

/-- Modelled from the spec: `_lm_utils_free_callback` of lm-utils.c (not among
the sources) releases a slot value; nothing happens for NULL. -/
def _lm_utils_free_callback (cb : Option LmCallback) : List Event :=
  match cb with
  | none => []
  | some cb => [.free_callback cb]

/-- The call `lm_connection_send_with_reply`: the message keeps its id or gets a
generated one, the handler is stored under that id, and the message is sent. -/
def lm_connection_send_with_reply (env : Env) (c : LmConnection) (message : LmMessage)
    (handler : LmMessageHandler) : (Bool × Option LmError) × LmConnection × List Event :=
  let (id, message1, c1) :=
    match lm_message_node_get_attribute message.node "id" with
    | some id => (id, message, c)
    | none =>
      let id := env.generate_id c.next_id
      (id, { message with node := lm_message_node_set_attribute message.node "id" id },
        { c with next_id := c.next_id + 1 })
  let c2 := { c1 with id_handlers := g_hash_table_insert c1.id_handlers id handler }
  let r := lm_connection_send c2 message1
  ((r.1, r.2.1), c2, r.2.2)

/-! ## Stream opening and legacy authentication -/

/-- The static `connection_stream_received`. -/
def connection_stream_received (c : LmConnection) (m : LmMessage) : LmConnection × List Event :=
  let c1 := { c with stream_id := lm_message_node_get_attribute m.node "id",
                     state := .CONNECTED }
  let ev :=
    match c1.open_cb with
    | some cb =>
      match cb.func with
      | some f => [Event.open_result f true]
      | none => []
    | none => []
  ({ c1 with open_cb := none }, ev ++ _lm_utils_free_callback c1.open_cb)

/-- The static `connection_create_auth_req_msg`. -/
def connection_create_auth_req_msg (username : String) : LmMessage :=
  let m := lm_message_new_with_sub_type .IQ "get"
  let q_node := LmMessageNode.mk "query" none [("xmlns", "jabber:iq:auth")]
    [.mk "username" (some username) [] []]
  match m.node with
  | .mk n v a ch => { m with node := .mk n v a (ch ++ [q_node]) }

/-- The flag `AUTH_TYPE_PLAIN`. -/
def AUTH_TYPE_PLAIN : Nat := 1
/-- The flag `AUTH_TYPE_DIGEST`. -/
def AUTH_TYPE_DIGEST : Nat := 2
/-- The flag `AUTH_TYPE_0K`. -/
def AUTH_TYPE_0K : Nat := 4

/-- The static `connection_check_auth_type`. -/
def connection_check_auth_type (auth_req_rpl : LmMessage) : Nat :=
  match lm_message_node_get_child auth_req_rpl.node "query" with
  | none => AUTH_TYPE_PLAIN
  | some q_node =>
    let r0 := 0
    let r1 := if (lm_message_node_get_child q_node "password").isSome
      then r0 ||| AUTH_TYPE_PLAIN else r0
    let r2 := if (lm_message_node_get_child q_node "digest").isSome
      then r1 ||| AUTH_TYPE_DIGEST else r1
    if (lm_message_node_get_child q_node "sequence").isSome
        && (lm_message_node_get_child q_node "token").isSome
      then r2 ||| AUTH_TYPE_0K else r2

/-- The static `connection_create_auth_msg`. The digest is the hash of the
stream id followed by the password; with no stream id `g_strconcat` gives NULL
and the hash is taken of NULL, where the model stops (`none`). -/
def connection_create_auth_msg (env : Env) (c : LmConnection)
    (username password resource : String) (auth_type : Nat) : Option LmMessage :=
  let auth_msg := lm_message_new_with_sub_type .IQ "set"
  let q0 := [LmMessageNode.mk "username" (some username) [] []]
  let q1 : Option (List LmMessageNode) :=
    if auth_type &&& AUTH_TYPE_DIGEST ≠ 0 then
      match c.stream_id with
      | some sid => some (q0 ++ [.mk "digest" (some (env.lm_sha_hash (sid ++ password))) [] []])
      | none => none
    else if auth_type &&& AUTH_TYPE_PLAIN ≠ 0 then
      some (q0 ++ [.mk "password" (some password) [] []])
    else some q0
  match q1 with
  | none => none
  | some ch =>
    let q_node := LmMessageNode.mk "query" none [("xmlns", "jabber:iq:auth")]
      (ch ++ [.mk "resource" (some resource) [] []])
    match auth_msg.node with
    | .mk n v a rc => some { auth_msg with node := .mk n v a (rc ++ [q_node]) }

/-- The static handler `connection_auth_reply`. The `type` attribute is compared
with `strcmp`; without the attribute the comparison reads NULL (`none`). -/
def connection_auth_reply (c : LmConnection) (m : LmMessage) :
    Option (LmHandlerResult × LmConnection × List Event) :=
  match lm_message_node_get_attribute m.node "type" with
  | none => none
  | some type =>
    let (result, c1) :=
      if type = "result" then (true, { c with state := .AUTHENTICATED })
      else if type = "error" then (false, { c with state := .CONNECTED })
      else (true, c)
    let ev :=
      match c1.auth_cb with
      | some cb =>
        match cb.func with
        | some f => [Event.auth_result f result]
        | none => []
      | none => []
    some (.REMOVE_MESSAGE, { c1 with auth_cb := none },
      ev ++ _lm_utils_free_callback c1.auth_cb)

/-- The static handler `connection_auth_req_reply`. -/
def connection_auth_req_reply (env : Env) (c : LmConnection) (m : LmMessage)
    (data : AuthReqData) : Option (LmHandlerResult × LmConnection × List Event) :=
  let auth_type := connection_check_auth_type m
  match connection_create_auth_msg env c data.username data.password data.resource
      auth_type with
  | none => none
  | some auth_msg =>
    let auth_handler : LmMessageHandler := { ident := env.auth_handler, func := .auth_reply }
    let r := lm_connection_send_with_reply env c auth_msg auth_handler
    some (.REMOVE_MESSAGE, r.2.1, r.2.2)

/-! ## Handler registry and dispatch -/

/-- Modelled from the spec: `_lm_message_handler_handle_message` of
lm-message-handler.c (not among the sources) runs the function of the handler on
the message and passes on its result. -/
def _lm_message_handler_handle_message (env : Env) (handler : LmMessageHandler)
    (c : LmConnection) (m : LmMessage) :
    Option (LmHandlerResult × LmConnection × List Event) :=
  match handler.func with
  | .user f => some (f m, c, [.handler handler.ident m])
  | .auth_req_reply data =>
    match connection_auth_req_reply env c m data with
    | none => none
    | some (r, c1, ev) => some (r, c1, .handler handler.ident m :: ev)
  | .auth_reply =>
    match connection_auth_reply c m with
    | none => none
    | some (r, c1, ev) => some (r, c1, .handler handler.ident m :: ev)

/-- The loop over a type-based chain in `connection_handle_message`: it goes on
while there is an entry and the last result is ALLOW_MORE_HANDLERS. No handler
function of the model changes a chain, so the loop walks the list it started on. -/
def connection_handle_chain (env : Env) (m : LmMessage) :
    List HandlerData → LmHandlerResult → LmConnection → Option (LmConnection × List Event)
  | [], _, c => some (c, [])
  | hd :: l, result, c =>
    if result = .ALLOW_MORE_HANDLERS then
      match _lm_message_handler_handle_message env hd.handler c m with
      | none => none
      | some (r, c1, ev) =>
        match connection_handle_chain env m l r c1 with
        | none => none
        | some (c2, ev2) => some (c2, ev ++ ev2)
    else some (c, [])

/-- The id-based part of `connection_handle_message`: the lookup by the id of the
message, the call of the handler found and its removal from the map. -/
def connection_handle_id (env : Env) (c : LmConnection) (m : LmMessage) :
    Option (LmHandlerResult × LmConnection × List Event) :=
  match lm_message_node_get_attribute m.node "id" with
  | none => some (.ALLOW_MORE_HANDLERS, c, [])
  | some id =>
    match g_hash_table_lookup c.id_handlers id with
    | none => some (.ALLOW_MORE_HANDLERS, c, [])
    | some handler =>
      match _lm_message_handler_handle_message env handler c m with
      | none => none
      | some (r, c1, ev) =>
        some (r, { c1 with id_handlers := g_hash_table_remove c1.id_handlers id }, ev)

/-- The static `connection_handle_message`. The chains are an array of length
`LM_MESSAGE_TYPE_UNKNOWN`: a message of type UNKNOWN that reaches the chain walk
indexes past its end (`none`). -/
def connection_handle_message (env : Env) (c : LmConnection) (m : LmMessage) :
    Option (LmConnection × List Event) :=
  if lm_message_get_type m = .STREAM then some (connection_stream_received c m)
  else
    match connection_handle_id env c m with
    | none => none
    | some (result, c1, ev) =>
      if result = .REMOVE_MESSAGE then some (c1, ev)
      else if lm_message_get_type m = .UNKNOWN then none
      else
        match connection_handle_chain env m (c1.handlers (lm_message_get_type m)) result c1 with
        | none => none
        | some (c2, ev2) => some (c2, ev ++ ev2)

/-- The call `lm_connection_register_message_handler`. -/
def lm_connection_register_message_handler (c : LmConnection) (handler : LmMessageHandler)
    (type : LmMessageType) (priority : Int) : LmConnection :=
  if type = .UNKNOWN then c
  else
    let hd : HandlerData := { priority := priority, handler := handler }
    { c with handlers := fun t =>
        if t = type then
          g_slist_insert_sorted (c.handlers type) hd connection_handler_compare_func
        else c.handlers t }

/-- The list surgery of `lm_connection_unregister_message_handler`: the first
entry whose handler is the given object is unlinked. -/
def unregister_first (handler : LmMessageHandler) : List HandlerData → List HandlerData
  | [] => []
  | hd :: l => if hd.handler.ident = handler.ident then l else hd :: unregister_first handler l

/-- The call `lm_connection_unregister_message_handler`. -/
def lm_connection_unregister_message_handler (c : LmConnection) (handler : LmMessageHandler)
    (type : LmMessageType) : LmConnection :=
  if type = .UNKNOWN then c
  else
    { c with handlers := fun t =>
        if t = type then unregister_first handler (c.handlers type) else c.handlers t }

/-- The parser callback `connection_new_message_cb`: the message is queued. -/
def connection_new_message_cb (c : LmConnection) (m : LmMessage) : LmConnection :=
  { c with incoming_messages := c.incoming_messages ++ [m] }

/-- The source function `connection_incoming_prepare`: ready when the queue is
not empty. -/
def connection_incoming_prepare (c : LmConnection) : Bool := !c.incoming_messages.isEmpty

/-- The source function `connection_incoming_dispatch`: the head of the queue,
if any, is handled. -/
def connection_incoming_dispatch (env : Env) (c : LmConnection) :
    Option (LmConnection × List Event) :=
  match c.incoming_messages with
  | [] => some (c, [])
  | m :: rest => connection_handle_message env { c with incoming_messages := rest } m

/-- The call `lm_connection_new`. -/
def lm_connection_new (server : Option String) : LmConnection :=
  { server := server, port := 5222, proxy := none, stream_id := none, id_handlers := [],
    handlers := fun _ => [], io_channel := none, fd := 0, open_cb := none,
    cancel_open := false, auth_cb := none, disconnect_cb := none, ssl_func := none,
    expected_fingerprint := none, incoming_messages := [], incoming_source := 0,
    state := .DISCONNECTED, next_id := 0 }

/-- A run of `lm_connection_register_message_handler` calls for one type, in the
order of the list. -/
def register_all (c : LmConnection) (type : LmMessageType)
    (regs : List (LmMessageHandler × Int)) : LmConnection :=
  regs.foldl (fun c r => lm_connection_register_message_handler c r.1 type r.2) c

/-- The handler is an application function that answers ALLOW_MORE_HANDLERS for
the message. -/
def answers_allow (h : LmMessageHandler) (m : LmMessage) : Prop :=
  ∃ f, h.func = .user f ∧ f m = .ALLOW_MORE_HANDLERS

/-- The integer is a value of `gint`. -/
def gint_range (x : Int) : Prop := -2 ^ 31 ≤ x ∧ x < 2 ^ 31

/-- The chain built by a run of registrations from a starting chain. -/
def chain_of (l0 : List HandlerData) (regs : List (LmMessageHandler × Int)) : List HandlerData :=
  regs.foldl (fun l r => g_slist_insert_sorted l { priority := r.2, handler := r.1 }
    connection_handler_compare_func) l0

/-! ## Sample data -/

/-- A sample environment: the hash is marked by a prefix, ids are numbered. -/
def env0 : Env :=
  { lm_sha_hash := fun str => "sha:" ++ str, generate_id := fun n => "id" ++ toString n,
    auth_req_handler := 1000, auth_handler := 1001 }

/-- A sample application handler that gives the same result for every message. -/
def app_handler (ident : Nat) (result : LmHandlerResult) : LmMessageHandler :=
  { ident := ident, func := .user fun _ => result }

/-- A sample stanza: a node with the given name and attributes and no children. -/
def stanza (type : LmMessageType) (name : String) (attributes : List (String × String)) :
    LmMessage :=
  { type := type, node := .mk name none attributes [] }

/-- A fresh connection for the sample server. -/
def conn0 : LmConnection := lm_connection_new (some "jabber.example.org")

/-- The handlers entered, in order, read off a list of events. -/
def invocations (ev : List Event) : List Nat :=
  ev.filterMap fun e =>
    match e with
    | .handler ident _ => some ident
    | _ => none

/-- The result a handler gives for a message: that of the application function,
and REMOVE_MESSAGE for the two internal handler functions. -/
def handler_result (h : LmMessageHandler) (m : LmMessage) : LmHandlerResult :=
  match h.func with
  | .user f => f m
  | _ => .REMOVE_MESSAGE

/-- The spec's reading of the chain walk: the entries of the chain up to and
including the first one whose handler answers REMOVE_MESSAGE, or all of them. -/
def spec_invoked_entries (m : LmMessage) : List HandlerData → List HandlerData
  | [] => []
  | hd :: l =>
    if handler_result hd.handler m = .REMOVE_MESSAGE then [hd]
    else hd :: spec_invoked_entries m l

/-- Every entry of the chain holds an application handler, as every chain built
through `lm_connection_register_message_handler` by an application does. -/
def chain_is_app (chain : List HandlerData) : Prop :=
  ∀ hd ∈ chain, ∃ f, hd.handler.func = .user f

/-- A sample connection whose stream is open, with a chain of two application
handlers for iq stanzas. -/
def conn_open : LmConnection :=
  register_all { conn0 with state := .CONNECTED, io_channel := some 7, stream_id := some "s1" }
    .IQ [(app_handler 2 .ALLOW_MORE_HANDLERS, LM_HANDLER_PRIORITY_NORMAL),
         (app_handler 3 .ALLOW_MORE_HANDLERS, LM_HANDLER_PRIORITY_FIRST)]

/-- The sample connection after `lm_connection_send_with_reply` of a request
without an id, with an application handler that lets the reply pass on. -/
def conn_waiting : LmConnection :=
  (lm_connection_send_with_reply env0 conn_open (stanza .IQ "iq" [("type", "get")])
    (app_handler 5 .ALLOW_MORE_HANDLERS)).2.1

/-- A sample reply to the request of `conn_waiting`. -/
def reply0 : LmMessage := stanza .IQ "iq" [("type", "result"), ("id", "id0")]

/-- A sample connection with three application handlers for message stanzas, of
which the one of middle priority consumes the message. -/
def conn_chain : LmConnection :=
  register_all conn0 .MESSAGE
    [(app_handler 1 .ALLOW_MORE_HANDLERS, LM_HANDLER_PRIORITY_LAST),
     (app_handler 2 .REMOVE_MESSAGE, LM_HANDLER_PRIORITY_NORMAL),
     (app_handler 3 .ALLOW_MORE_HANDLERS, LM_HANDLER_PRIORITY_FIRST)]

/-- A sample message stanza without an id. -/
def msg0 : LmMessage := stanza .MESSAGE "message" [("from", "a@example.org")]

/-! ## Lifecycle: open, close, authenticate, I/O events -/

/-- The status of a channel read (`GIOStatus`); `other` stands for a value
outside the four enumerators, which the switch of `connection_in_event` sends to
its default branch. -/
inductive GIOStatus where
  | ERROR
  | NORMAL
  | EOF
  | AGAIN
  | other (v : Nat)
  deriving DecidableEq, Repr

/-- The GnuTLS code for a read that has to be tried again. -/
def GNUTLS_E_AGAIN : Int := -28

/-- What the operating system answers when `connection_do_connect` creates a
socket for a candidate and starts the non-blocking connect on it. -/
inductive ConnectOutcome where
  | socket_failed
  | connect_failed (fd : Nat)
  | in_progress (fd : Nat)
  deriving DecidableEq, Repr

/-- A connect attempt (`LmConnectData`). `current_addr` is the candidate list
from the current candidate on, the empty list being NULL. A channel is numbered
by its descriptor. -/
structure LmConnectData where
  resolved_addrs : List Nat
  current_addr : List Nat
  fd : Int
  io_channel : Option Nat
  deriving DecidableEq, Repr

/-- The port `connection_do_connect` writes into the candidate address: that of
the proxy when there is one, else that of the connection, as `htons` takes it:
the 16-bit `sin_port` holds the low 16 bits of the `guint`. -/
def connect_port (c : LmConnection) : Nat :=
  (match c.proxy with
   | some proxy => proxy.port
   | none => c.port) % 65536

/-- The unref of the channel of an attempt, when it has one. -/
def channel_unref_events (io_channel : Option Nat) : List Event :=
  match io_channel with
  | some ch => [.channel_unref ch]
  | none => []

/-- The static `connection_do_connect`, with the failure branch
(`connection_failed` on an immediate connect error) unfolded in place so that the
recursion goes down the candidate list. The result is the attempt left waiting
for its socket (NULL when it was freed) and the events. The model stops (`none`)
where the source reads a NULL candidate, and where `socket` fails: there the
source calls `connection_failed` and then carries on with the invalid descriptor
and a `connect_data` that may be freed already. -/
def connection_do_connect (c : LmConnection) (os : Nat → ConnectOutcome)
    (resolved_addrs : List Nat) :
    List Nat → Int → Option Nat → Option (Option LmConnectData × List Event)
  | [], _, _ => none
  | [addr], _, io_channel =>
    match os addr with
    | .socket_failed => none
    | .in_progress fd =>
      some (some { resolved_addrs := resolved_addrs, current_addr := [addr],
                   fd := fd, io_channel := some fd },
        [.trying addr (connect_port c), .watch fd])
    | .connect_failed fd =>
      some (none, [Event.trying addr (connect_port c), .close_fd fd] ++
        channel_unref_events io_channel)
  | addr :: next :: rest, _, io_channel =>
    match os addr with
    | .socket_failed => none
    | .in_progress fd =>
      some (some { resolved_addrs := resolved_addrs, current_addr := addr :: next :: rest,
                   fd := fd, io_channel := some fd },
        [.trying addr (connect_port c), .watch fd])
    | .connect_failed fd =>
      match connection_do_connect c os resolved_addrs (next :: rest) fd io_channel with
      | none => none
      | some (cd, ev2) =>
        some (cd, [Event.trying addr (connect_port c), .close_fd fd] ++
          channel_unref_events io_channel ++ ev2)

/-- The static `connection_failed_with_error` (and `connection_failed`, which
only passes `errno` on): the attempt moves to the next candidate, drops its
channel, and either is freed or connects again. -/
def connection_failed_with_error (c : LmConnection) (os : Nat → ConnectOutcome)
    (connect_data : LmConnectData) : Option (Option LmConnectData × List Event) :=
  match connect_data.current_addr with
  | [] => none
  | [_] => some (none, channel_unref_events connect_data.io_channel)
  | _ :: next :: rest =>
    match connection_do_connect c os connect_data.resolved_addrs (next :: rest)
        connect_data.fd connect_data.io_channel with
    | none => none
    | some (cd, ev2) => some (cd, channel_unref_events connect_data.io_channel ++ ev2)

/-- The static `connection_do_open`. `resolve` is `getaddrinfo`: the candidates
for a host name, or none when the lookup fails. The result is the gboolean, the
error set, the connection, the connect attempt started and the events. -/
def connection_do_open (os : Nat → ConnectOutcome) (resolve : String → Option (List Nat))
    (c : LmConnection) :
    Option (Bool × Option LmError × LmConnection × Option LmConnectData × List Event) :=
  if lm_connection_is_open c then some (false, some .CONNECTION_NOT_OPEN, c, none, [])
  else
    match c.server with
    | none => some (false, some .CONNECTION_OPEN, c, none, [])
    | some server =>
      let c1 := { c with incoming_source := c.incoming_source + 1, cancel_open := false,
                         state := .CONNECTING }
      let host := match c1.proxy with
        | some proxy => proxy.server
        | none => server
      match resolve host with
      | none => some (false, some .CONNECTION_OPEN, c1, none, [])
      | some ans =>
        let ev0 := if lm_connection_get_use_ssl c1 then [Event.gnutls_global_init] else []
        match connection_do_connect c1 os ans ans (-1) none with
        | none => none
        | some (cd, ev) => some (true, none, c1, cd, ev0 ++ ev)

/-- The call `lm_connection_open`. -/
def lm_connection_open (os : Nat → ConnectOutcome) (resolve : String → Option (List Nat))
    (c : LmConnection) (function : Option Nat) (user_data : Nat) (notify : Option Nat) :
    Option (Bool × Option LmError × LmConnection × Option LmConnectData × List Event) :=
  connection_do_open os resolve
    { c with open_cb := some (_lm_utils_new_callback function user_data notify) }

/-- The call `lm_connection_cancel_open`. -/
def lm_connection_cancel_open (c : LmConnection) : LmConnection :=
  { c with cancel_open := true }

/-- The static `connection_do_close`. -/
def connection_do_close (c : LmConnection) : LmConnection × List Event :=
  let ev1 := match c.io_channel with
    | some ch => [Event.channel_unref ch]
    | none => []
  let c2 := { c with io_channel := none, incoming_source := c.incoming_source - 1 }
  if !lm_connection_is_open c2 then (c2, ev1)
  else
    ({ c2 with state := .DISCONNECTED },
      ev1 ++ (if lm_connection_get_use_ssl c2 then [Event.gnutls_deinit] else []))

/-- The static `connection_signal_disconnect`. -/
def connection_signal_disconnect (c : LmConnection) (reason : LmDisconnectReason) :
    List Event :=
  match c.disconnect_cb with
  | some cb =>
    match cb.func with
    | some f => [.disconnect f reason]
    | none => []
  | none => []

/-- The call `lm_connection_close`. -/
def lm_connection_close (c : LmConnection) : (Bool × Option LmError) × LmConnection × List Event :=
  if !lm_connection_is_open c then ((false, some .CONNECTION_NOT_OPEN), c, [])
  else
    let s := connection_send c "</stream:stream>"
    if !s.1 then ((false, s.2.1), c, s.2.2)
    else
      let d := connection_do_close c
      ((true, none), d.1,
        s.2.2 ++ [.flush] ++ d.2 ++ connection_signal_disconnect d.1 .OK)

/-- The call `lm_connection_authenticate`. -/
def lm_connection_authenticate (env : Env) (c : LmConnection)
    (username password resource : String)
    (function : Option Nat) (user_data : Nat) (notify : Option Nat) :
    (Bool × Option LmError) × LmConnection × List Event :=
  if !lm_connection_is_open c then ((false, some .CONNECTION_NOT_OPEN), c, [])
  else
    let c1 := { c with state := .AUTHENTICATING,
                       auth_cb := some (_lm_utils_new_callback function user_data notify) }
    let m := connection_create_auth_req_msg username
    let data : AuthReqData :=
      { username := username, password := password, resource := resource }
    let handler : LmMessageHandler :=
      { ident := env.auth_req_handler, func := .auth_req_reply data }
    lm_connection_send_with_reply env c1 m handler

/-- The watch function `connection_error_event`. -/
def connection_error_event (c : LmConnection) : Bool × LmConnection × List Event :=
  match c.io_channel with
  | none => (false, c, [])
  | some _ =>
    let d := connection_do_close c
    (true, d.1, d.2 ++ connection_signal_disconnect d.1 .ERROR)

/-- The watch function `connection_hup_event`. -/
def connection_hup_event (c : LmConnection) : Bool × LmConnection × List Event :=
  match c.io_channel with
  | none => (false, c, [])
  | some _ =>
    let d := connection_do_close c
    (true, d.1, d.2 ++ connection_signal_disconnect d.1 .HUP)

/-- The status `connection_in_event` computes for a read: from the byte count of
`gnutls_record_recv` when SSL is in use, else the status of the channel read. -/
def read_status_of (c : LmConnection) (bytes_read : Int) (read_status : GIOStatus) :
    GIOStatus :=
  if lm_connection_get_use_ssl c then
    if bytes_read = GNUTLS_E_AGAIN then GIOStatus.AGAIN
    else if bytes_read ≤ 0 then GIOStatus.ERROR
    else GIOStatus.NORMAL
  else read_status

/-- The watch function `connection_in_event`. `bytes_read` is what
`gnutls_record_recv` returns when SSL is in use, `read_status` what
`g_io_channel_read_chars` returns otherwise, and `parsed` the messages the
parser completes on the bytes read. -/
def connection_in_event (c : LmConnection) (bytes_read : Int) (read_status : GIOStatus)
    (parsed : List LmMessage) : Bool × LmConnection × List Event :=
  match c.io_channel with
  | none => (false, c, [])
  | some _ =>
    match read_status_of c bytes_read read_status with
    | .NORMAL => (true, parsed.foldl connection_new_message_cb c, [])
    | .AGAIN => (true, c, [])
    | .EOF =>
      let d := connection_do_close c
      (false, d.1, d.2 ++ connection_signal_disconnect d.1 .HUP)
    | .ERROR =>
      let d := connection_do_close c
      (false, d.1, d.2 ++ connection_signal_disconnect d.1 .ERROR)
    | .other _ =>
      let d := connection_do_close c
      (false, d.1, d.2 ++ connection_signal_disconnect d.1 .UNKNOWN)

/-- The events of firing a result callback slot and releasing it: the function,
when there is one, is called once with the outcome, then the slot value is freed. -/
def fire_and_free (slot : Option LmCallback) (call : Nat → Event) : List Event :=
  match slot with
  | some cb =>
    (match cb.func with
     | some f => [call f]
     | none => []) ++ [Event.free_callback cb]
  | none => []

/-- The discovery request as `lm_connection_authenticate` sends it on a
connection whose id counter is `n`: the request for the user name, with the
generated id. -/
def discovery_request (env : Env) (n : Nat) (username : String) : LmMessage :=
  { connection_create_auth_req_msg username with
    node := lm_message_node_set_attribute (connection_create_auth_req_msg username).node "id"
      (env.generate_id n) }

/-- The sample connection after `lm_connection_authenticate`, with result
callback 9. -/
def conn_authenticating : LmConnection :=
  (lm_connection_authenticate env0 conn_open "romeo" "secret" "orchard" (some 9) 0 none).2.1

/-! ## Executions -/

/-- The public operations and engine events that move the lifecycle state: the
four calls of the application, the dispatch of the next queued message (a stream
stanza, a reply to the authentication exchange, or any other stanza), and the
three watch functions of the transport (a read, an error condition, a hang-up). -/
inductive Op where
  | lm_connection_open (function : Option Nat) (user_data : Nat) (notify : Option Nat)
      (os : Nat → ConnectOutcome) (resolve : String → Option (List Nat))
  | lm_connection_authenticate (username password resource : String)
      (function : Option Nat) (user_data : Nat) (notify : Option Nat)
  | lm_connection_close
  | lm_connection_cancel_open
  | connection_incoming_dispatch
  | connection_in_event (bytes_read : Int) (read_status : GIOStatus) (parsed : List LmMessage)
  | connection_error_event
  | connection_hup_event

/-- One operation or event on a connection: the connection it leaves and the
events, or `none` where the model of the operation stops. -/
def step (env : Env) (c : LmConnection) : Op → Option (LmConnection × List Event)
  | .lm_connection_open function user_data notify os resolve =>
    match lm_connection_open os resolve c function user_data notify with
    | none => none
    | some r => some (r.2.2.1, r.2.2.2.2)
  | .lm_connection_authenticate username password resource function user_data notify =>
    let r := lm_connection_authenticate env c username password resource function user_data
      notify
    some (r.2.1, r.2.2)
  | .lm_connection_close => some (lm_connection_close c).2
  | .lm_connection_cancel_open => some (lm_connection_cancel_open c, [])
  | .connection_incoming_dispatch => connection_incoming_dispatch env c
  | .connection_in_event bytes_read read_status parsed =>
    some (connection_in_event c bytes_read read_status parsed).2
  | .connection_error_event => some (connection_error_event c).2
  | .connection_hup_event => some (connection_hup_event c).2

/-- An execution: the operations are applied in order, up to the first one whose
model stops; the result lists, for each operation applied, the connection before
it, the operation and the connection after it. -/
def exec (env : Env) : LmConnection → List Op → List (LmConnection × Op × LmConnection)
  | _, [] => []
  | c, op :: ops =>
    match step env c op with
    | none => []
    | some (c1, _) => (c, op, c1) :: exec env c1 ops

/-- The operation is one that closes the connection or reports a transport
failure: `lm_connection_close` or one of the three watch functions. -/
def closes_or_fails : Op → Prop
  | .lm_connection_close => True
  | .connection_in_event _ _ _ => True
  | .connection_error_event => True
  | .connection_hup_event => True
  | _ => False

/-- The operation is the dispatch of a queued message that is a stream stanza or
has the type attribute `error`. -/
def dispatches_stream_or_error (c : LmConnection) : Op → Prop
  | .connection_incoming_dispatch =>
    ∃ m rest, c.incoming_messages = m :: rest ∧
      (lm_message_get_type m = .STREAM ∨
        lm_message_node_get_attribute m.node "type" = some "error")
  | _ => False

/-- The operation is `lm_connection_authenticate`. -/
def is_authenticate : Op → Prop
  | .lm_connection_authenticate _ _ _ _ _ _ => True
  | _ => False

/-- The changes of the lifecycle state the engine makes: the state stays or moves
forward in the order of the enum; or it becomes DISCONNECTED by a close or a
transport failure; or it becomes CONNECTED by the dispatch of a stream stanza or
of an error reply; or it goes from AUTHENTICATED to AUTHENTICATING by a further
`lm_connection_authenticate`. -/
def lifecycle_change_ok (c : LmConnection) (op : Op) (c1 : LmConnection) : Prop :=
  c.state.toNat ≤ c1.state.toNat ∨
  (c1.state = .DISCONNECTED ∧ closes_or_fails op) ∨
  (c1.state = .CONNECTED ∧ dispatches_stream_or_error c op) ∨
  (c.state = .AUTHENTICATED ∧ c1.state = .AUTHENTICATING ∧ is_authenticate op)

/-- A sample connection as `connection_succeeded` leaves it: the transport is
installed, the stream header is sent and the state is still CONNECTING. -/
def conn_connecting : LmConnection :=
  { conn0 with state := .CONNECTING, io_channel := some 5, fd := 5, incoming_source := 1,
               open_cb := some (_lm_utils_new_callback (some 1) 0 none) }

/-- A sample reply to the discovery request: the server offers password and
digest. -/
def discovery_reply (id : String) : LmMessage :=
  { type := .IQ,
    node := .mk "iq" none [("type", "result"), ("id", id)]
      [.mk "query" none [("xmlns", "jabber:iq:auth")]
        [.mk "username" none [] [], .mk "password" none [] [], .mk "digest" none [] []]] }

/-- A sample execution: the stream opens, the application authenticates, the
server answers the discovery request and then rejects the credentials. -/
def sample_ops : List Op :=
  [.connection_in_event 0 .NORMAL [stanza .STREAM "stream:stream" [("id", "s1")]],
   .connection_incoming_dispatch,
   .lm_connection_authenticate "romeo" "secret" "orchard" (some 9) 0 none,
   .connection_in_event 0 .NORMAL [discovery_reply "id0"],
   .connection_incoming_dispatch,
   .connection_in_event 0 .NORMAL [stanza .IQ "iq" [("type", "error"), ("id", "id1")]],
   .connection_incoming_dispatch]

/-- What handling one non-stream message can do to the state: nothing, or
AUTHENTICATED on a result reply, or CONNECTED on an error reply. -/
def reply_change (m : LmMessage) (s0 s1 : LmConnectionState) : Prop :=
  s1 = s0 ∨
  (lm_message_node_get_attribute m.node "type" = some "result" ∧ s1 = .AUTHENTICATED) ∨
  (lm_message_node_get_attribute m.node "type" = some "error" ∧ s1 = .CONNECTED)

/-- A second sample execution: the server accepts the credentials, the
application authenticates once more, and a further stream stanza arrives. -/
def sample_ops_accepted : List Op :=
  [.connection_in_event 0 .NORMAL [stanza .STREAM "stream:stream" [("id", "s1")]],
   .connection_incoming_dispatch,
   .lm_connection_authenticate "romeo" "secret" "orchard" (some 9) 0 none,
   .connection_in_event 0 .NORMAL [discovery_reply "id0"],
   .connection_incoming_dispatch,
   .connection_in_event 0 .NORMAL [stanza .IQ "iq" [("type", "result"), ("id", "id1")]],
   .connection_incoming_dispatch,
   .lm_connection_authenticate "romeo" "secret" "orchard" (some 9) 0 none,
   .connection_in_event 0 .NORMAL [stanza .STREAM "stream:stream" [("id", "s2")]],
   .connection_incoming_dispatch]

/-! ## Reading event lists -/

/-- The reasons the disconnect callback was called with, in order. -/
def disconnects (ev : List Event) : List LmDisconnectReason :=
  ev.filterMap fun e =>
    match e with
    | .disconnect _ reason => some reason
    | _ => none

/-- The raw texts written through `connection_send`, in order. -/
def raw_sends (ev : List Event) : List String :=
  ev.filterMap fun e =>
    match e with
    | .send str => some str
    | _ => none

/-- The outcomes the open callback was called with, in order. -/
def open_results (ev : List Event) : List Bool :=
  ev.filterMap fun e =>
    match e with
    | .open_result _ success => some success
    | _ => none

/-- A callback slot holds a callback whose function is set. -/
def callback_set (slot : Option LmCallback) : Bool :=
  match slot with
  | some cb => cb.func.isSome
  | none => false

/-- A sample discovery reply whose query offers no credential field at all. -/
def discovery_reply_bare (id : String) : LmMessage :=
  { type := .IQ,
    node := .mk "iq" none [("type", "result"), ("id", id)]
      [.mk "query" none [("xmlns", "jabber:iq:auth")] [.mk "username" none [] []]] }

/-! ## The incoming queue: blocking wait and dispatch passes -/

/-- The scan of the incoming queue in `lm_connection_send_with_reply_and_block`:
the positions are visited from the head, the first message whose id is the
request id is taken out of the queue and the scan stops. The result is that
message and the queue left, or none when no queued message has the id. -/
def queue_scan (id : String) : List LmMessage → Option (LmMessage × List LmMessage)
  | [] => none
  | m :: rest =>
    if lm_message_node_get_attribute m.node "id" = some id then some (m, rest)
    else
      match queue_scan id rest with
      | none => none
      | some (reply, left) => some (reply, m :: left)

/-- What a turn of the main loop can run while a blocking call waits: the three
watch functions of the transport (the incoming source is detached meanwhile). -/
inductive LoopEvent where
  | connection_in_event (bytes_read : Int) (read_status : GIOStatus) (parsed : List LmMessage)
  | connection_error_event
  | connection_hup_event
  deriving DecidableEq, Repr

/-- One watch function run on the connection. -/
def loop_event_run (c : LmConnection) : LoopEvent → LmConnection × List Event
  | .connection_in_event bytes_read read_status parsed =>
    (connection_in_event c bytes_read read_status parsed).2
  | .connection_error_event => (connection_error_event c).2
  | .connection_hup_event => (connection_hup_event c).2

/-- One call of `g_main_context_iteration`: the watch functions of the turn run
in order. -/
def loop_turn_run (c : LmConnection) : List LoopEvent → LmConnection × List Event
  | [] => (c, [])
  | e :: rest =>
    let r := loop_event_run c e
    let r2 := loop_turn_run r.1 rest
    (r2.1, r.2 ++ r2.2)

/-- The waiting loop of `lm_connection_send_with_reply_and_block`: each pass runs
one turn of the main loop and then scans the queue, until a reply is found.
`turns` lists what the successive turns run; when they are used up without a
reply the call never returns (`none`). -/
def wait_for_reply (id : String) :
    LmConnection → List (List LoopEvent) → Option (LmMessage × LmConnection × List Event)
  | _, [] => none
  | c, turn :: turns =>
    let r := loop_turn_run c turn
    match queue_scan id r.1.incoming_messages with
    | some (reply, left) => some (reply, { r.1 with incoming_messages := left }, r.2)
    | none =>
      match wait_for_reply id r.1 turns with
      | none => none
      | some (reply, c2, ev2) => some (reply, c2, r.2 ++ ev2)

/-- The call `lm_connection_send_with_reply_and_block`: the id is taken or
generated, the incoming source is detached, the message is sent (the result of
the send is not looked at), the loop waits for the reply, and a new incoming
source is attached. -/
def lm_connection_send_with_reply_and_block (env : Env) (c : LmConnection)
    (message : LmMessage) (turns : List (List LoopEvent)) :
    Option (LmMessage × LmConnection × List Event) :=
  let idm : String × LmMessage × LmConnection :=
    match lm_message_node_get_attribute message.node "id" with
    | some id => (id, message, c)
    | none =>
      let id := env.generate_id c.next_id
      (id, { message with node := lm_message_node_set_attribute message.node "id" id },
        { c with next_id := c.next_id + 1 })
  let c1 := { idm.2.2 with incoming_source := idm.2.2.incoming_source - 1 }
  let s := lm_connection_send c1 idm.2.1
  match wait_for_reply idm.1 c1 turns with
  | none => none
  | some (reply, c2, ev) =>
    some (reply, { c2 with incoming_source := c2.incoming_source + 1 }, s.2.2 ++ ev)

/-- The source function `connection_incoming_check`. -/
def connection_incoming_check (_c : LmConnection) : Bool := false

/-- The incoming source is ready in a turn of the main loop when its prepare or
its check function says so. -/
def incoming_source_ready (c : LmConnection) : Bool :=
  connection_incoming_prepare c || connection_incoming_check c

/-- What happens to the incoming queue: the parser delivers a message
(`connection_new_message_cb`) or the source makes a dispatch pass
(`connection_incoming_dispatch`). -/
inductive QueueAction where
  | new_message (m : LmMessage)
  | dispatch
  deriving DecidableEq, Repr

/-- The messages the parser delivers in a run of queue actions, in order. -/
def delivered : List QueueAction → List LmMessage
  | [] => []
  | .new_message m :: rest => m :: delivered rest
  | .dispatch :: rest => delivered rest

/-- The number of dispatch passes in a run of queue actions. -/
def dispatch_passes : List QueueAction → Nat
  | [] => 0
  | .new_message _ :: rest => dispatch_passes rest
  | .dispatch :: rest => dispatch_passes rest + 1

/-- The connection with its incoming queue replaced. -/
def set_queue (c : LmConnection) (q : List LmMessage) : LmConnection :=
  { c with incoming_messages := q }

/-- A run of queue actions on a connection: the parser callback queues a
message, a dispatch pass runs `connection_incoming_dispatch`; the result is the
connection at the end and the events of the passes, in order, or none when the
model of a dispatch stops. -/
def queue_run (env : Env) : LmConnection → List QueueAction → Option (LmConnection × List Event)
  | c, [] => some (c, [])
  | c, .new_message m :: rest => queue_run env (connection_new_message_cb c m) rest
  | c, .dispatch :: rest =>
    match connection_incoming_dispatch env c with
    | none => none
    | some (c1, ev) =>
      match queue_run env c1 rest with
      | none => none
      | some (c2, ev2) => some (c2, ev ++ ev2)

/-- The spec's reading of the order of dispatch: the messages are given to
`connection_handle_message` one after the other, in the order of the list, each
once, each on the connection the one before left. -/
def handle_in_order (env : Env) : LmConnection → List LmMessage → Option (LmConnection × List Event)
  | c, [] => some (c, [])
  | c, m :: rest =>
    match connection_handle_message env c m with
    | none => none
    | some (c1, ev) =>
      match handle_in_order env c1 rest with
      | none => none
      | some (c2, ev2) => some (c2, ev ++ ev2)

/-- The number of dispatch passes of a run that find a message, when `n`
messages are queued at its start. -/
def handed_count : Nat → List QueueAction → Nat
  | _, [] => 0
  | n, .new_message _ :: rest => handed_count (n + 1) rest
  | 0, .dispatch :: rest => handed_count 0 rest
  | n + 1, .dispatch :: rest => handed_count n rest + 1

/-- The open sample connection with its incoming source attached. -/
def conn_live : LmConnection := { conn_open with incoming_source := 1 }

/-- A sample iq stanza with the given id. -/
def iq_with_id (id : String) : LmMessage := stanza .IQ "iq" [("type", "result"), ("id", id)]

/-! ## Transport security -/

/-- The GnuTLS error code `GNUTLS_E_NO_CERTIFICATE_FOUND` (GnuTLS header). -/
def GNUTLS_E_NO_CERTIFICATE_FOUND : Int := -49

/-- Bit `k` of an `int` in two's complement. -/
def int_bit (x : Int) (k : Nat) : Bool := decide ((x / 2 ^ k) % 2 = 1)

/-- The test `status & GNUTLS_CERT_INVALID || status & GNUTLS_CERT_NOT_TRUSTED ||
status & GNUTLS_CERT_CORRUPTED || status & GNUTLS_CERT_REVOKED` of
`connection_verify_certificate`; the four flags are the values 2, 4, 16 and 32 of
the GnuTLS header. -/
def cert_status_flagged (status : Int) : Bool :=
  int_bit status 1 || int_bit status 2 || int_bit status 4 || int_bit status 5

/-- What GnuTLS and the application answer during one handshake on a socket: the
result of `gnutls_handshake`, of `gnutls_certificate_verify_peers`, the expiry
and activation times of the peer certificate and the clock at the two checks,
whether the certificate type is X.509, whether `gnutls_certificate_get_peers`
gives a list, whether the host name check succeeds, the bytes of the digest
`gnutls_x509_fingerprint` computes (none when it fails; their number is
`digest_size`), and the answers of the decision callback, by the number of calls
made before and the status asked. `beyond_expected` gives the bytes that lie in
memory behind the terminating NUL of the expected fingerprint, by offset, which
`memcmp` reads when the digest is longer than the string. -/
structure TlsSession where
  handshake : Int
  verify_peers : Int
  expiration_time : Int
  activation_time : Int
  time_at_expiry : Int
  time_at_activation : Int
  x509 : Bool
  cert_list : Bool
  hostname_ok : Bool
  fingerprint : Option (List Nat)
  ssl_function : Nat → LmSSLStatus → LmSSLResponse
  beyond_expected : Nat → Nat

/-- The bytes of a C string: the UTF-8 bytes of the text up to its first NUL. -/
def c_string_bytes (s : String) : List Nat :=
  (s.toList.flatMap fun ch => (String.utf8EncodeChar ch).map UInt8.toNat).takeWhile (· ≠ 0)

/-- The byte at offset `i` from the start of the expected fingerprint, a string
copied by `g_strdup`: a byte of the string, its terminating NUL, or what lies
behind it in memory. -/
def expected_byte (expected : String) (beyond : Nat → Nat) (i : Nat) : Nat :=
  if i < (c_string_bytes expected).length then (c_string_bytes expected).getD i 0
  else if i = (c_string_bytes expected).length then 0
  else beyond (i - (c_string_bytes expected).length - 1)

/-- The comparison `memcmp (expected_fingerprint, fingerprint, digest_size)` is
not zero: one of the first `digest_size` bytes at the expected fingerprint is not
the byte of the digest at that offset. -/
def fingerprint_differs (expected : String) (beyond : Nat → Nat) (fingerprint : List Nat) :
    Bool :=
  (List.range fingerprint.length).any fun i =>
    expected_byte expected beyond i != fingerprint.getD i 0

/-- A run of certificate checks of `connection_verify_certificate`: for each
failing check, in order, the decision callback is called with the status of the
check; an answer other than continue ends the verification with FALSE. `n` is
the number of calls made before. -/
def run_checks (f : Nat → LmSSLStatus → LmSSLResponse) :
    Nat → List (Bool × LmSSLStatus) → Bool × List Event
  | _, [] => (true, [])
  | n, (failing, status) :: rest =>
    if failing then
      if f n status = .CONTINUE then
        let r := run_checks f (n + 1) rest
        (r.1, .ssl_decision status :: r.2)
      else (false, [.ssl_decision status])
    else run_checks f n rest

/-- The checks of `connection_verify_certificate` made for every certificate
type: no certificate found, status flags, expiry, activation. -/
def general_checks (tls : TlsSession) : List (Bool × LmSSLStatus) :=
  [(decide (tls.verify_peers = GNUTLS_E_NO_CERTIFICATE_FOUND), .NO_CERT_FOUND),
   (cert_status_flagged tls.verify_peers, .UNTRUSTED_CERT),
   (decide (tls.expiration_time < tls.time_at_expiry), .CERT_EXPIRED),
   (decide (tls.activation_time > tls.time_at_activation), .CERT_NOT_ACTIVATED)]

/-- The checks of `connection_verify_certificate` made on the first certificate
of an X.509 list: host name, then the fingerprint, which is compared when an
expected fingerprint is set, and is a generic error when it cannot be computed. -/
def x509_checks (tls : TlsSession) (c : LmConnection) : List (Bool × LmSSLStatus) :=
  [(!tls.hostname_ok, .CERT_HOSTNAME_MISMATCH),
   (match tls.fingerprint with
    | some fp =>
      ((match c.expected_fingerprint with
        | some expected => fingerprint_differs expected tls.beyond_expected fp
        | none => false), LmSSLStatus.CERT_FINGERPRINT_MISMATCH)
    | none => (true, LmSSLStatus.GENERIC_ERROR))]

/-- The static `connection_verify_certificate`: the gboolean and the calls of
the decision callback. When the certificate list of an X.509 session is NULL and
the callback lets the verification go on, the source hands the NULL certificate
on to GnuTLS, where the model stops (`none`). -/
def connection_verify_certificate (tls : TlsSession) (c : LmConnection) :
    Option (Bool × List Event) :=
  let r1 := run_checks tls.ssl_function 0 (general_checks tls)
  if !r1.1 then some (false, r1.2)
  else if !tls.x509 then some (true, r1.2)
  else if !tls.cert_list then
    if tls.ssl_function r1.2.length .NO_CERT_FOUND = .CONTINUE then none
    else some (false, r1.2 ++ [.ssl_decision .NO_CERT_FOUND])
  else
    let r2 := run_checks tls.ssl_function r1.2.length (x509_checks tls c)
    some (r2.1, r1.2 ++ r2.2)

/-- The static `connection_begin_ssl`: without SSL it does nothing and succeeds;
with SSL the handshake runs on the descriptor of the connection and, when it
succeeds, the certificate is verified; a failed handshake or verification shuts
the socket down, closes it and runs `connection_do_close`. -/
def connection_begin_ssl (tls : TlsSession) (c : LmConnection) :
    Option (Bool × Option LmError × LmConnection × List Event) :=
  if lm_connection_get_use_ssl c then
    let verified : Option (Bool × List Event) :=
      if tls.handshake ≥ 0 then connection_verify_certificate tls c else some (true, [])
    match verified with
    | none => none
    | some v =>
      if tls.handshake < 0 || !v.1 then
        let d := connection_do_close c
        some (false, some .CONNECTION_OPEN, d.1,
          [Event.gnutls_handshake c.fd] ++ v.2 ++ [.socket_shutdown c.fd] ++ d.2)
      else some (true, none, c, [Event.gnutls_handshake c.fd] ++ v.2)
  else some (true, none, c, [])

/-! ## The connect callback -/

/-- Modelled from the spec: the node name `lm_message_new` gives a message of a
type (lm-message.c is not among the sources): the stanza names of the spec,
section 6. -/
def _lm_message_type_to_string : LmMessageType → String
  | .MESSAGE => "message"
  | .PRESENCE => "presence"
  | .IQ => "iq"
  | .STREAM => "stream:stream"
  | .UNKNOWN => "unknown"

/-- Modelled from the spec: `lm_message_new` of lm-message.c (not among the
sources): a root node named after the type, with the addressee as `to`
attribute when one is given. -/
def lm_message_new (addressee : Option String) (type : LmMessageType) : LmMessage :=
  { type := type,
    node := .mk (_lm_message_type_to_string type) none
      (match addressee with
       | some t => [("to", t)]
       | none => []) [] }

/-- The stream-opening stanza `connection_succeeded` sends: a stream message to
the server with the two namespace attributes. -/
def stream_open_message (c : LmConnection) : LmMessage :=
  let m := lm_message_new c.server .STREAM
  let n1 := lm_message_node_set_attribute m.node "xmlns:stream"
    "http://etherx.jabber.org/streams"
  { m with node := lm_message_node_set_attribute n1 "xmlns" "jabber:client" }

/-- The channel is switched to blocking mode, when there is one. -/
def set_blocking_events (io_channel : Option Nat) : List Event :=
  match io_channel with
  | some ch => [.set_blocking ch]
  | none => []

/-- The three transport watches are installed on the channel, when there is one. -/
def io_watches_events (io_channel : Option Nat) : List Event :=
  match io_channel with
  | some ch => [.io_watches ch]
  | none => []

/-- The static `connection_succeeded` (its gboolean is always FALSE): the
connection it leaves and the events. With the cancel flag set it returns at
once, leaving the attempt allocated; otherwise the socket of the attempt becomes
the transport of the connection, the attempt is freed, the security layer runs,
the watches are installed and the stream header is sent. -/
def connection_succeeded (tls : TlsSession) (c : LmConnection) (connect_data : LmConnectData) :
    Option (LmConnection × List Event) :=
  if c.cancel_open then some (c, [])
  else
    let c1 := { c with fd := connect_data.fd, io_channel := connect_data.io_channel }
    let ev0 := set_blocking_events c1.io_channel
    match connection_begin_ssl tls c1 with
    | none => none
    | some (ok, _, c2, ev1) =>
      if !ok then
        some ({ c2 with fd := -1 }, ev0 ++ ev1 ++ channel_unref_events c2.io_channel)
      else
        let ev2 := io_watches_events c2.io_channel
        let s1 := connection_send c2 "<?xml version='1.0' encoding='UTF-8'?>"
        if !s1.1 then
          let d := connection_do_close c2
          some (d.1, ev0 ++ ev1 ++ ev2 ++ s1.2.2 ++ d.2)
        else
          let s2 := lm_connection_send c2 (stream_open_message c2)
          if !s2.1 then
            let d := connection_do_close c2
            some (d.1, ev0 ++ ev1 ++ ev2 ++ s1.2.2 ++ s2.2.2 ++ d.2)
          else some (c2, ev0 ++ ev1 ++ ev2 ++ s1.2.2 ++ s2.2.2)

/-- The watch function `connection_connect_cb` (its gboolean is always FALSE, so
the watch that fired is removed). `negotiate` is the result of
`_lm_proxy_negotiate` on the socket. The result is the connection, the attempt
that is left with a watch on its socket, and the events. On an error condition
the attempt fails over. When the socket is writable and a proxy is set, a failed
negotiation fails over as well, and then, there being no return, the source goes
on to `connection_succeeded` with the same `connect_data`; the model stops
(`none`) when that has been freed by the fail-over, and on a condition that is
neither of the two (`g_assert_not_reached`). -/
def connection_connect_cb (tls : TlsSession) (os : Nat → ConnectOutcome) (negotiate : Bool)
    (c : LmConnection) (connect_data : LmConnectData) :
    GIOCondition → Option (LmConnection × Option LmConnectData × List Event)
  | .ERR =>
    match connection_failed_with_error c os connect_data with
    | none => none
    | some (cd, ev) => some (c, cd, ev)
  | .OUT =>
    match c.proxy with
    | none =>
      match connection_succeeded tls c connect_data with
      | none => none
      | some (c1, ev) => some (c1, none, ev)
    | some _ =>
      if negotiate then
        match connection_succeeded tls c connect_data with
        | none => none
        | some (c1, ev) => some (c1, none, Event.proxy_negotiate connect_data.fd :: ev)
      else
        match connection_failed_with_error c os connect_data with
        | none => none
        | some (none, _) => none
        | some (some cd, ev1) =>
          match connection_succeeded tls c cd with
          | none => none
          | some (c1, ev2) =>
            some (c1, some cd, Event.proxy_negotiate connect_data.fd :: ev1 ++ ev2)
  | .other => none

/-- The conditions that fire, one after the other, on the socket of the attempt
that is waiting: each goes to `connection_connect_cb`; when no attempt is
waiting nothing fires any more. -/
def connect_run (tls : TlsSession) (os : Nat → ConnectOutcome) (negotiate : Bool) :
    LmConnection → Option LmConnectData → List GIOCondition →
      Option (LmConnection × Option LmConnectData × List Event)
  | c, cd, [] => some (c, cd, [])
  | c, none, _ :: _ => some (c, none, [])
  | c, some cd, condition :: rest =>
    match connection_connect_cb tls os negotiate c cd condition with
    | none => none
    | some (c1, cd1, ev) =>
      match connect_run tls os negotiate c1 cd1 rest with
      | none => none
      | some (c2, cd2, ev2) => some (c2, cd2, ev ++ ev2)

/-- An open followed by the conditions that fire on the sockets of its connect
attempt: `lm_connection_open`, then `connect_run`. -/
def open_and_connect (tls : TlsSession) (os : Nat → ConnectOutcome)
    (resolve : String → Option (List Nat)) (negotiate : Bool) (c : LmConnection)
    (function : Option Nat) (conditions : List GIOCondition) :
    Option (LmConnection × Option LmConnectData × List Event) :=
  match lm_connection_open os resolve c function 0 none with
  | none => none
  | some r =>
    match connect_run tls os negotiate r.2.2.1 r.2.2.2.1 conditions with
    | none => none
    | some (c2, cd2, ev2) => some (c2, cd2, r.2.2.2.2 ++ ev2)

/-- An attempt that waits on the socket `fd` of its current candidate. -/
def waiting_attempt (resolved_addrs current_addr : List Nat) (fd : Nat) : LmConnectData :=
  { resolved_addrs := resolved_addrs, current_addr := current_addr, fd := fd,
    io_channel := some fd }

/-- The connection as `lm_connection_open` sets it up before resolving: the
open callback stored, one more incoming source attached, the cancel flag
cleared, the state CONNECTING. -/
def opening (c : LmConnection) (function : Option Nat) : LmConnection :=
  { c with open_cb := some (_lm_utils_new_callback function 0 none),
           incoming_source := c.incoming_source + 1, cancel_open := false,
           state := .CONNECTING }

/-- The events of the candidates that were tried and failed by an error
condition on their socket: for each, in order, the connect is started, its
socket is watched, and the fail-over drops the channel. -/
def failover_events (port : Nat) (sock : Nat → Nat) (failed : List Nat) : List Event :=
  (failed.map fun p =>
    [Event.trying p port, .watch (sock p), .channel_unref (sock p)]).flatten

/-- The TLS handshakes started, by descriptor, in order. -/
def handshakes (ev : List Event) : List Int :=
  ev.filterMap fun e =>
    match e with
    | .gnutls_handshake fd => some fd
    | _ => none

/-- The channels dropped by a fail-over or a close, in order. -/
def channel_unrefs (ev : List Event) : List Nat :=
  ev.filterMap fun e =>
    match e with
    | .channel_unref ch => some ch
    | _ => none

/-- The messages written through `lm_connection_send`, in order. -/
def message_sends (ev : List Event) : List LmMessage :=
  ev.filterMap fun e =>
    match e with
    | .send_message m => some m
    | _ => none

/-- A sample MD5 digest of a certificate: sixteen bytes. -/
def sample_digest : List Nat :=
  [1, 35, 69, 103, 137, 171, 205, 239, 254, 220, 186, 152, 118, 84, 50, 16]

/-- A sample session without surprises: the handshake succeeds and every check
passes. -/
def tls_ok : TlsSession :=
  { handshake := 0, verify_peers := 0, expiration_time := 2000, activation_time := 1000,
    time_at_expiry := 1500, time_at_activation := 1500, x509 := true, cert_list := true,
    hostname_ok := true, fingerprint := some sample_digest,
    ssl_function := fun _ _ => .CONTINUE, beyond_expected := fun _ => 0 }

/-- The candidates a connect was started on, in order. -/
def tried (ev : List Event) : List Nat :=
  ev.filterMap fun e =>
    match e with
    | .trying addr _ => some addr
    | _ => none

/-- The event of `connection_initilize_gnutls` in an open: GnuTLS is set up when
the connection uses SSL. -/
def gnutls_init_events (c : LmConnection) : List Event :=
  if lm_connection_get_use_ssl c then [.gnutls_global_init] else []

/-- A sample run of the operating system: every connect is in progress, on the
socket numbered 100 above the candidate. -/
def sample_os : Nat → ConnectOutcome := fun a => .in_progress (a + 100)

/-- A sample resolver: every host resolves to the given candidates. -/
def sample_resolve (addrs : List Nat) : String → Option (List Nat) := fun _ => some addrs

/-- A sample connection that uses SSL. -/
def conn_tls : LmConnection := { conn0 with ssl_func := some 5 }

/-- A sample connection that goes through a proxy. -/
def conn_proxy : LmConnection := { conn0 with proxy := some ⟨"proxy.example.org", 8080⟩ }

/-! ## Certificate verification, as the specification words it -/

/-- The spec's list of the checks that fail, in the order it fixes: no
certificate found, untrusted, expired, not activated, then for an X.509
certificate the host name and the fingerprint (a generic error when the
fingerprint cannot be computed). -/
def spec_failing_checks (tls : TlsSession) (c : LmConnection) : List LmSSLStatus :=
  (if tls.verify_peers = GNUTLS_E_NO_CERTIFICATE_FOUND then [.NO_CERT_FOUND] else []) ++
  (if cert_status_flagged tls.verify_peers then [.UNTRUSTED_CERT] else []) ++
  (if tls.expiration_time < tls.time_at_expiry then [.CERT_EXPIRED] else []) ++
  (if tls.activation_time > tls.time_at_activation then [.CERT_NOT_ACTIVATED] else []) ++
  (if tls.x509 then
    (if tls.hostname_ok then [] else [.CERT_HOSTNAME_MISMATCH]) ++
    (match tls.fingerprint, c.expected_fingerprint with
     | none, _ => [.GENERIC_ERROR]
     | some fp, some expected =>
       if fingerprint_differs expected tls.beyond_expected fp then
         [.CERT_FINGERPRINT_MISMATCH]
       else []
     | some _, none => [])
   else [])

/-- The failing checks in the order of the code: as `spec_failing_checks`, but
for an X.509 session without a certificate list the only further check is a
second no-certificate-found. -/
def verify_failing_checks (tls : TlsSession) (c : LmConnection) : List LmSSLStatus :=
  if tls.x509 && !tls.cert_list then
    (if tls.verify_peers = GNUTLS_E_NO_CERTIFICATE_FOUND then [.NO_CERT_FOUND] else []) ++
    (if cert_status_flagged tls.verify_peers then [.UNTRUSTED_CERT] else []) ++
    (if tls.expiration_time < tls.time_at_expiry then [.CERT_EXPIRED] else []) ++
    (if tls.activation_time > tls.time_at_activation then [.CERT_NOT_ACTIVATED] else []) ++
    [.NO_CERT_FOUND]
  else spec_failing_checks tls c

/-- The spec's rule for the decisions asked: the callback is asked about the
failing checks in order, up to and including the first answer that is not
continue. `n` is the number of calls made before. -/
def spec_decisions (f : Nat → LmSSLStatus → LmSSLResponse) :
    Nat → List LmSSLStatus → List LmSSLStatus
  | _, [] => []
  | n, s :: rest => s :: (if f n s = .CONTINUE then spec_decisions f (n + 1) rest else [])

/-- The spec's rule for the result: success exactly when every answer is
continue. -/
def spec_success (f : Nat → LmSSLStatus → LmSSLResponse) : Nat → List LmSSLStatus → Bool
  | _, [] => true
  | n, s :: rest => decide (f n s = .CONTINUE) && spec_success f (n + 1) rest

/-- The verification as the spec words it, over a list of failing checks: the
result and the calls of the decision callback. -/
def spec_verify (f : Nat → LmSSLStatus → LmSSLResponse) (failing : List LmSSLStatus) :
    Bool × List Event :=
  (spec_success f 0 failing, (spec_decisions f 0 failing).map Event.ssl_decision)

/-- The statuses of the checks of a list that fail, in order. -/
def failing_of (checks : List (Bool × LmSSLStatus)) : List LmSSLStatus :=
  (checks.filter fun p => p.1).map fun p => p.2

/-- A sample session in which the peer presents no certificate: the
verification reports no certificate, the times of the absent certificate are
-1, the certificate list is NULL. The decision callback lets the first three
concerns pass and stops at the fourth. -/
def tls_no_cert : TlsSession :=
  { handshake := 0, verify_peers := GNUTLS_E_NO_CERTIFICATE_FOUND, expiration_time := -1,
    activation_time := -1, time_at_expiry := 1500, time_at_activation := 1500, x509 := true,
    cert_list := false, hostname_ok := true, fingerprint := some sample_digest,
    ssl_function := fun n _ => if n < 3 then .CONTINUE else .STOP,
    beyond_expected := fun _ => 0 }
/-- A sample session whose certificate is expired, carries another host name and
has a fingerprint; the decision callback lets everything pass but a host name
mismatch. -/
def tls_expired : TlsSession :=
  { handshake := 0, verify_peers := 0, expiration_time := 1000, activation_time := 500,
    time_at_expiry := 1500, time_at_activation := 1500, x509 := true, cert_list := true,
    hostname_ok := false, fingerprint := some sample_digest,
    ssl_function := fun _ s => if s = .CERT_HOSTNAME_MISMATCH then .STOP else .CONTINUE,
    beyond_expected := fun _ => 0 }

/-- A sample connection that uses SSL and expects a fingerprint. -/
def conn_pinned : LmConnection := { conn_tls with expected_fingerprint := some "ffffffffffffffff" }

/-- A sample run that cancels late: an open with result callback 1 on a
connection that uses SSL, the socket of the only candidate becomes writable
(`connection_succeeded` runs: handshake, stream header), then
`lm_connection_cancel_open` is called while the state is CONNECTING, then the
stream opening of the server is read and dispatched. The result is the state
when the cancel was called, the connection at the end and all events. -/
def cancel_late_run : Option (LmConnectionState × LmConnection × List Event) :=
  match open_and_connect tls_ok sample_os (sample_resolve [10]) true conn_tls (some 1) [.OUT] with
  | none => none
  | some r =>
    let c1 := lm_connection_cancel_open r.1
    let c2 := (connection_in_event c1 1 .NORMAL [stanza .STREAM "stream:stream" [("id", "s1")]]).2.1
    match connection_incoming_dispatch env0 c2 with
    | none => none
    | some d => some (r.1.state, d.1, r.2.2 ++ d.2)
/-- The connect attempt an operation starts: the one `lm_connection_open` leaves
waiting on its socket, if any; no other operation creates one. -/
def attempt_started (c : LmConnection) : Op → Option LmConnectData
  | .lm_connection_open function user_data notify os resolve =>
    match lm_connection_open os resolve c function user_data notify with
    | some r => r.2.2.2.1
    | none => none
  | _ => none

/-- What happens in a run on one connection: an operation or engine event on the
connection, or a condition that fires on the socket of the `i`-th connect
attempt that is waiting (with what GnuTLS, the operating system and the proxy
negotiation answer in `connection_connect_cb`). -/
inductive RunOp where
  | op (o : Op)
  | socket_condition (i : Nat) (condition : GIOCondition) (tls : TlsSession)
      (os : Nat → ConnectOutcome) (negotiate : Bool)

/-- One step of a run on a connection and the connect attempts that wait on
their sockets: an open adds the attempt it starts; a socket condition runs
`connection_connect_cb` on its attempt, which stops waiting and may leave its
successor on the next candidate. -/
def run_step (env : Env) (w : LmConnection × List LmConnectData) :
    RunOp → Option (LmConnection × List LmConnectData)
  | .op o =>
    match step env w.1 o with
    | none => none
    | some r => some (r.1, w.2 ++ (attempt_started w.1 o).toList)
  | .socket_condition i condition tls os negotiate =>
    match w.2.get? i with
    | none => some w
    | some cd =>
      match connection_connect_cb tls os negotiate w.1 cd condition with
      | none => none
      | some r => some (r.1, w.2.eraseIdx i ++ r.2.1.toList)

/-- A run: the steps are applied in order, up to the first one whose model
stops; the result lists, for each step applied, what was there before, the step
and what is there after. -/
def run (env : Env) : LmConnection × List LmConnectData → List RunOp →
    List ((LmConnection × List LmConnectData) × RunOp × (LmConnection × List LmConnectData))
  | _, [] => []
  | w, o :: ops =>
    match run_step env w o with
    | none => []
    | some w1 => (w, o, w1) :: run env w1 ops

/-- The step is a call of `lm_connection_open`. -/
def is_open_call : RunOp → Bool
  | .op (.lm_connection_open _ _ _ _ _) => true
  | _ => false

/-- A sample run: two calls of `lm_connection_open` in a row, the second while
the first attempt is waiting on socket 110. -/
def open_twice : List RunOp :=
  [.op (.lm_connection_open (some 1) 0 none sample_os (sample_resolve [10])),
   .op (.lm_connection_open (some 2) 0 none (fun a => .in_progress (a + 200))
     (sample_resolve [10]))]
/-- A sample run: an open on candidates 10 and 11, an error condition on the
socket of the first, the socket of the second becomes writable, the stream
opening of the server is read and dispatched. -/
def open_once : List RunOp :=
  [.op (.lm_connection_open (some 1) 0 none sample_os (sample_resolve [10, 11])),
   .socket_condition 0 .ERR tls_ok sample_os true,
   .socket_condition 0 .OUT tls_ok sample_os true,
   .op (.connection_in_event 1 .NORMAL [stanza .STREAM "stream:stream" [("id", "s1")]]),
   .op .connection_incoming_dispatch]

/-- The spec's table of disconnect reasons for the status of a read: hang-up at
end of file, error on a read error, unknown for any other status that is not
normal, and none for a normal read and for one that is to be tried again. -/
def spec_read_reason : GIOStatus → Option LmDisconnectReason
  | .EOF => some .HUP
  | .ERROR => some .ERROR
  | .other _ => some .UNKNOWN
  | .AGAIN => none
  | .NORMAL => none

/-- The call `lm_connection_authenticate_and_block`. `lm_message_get_sub_type`
is the accessor of lm-message.c (not among the sources), none standing for a sub
type the switch does not name; `turns1` and `turns2` are what the main loop runs
during the two waits. A wait never gives a NULL reply, so the two early returns
of the source are not taken; the call does not return (`none`) when a wait does
not, and the model stops where the digest is taken of a NULL stream id and at
`g_assert_not_reached`. -/
def lm_connection_authenticate_and_block (env : Env)
    (lm_message_get_sub_type : LmMessage → Option LmMessageSubType) (c : LmConnection)
    (username password resource : String) (turns1 turns2 : List (List LoopEvent)) :
    Option ((Bool × Option LmError) × LmConnection × List Event) :=
  if !lm_connection_is_open c then some ((false, some .CONNECTION_NOT_OPEN), c, [])
  else
    match lm_connection_send_with_reply_and_block env c
        (connection_create_auth_req_msg username) turns1 with
    | none => none
    | some r1 =>
      match connection_create_auth_msg env r1.2.1 username password resource
          (connection_check_auth_type r1.1) with
      | none => none
      | some m =>
        match lm_connection_send_with_reply_and_block env r1.2.1 m turns2 with
        | none => none
        | some r2 =>
          match lm_message_get_sub_type r2.1 with
          | some .RESULT => some ((true, none), r2.2.1, r1.2.2 ++ r2.2.2)
          | some .ERROR => some ((false, some .AUTH_FAILED), r2.2.1, r1.2.2 ++ r2.2.2)
          | _ => none

/-- The watch function run closes the connection when the connection has a
channel: an error event, a hang-up event, or a read whose status is neither
normal nor try-again. -/
def closing (c : LmConnection) : LoopEvent → Bool
  | .connection_in_event bytes_read read_status _ =>
    (spec_read_reason (read_status_of c bytes_read read_status)).isSome
  | .connection_error_event => true
  | .connection_hup_event => true

/-- Modelled from the spec: the sub type of a message is the value of its
`type` attribute (lm-message.c is not among the sources). -/
def sub_type_of_attribute (m : LmMessage) : Option LmMessageSubType :=
  match lm_message_node_get_attribute m.node "type" with
  | some "get" => some .GET
  | some "set" => some .SET
  | some "result" => some .RESULT
  | some "error" => some .ERROR
  | _ => none

/-- The open sample connection with disconnect callback 4. -/
def conn_open_watched : LmConnection :=
  { conn_open with disconnect_cb := some (_lm_utils_new_callback (some 4) 0 none) }

/-- The open sample connection with disconnect callback 4, using SSL. -/
def conn_open_tls : LmConnection := { conn_open_watched with ssl_func := some 5 }

/-- The candidates a connect was started on, with the port written into the
address, in order. -/
def tried_ports (ev : List Event) : List (Nat × Nat) :=
  ev.filterMap fun e =>
    match e with
    | .trying addr port => some (addr, port)
    | _ => none

/-! # Theorems -/

/-! ## Chain order (C1) -/

theorem to_gint_of_range {x : Int} (h : gint_range x) : to_gint x = x := by
  unfold gint_range at h
  unfold to_gint
  omega

theorem insert_sorted_perm {α : Type} (func : α → α → Int) (x : α) (l : List α) :
    (g_slist_insert_sorted l x func).Perm (x :: l) := by
  induction l with
  | nil => simp [g_slist_insert_sorted]
  | cons y ys ih =>
    unfold g_slist_insert_sorted
    split
    · exact (List.Perm.cons y ih).trans (List.Perm.swap x y ys)
    · exact List.Perm.refl _

theorem compare_pos_iff (x y : HandlerData) (h : gint_range (y.priority - x.priority)) :
    connection_handler_compare_func x y > 0 ↔ y.priority > x.priority := by
  unfold connection_handler_compare_func
  rw [to_gint_of_range h]
  omega

theorem insert_sorted_pairwise (x : HandlerData) (l : List HandlerData)
    (hs : l.Pairwise (fun a b => a.priority > b.priority))
    (hne : ∀ y ∈ l, y.priority ≠ x.priority)
    (hr : ∀ y ∈ l, gint_range (y.priority - x.priority)) :
    (g_slist_insert_sorted l x connection_handler_compare_func).Pairwise
      (fun a b => a.priority > b.priority) := by
  induction l with
  | nil => simp [g_slist_insert_sorted]
  | cons y ys ih =>
    have hy := compare_pos_iff x y (hr y (List.mem_cons_self _ _))
    have hys := List.pairwise_cons.mp hs
    unfold g_slist_insert_sorted
    split
    · rename_i hpos
      have hgt := hy.mp hpos
      refine List.pairwise_cons.mpr ⟨?_, ih hys.2 (fun z hz => hne z (List.mem_cons_of_mem _ hz))
        (fun z hz => hr z (List.mem_cons_of_mem _ hz))⟩
      intro z hz
      have hz2 := (insert_sorted_perm connection_handler_compare_func x ys).subset hz
      rcases List.mem_cons.mp hz2 with rfl | hz3
      · exact hgt
      · exact hys.1 z hz3
    · rename_i hpos
      have hle : ¬ y.priority > x.priority := fun hgt => hpos (hy.mpr hgt)
      have hne2 := hne y (List.mem_cons_self _ _)
      have hxy : x.priority > y.priority := by omega
      refine List.pairwise_cons.mpr ⟨?_, hs⟩
      intro z hz
      rcases List.mem_cons.mp hz with rfl | hz3
      · exact hxy
      · have := hys.1 z hz3
        omega

theorem register_all_eq (c : LmConnection) (type : LmMessageType) (h : type ≠ .UNKNOWN)
    (regs : List (LmMessageHandler × Int)) :
    register_all c type regs =
      { c with handlers := fun t =>
          if t = type then chain_of (c.handlers type) regs else c.handlers t } := by
  induction regs generalizing c with
  | nil =>
    simp only [register_all, chain_of, List.foldl_nil]
    cases c
    simp only [LmConnection.mk.injEq, true_and, and_true]
    funext t
    split
    · rename_i ht; rw [ht]
    · rfl
  | cons r rs ih =>
    have hstep : register_all c type (r :: rs)
        = register_all (lm_connection_register_message_handler c r.1 type r.2) type rs := rfl
    rw [hstep, ih]
    simp only [lm_connection_register_message_handler, if_neg h, chain_of, List.foldl_cons,
      if_true]
    congr 1
    funext t
    by_cases ht : t = type <;> simp [ht]

theorem chain_of_perm (l0 : List HandlerData) (regs : List (LmMessageHandler × Int)) :
    (chain_of l0 regs).Perm
      ((regs.map fun r => ({ priority := r.2, handler := r.1 } : HandlerData)).reverse ++ l0) := by
  induction regs generalizing l0 with
  | nil => simp [chain_of]
  | cons r rs ih =>
    have hstep : chain_of l0 (r :: rs) = chain_of (g_slist_insert_sorted l0
      { priority := r.2, handler := r.1 } connection_handler_compare_func) rs := rfl
    rw [hstep]
    refine (ih _).trans ?_
    simp only [List.map_cons, List.reverse_cons, List.append_assoc, List.singleton_append]
    exact List.Perm.append_left _ (insert_sorted_perm _ _ _)

theorem chain_of_pairwise (l0 : List HandlerData) (regs : List (LmMessageHandler × Int))
    (hs : l0.Pairwise (fun a b => a.priority > b.priority))
    (hd1 : ∀ y ∈ l0, ∀ r ∈ regs, y.priority ≠ r.2)
    (hd2 : regs.Pairwise (fun a b => a.2 ≠ b.2))
    (hr1 : ∀ y ∈ l0, ∀ r ∈ regs, gint_range (y.priority - r.2))
    (hr2 : ∀ a ∈ regs, ∀ b ∈ regs, gint_range (a.2 - b.2)) :
    (chain_of l0 regs).Pairwise (fun a b => a.priority > b.priority) := by
  induction regs generalizing l0 with
  | nil => simpa [chain_of] using hs
  | cons r rs ih =>
    have hstep : chain_of l0 (r :: rs) = chain_of (g_slist_insert_sorted l0
      { priority := r.2, handler := r.1 } connection_handler_compare_func) rs := rfl
    rw [hstep]
    have hd2c := List.pairwise_cons.mp hd2
    have hmem : ∀ y ∈ g_slist_insert_sorted l0 { priority := r.2, handler := r.1 }
        connection_handler_compare_func, y.priority = r.2 ∨ y ∈ l0 := by
      intro y hy
      have := (insert_sorted_perm connection_handler_compare_func _ l0).subset hy
      rcases List.mem_cons.mp this with h | h
      · left; rw [h]
      · right; exact h
    apply ih
    · exact insert_sorted_pairwise _ l0 hs
        (fun y hy => hd1 y hy r (List.mem_cons_self _ _))
        (fun y hy => hr1 y hy r (List.mem_cons_self _ _))
    · intro y hy q hq
      rcases hmem y hy with h | h
      · rw [h]; exact hd2c.1 q hq
      · exact hd1 y h q (List.mem_cons_of_mem _ hq)
    · exact hd2c.2
    · intro y hy q hq
      rcases hmem y hy with h | h
      · rw [h]; exact hr2 r (List.mem_cons_self _ _) q (List.mem_cons_of_mem _ hq)
      · exact hr1 y h q (List.mem_cons_of_mem _ hq)
    · intro a ha b hb
      exact hr2 a (List.mem_cons_of_mem _ ha) b (List.mem_cons_of_mem _ hb)

theorem handle_chain_allow (env : Env) (m : LmMessage) (chain : List HandlerData)
    (c : LmConnection) (h : ∀ hd ∈ chain, answers_allow hd.handler m) :
    connection_handle_chain env m chain .ALLOW_MORE_HANDLERS c =
      some (c, chain.map fun hd => Event.handler hd.handler.ident m) := by
  induction chain with
  | nil => rfl
  | cons hd l ih =>
    obtain ⟨f, hf, hfm⟩ := h hd (List.mem_cons_self _ _)
    have ih2 := ih (fun x hx => h x (List.mem_cons_of_mem _ hx))
    simp only [connection_handle_chain, _lm_message_handler_handle_message, hf, hfm, if_true,
      ih2, List.map_cons, List.singleton_append]

theorem handle_id_no_match (env : Env) (c : LmConnection) (m : LmMessage)
    (hnoid : ∀ id, lm_message_node_get_attribute m.node "id" = some id →
      g_hash_table_lookup c.id_handlers id = none) :
    connection_handle_id env c m = some (.ALLOW_MORE_HANDLERS, c, []) := by
  unfold connection_handle_id
  cases hid : lm_message_node_get_attribute m.node "id" with
  | none => rfl
  | some id => simp only [hnoid id hid]

/-- Dispatch of a message that matches no id-based handler, when every entry of
the chain of its type answers ALLOW_MORE_HANDLERS: the chain is walked in full,
in chain order, and the connection is left as it was. -/
theorem handle_message_walks_chain (env : Env) (c : LmConnection) (m : LmMessage)
    (h1 : lm_message_get_type m ≠ .STREAM) (h2 : lm_message_get_type m ≠ .UNKNOWN)
    (hnoid : ∀ id, lm_message_node_get_attribute m.node "id" = some id →
      g_hash_table_lookup c.id_handlers id = none)
    (h : ∀ hd ∈ c.handlers (lm_message_get_type m), answers_allow hd.handler m) :
    connection_handle_message env c m =
      some (c, (c.handlers (lm_message_get_type m)).map
        fun hd => Event.handler hd.handler.ident m) := by
  unfold connection_handle_message
  rw [if_neg h1, handle_id_no_match env c m hnoid]
  simp only [if_neg h2, handle_chain_allow env m _ c h, List.nil_append]
  simp

theorem sorted_perm_unique (l1 l2 : List HandlerData) (hp : l1.Perm l2)
    (h1 : l1.Pairwise (fun a b => a.priority > b.priority))
    (h2 : l2.Pairwise (fun a b => a.priority > b.priority)) : l1 = l2 := by
  haveI : IsAntisymm HandlerData (fun a b => a.priority > b.priority) :=
    ⟨fun a b hab hba => absurd hab (by omega)⟩
  exact List.eq_of_perm_of_sorted hp h1 h2

theorem chain_of_nil_facts (regs : List (LmMessageHandler × Int))
    (hdistinct : regs.Pairwise (fun a b => a.2 ≠ b.2))
    (hrange : ∀ a ∈ regs, ∀ b ∈ regs, gint_range (a.2 - b.2)) :
    (chain_of [] regs).Perm
        (regs.map fun r => ({ priority := r.2, handler := r.1 } : HandlerData)) ∧
      (chain_of [] regs).Pairwise (fun a b => a.priority > b.priority) := by
  constructor
  · have h := chain_of_perm [] regs
    rw [List.append_nil] at h
    exact h.trans (List.reverse_perm _)
  · exact chain_of_pairwise [] regs List.Pairwise.nil (fun y hy => by cases hy) hdistinct
      (fun y hy => by cases hy) hrange

/-- C1: handlers registered for one message type with pairwise distinct
priorities, in any order, are invoked for a message of that type that matches no
id-based handler in strictly descending priority order, each once, as long as
each answers ALLOW_MORE_HANDLERS: there is one order of the registrations,
strictly descending in priority, in which the handlers are invoked whatever the
order of the registration calls was. The priorities are such that their
differences, which the compare function computes, are values of `gint`. -/
theorem C1_dispatch_in_descending_priority (env : Env) (c : LmConnection)
    (type : LmMessageType) (regs : List (LmMessageHandler × Int)) (m : LmMessage)
    (ht1 : type ≠ .STREAM) (ht2 : type ≠ .UNKNOWN) (hm : lm_message_get_type m = type)
    (hempty : c.handlers type = [])
    (hnoid : ∀ id, lm_message_node_get_attribute m.node "id" = some id →
      g_hash_table_lookup c.id_handlers id = none)
    (hallow : ∀ r ∈ regs, answers_allow r.1 m)
    (hdistinct : regs.Pairwise (fun a b => a.2 ≠ b.2))
    (hrange : ∀ a ∈ regs, ∀ b ∈ regs, gint_range (a.2 - b.2)) :
    ∃ order : List (LmMessageHandler × Int),
      order.Perm regs ∧ order.Pairwise (fun a b => a.2 > b.2) ∧
      ∀ regs2 : List (LmMessageHandler × Int), regs2.Perm regs →
        connection_handle_message env (register_all c type regs2) m =
          some (register_all c type regs2,
            order.map fun r => Event.handler r.1.ident m) := by
  obtain ⟨hperm, hsorted⟩ := chain_of_nil_facts regs hdistinct hrange
  refine ⟨(chain_of [] regs).map (fun hd => (hd.handler, hd.priority)), ?_, ?_, ?_⟩
  · have h := hperm.map (fun hd : HandlerData => (hd.handler, hd.priority))
    simpa [List.map_map, Function.comp_def] using h
  · exact List.pairwise_map.mpr hsorted
  · intro regs2 hp
    have hdistinct2 : regs2.Pairwise (fun a b => a.2 ≠ b.2) :=
      (hp.pairwise_iff (fun {a b} (h : a.2 ≠ b.2) => (Ne.symm h : b.2 ≠ a.2))).mpr hdistinct
    have hrange2 : ∀ a ∈ regs2, ∀ b ∈ regs2, gint_range (a.2 - b.2) :=
      fun a ha b hb => hrange a (hp.subset ha) b (hp.subset hb)
    obtain ⟨hperm2, hsorted2⟩ := chain_of_nil_facts regs2 hdistinct2 hrange2
    have hchain : chain_of [] regs2 = chain_of [] regs :=
      sorted_perm_unique _ _
        ((hperm2.trans (hp.map _)).trans hperm.symm) hsorted2 hsorted
    have hreg := register_all_eq c type ht2 regs2
    have hh : (register_all c type regs2).handlers (lm_message_get_type m)
        = chain_of [] regs := by
      rw [hreg, hm]
      simp only [if_true, hempty, hchain]
    have hidh : (register_all c type regs2).id_handlers = c.id_handlers := by rw [hreg]
    have hres := handle_message_walks_chain env (register_all c type regs2) m
      (by rw [hm]; exact ht1) (by rw [hm]; exact ht2) (by rw [hidh]; exact hnoid)
      (by
        rw [hh]
        intro hd hhd
        obtain ⟨r, hr, hrd⟩ := List.mem_map.mp (hperm.subset hhd)
        rw [← hrd]
        exact hallow r hr)
    rw [hres, hh, List.map_map]
    rfl

/-- C1 at a sample input: three handlers registered in the order NORMAL, FIRST,
LAST on a fresh connection. -/
theorem C1_dispatch_in_descending_priority_witness :
    ∃ order : List (LmMessageHandler × Int),
      order.Perm [(app_handler 2 .ALLOW_MORE_HANDLERS, LM_HANDLER_PRIORITY_NORMAL),
        (app_handler 3 .ALLOW_MORE_HANDLERS, LM_HANDLER_PRIORITY_FIRST),
        (app_handler 1 .ALLOW_MORE_HANDLERS, LM_HANDLER_PRIORITY_LAST)] ∧
      order.Pairwise (fun a b => a.2 > b.2) ∧
      ∀ regs2 : List (LmMessageHandler × Int),
        regs2.Perm [(app_handler 2 .ALLOW_MORE_HANDLERS, LM_HANDLER_PRIORITY_NORMAL),
          (app_handler 3 .ALLOW_MORE_HANDLERS, LM_HANDLER_PRIORITY_FIRST),
          (app_handler 1 .ALLOW_MORE_HANDLERS, LM_HANDLER_PRIORITY_LAST)] →
        connection_handle_message env0 (register_all conn0 .MESSAGE regs2)
            (stanza .MESSAGE "message" [("id", "m1")]) =
          some (register_all conn0 .MESSAGE regs2,
            order.map fun r => Event.handler r.1.ident
              (stanza .MESSAGE "message" [("id", "m1")])) :=
  C1_dispatch_in_descending_priority env0 conn0 .MESSAGE _ _ (by decide) (by decide) rfl rfl
    (fun _ _ => rfl)
    (by
      intro r hr
      simp only [List.mem_cons, List.mem_singleton, List.not_mem_nil, or_false] at hr
      rcases hr with rfl | rfl | rfl <;> exact ⟨_, rfl, rfl⟩)
    (by simp [LM_HANDLER_PRIORITY_NORMAL, LM_HANDLER_PRIORITY_FIRST, LM_HANDLER_PRIORITY_LAST])
    (by
      intro a ha b hb
      simp only [List.mem_cons, List.mem_singleton, List.not_mem_nil, or_false] at ha hb
      rcases ha with rfl | rfl | rfl <;> rcases hb with rfl | rfl | rfl <;>
        simp [gint_range, LM_HANDLER_PRIORITY_NORMAL, LM_HANDLER_PRIORITY_FIRST,
          LM_HANDLER_PRIORITY_LAST])

/-! ## Id-based dispatch (C2, C3) and the chain walk (C4) -/

theorem lookup_remove_self {β : Type} (t : List (String × β)) (key : String) :
    g_hash_table_lookup (g_hash_table_remove t key) key = none := by
  unfold g_hash_table_lookup g_hash_table_remove
  induction t with
  | nil => rfl
  | cons kv rest ih =>
    obtain ⟨k, v⟩ := kv
    by_cases h : k = key
    · have hb : (k == key) = true := by simp [h]
      simp only [List.filter_cons, hb, Bool.not_true, Bool.false_eq_true, if_false]
      exact ih
    · have hb : (k == key) = false := by simp [h]
      have hne : (key == k) = false := by
        simp only [beq_eq_false_iff_ne, ne_eq]
        exact fun hk => h hk.symm
      simp only [List.filter_cons, hb, Bool.not_false, if_true]
      rw [List.lookup_cons, hne]
      exact ih

theorem lookup_insert_self {β : Type} (t : List (String × β)) (key : String) (v : β) :
    g_hash_table_lookup (g_hash_table_insert t key v) key = some v := by
  simp [g_hash_table_lookup, g_hash_table_insert, List.lookup_cons]

theorem send_with_reply_frame (env : Env) (c : LmConnection) (message : LmMessage)
    (handler : LmMessageHandler) :
    (lm_connection_send_with_reply env c message handler).2.1.handlers = c.handlers ∧
    (lm_connection_send_with_reply env c message handler).2.1.stream_id = c.stream_id ∧
    (lm_connection_send_with_reply env c message handler).2.1.state = c.state := by
  unfold lm_connection_send_with_reply
  cases lm_message_node_get_attribute message.node "id" <;> simp

/-- No handler function changes a chain or the stream id. -/
theorem handler_run_frame (env : Env) (h : LmMessageHandler) (c c1 : LmConnection)
    (m : LmMessage) (r : LmHandlerResult) (ev : List Event)
    (hrun : _lm_message_handler_handle_message env h c m = some (r, c1, ev)) :
    c1.handlers = c.handlers ∧ c1.stream_id = c.stream_id := by
  unfold _lm_message_handler_handle_message at hrun
  cases hf : h.func with
  | user f =>
    simp only [hf, Option.some.injEq, Prod.mk.injEq] at hrun
    rw [← hrun.2.1]
    exact ⟨rfl, rfl⟩
  | auth_req_reply data =>
    simp only [hf, connection_auth_req_reply] at hrun
    cases hmsg : connection_create_auth_msg env c data.username data.password data.resource
        (connection_check_auth_type m) with
    | none => simp [hmsg] at hrun
    | some auth_msg =>
      simp only [hmsg, Option.some.injEq, Prod.mk.injEq] at hrun
      rw [← hrun.2.1]
      have := send_with_reply_frame env c auth_msg
        { ident := env.auth_handler, func := .auth_reply }
      exact ⟨this.1, this.2.1⟩
  | auth_reply =>
    simp only [hf, connection_auth_reply] at hrun
    cases ht : lm_message_node_get_attribute m.node "type" with
    | none => simp [ht] at hrun
    | some type =>
      simp only [ht, Option.some.injEq, Prod.mk.injEq] at hrun
      rw [← hrun.2.1]
      by_cases h1 : type = "result"
      · simp [h1]
      · by_cases h2 : type = "error" <;> simp [h1, h2]

theorem invocations_append (a b : List Event) :
    invocations (a ++ b) = invocations a ++ invocations b := by
  simp [invocations, List.filterMap_append]

theorem send_with_reply_invocations (env : Env) (c : LmConnection) (message : LmMessage)
    (handler : LmMessageHandler) :
    invocations (lm_connection_send_with_reply env c message handler).2.2 = [] := by
  unfold lm_connection_send_with_reply lm_connection_send
  cases lm_message_node_get_attribute message.node "id" <;> simp only [] <;>
    split <;> simp [invocations]

/-- A handler that runs gives the result `handler_result` names and is the only
handler entered during its run. -/
theorem handler_run_result (env : Env) (h : LmMessageHandler) (c c1 : LmConnection)
    (m : LmMessage) (r : LmHandlerResult) (ev : List Event)
    (hrun : _lm_message_handler_handle_message env h c m = some (r, c1, ev)) :
    r = handler_result h m ∧ invocations ev = [h.ident] ∧
      ∃ rest, ev = Event.handler h.ident m :: rest := by
  unfold _lm_message_handler_handle_message at hrun
  unfold handler_result
  cases hf : h.func with
  | user f =>
    simp only [hf, Option.some.injEq, Prod.mk.injEq] at hrun
    rw [← hrun.1, ← hrun.2.2]
    exact ⟨rfl, rfl, [], rfl⟩
  | auth_req_reply data =>
    simp only [hf, connection_auth_req_reply] at hrun
    cases hmsg : connection_create_auth_msg env c data.username data.password data.resource
        (connection_check_auth_type m) with
    | none => simp [hmsg] at hrun
    | some auth_msg =>
      simp only [hmsg, Option.some.injEq, Prod.mk.injEq] at hrun
      rw [← hrun.1, ← hrun.2.2]
      refine ⟨rfl, ?_, _, rfl⟩
      have := send_with_reply_invocations env c auth_msg
        { ident := env.auth_handler, func := .auth_reply }
      simp only [invocations, List.filterMap_cons] at this ⊢
      rw [this]
  | auth_reply =>
    simp only [hf, connection_auth_reply] at hrun
    cases ht : lm_message_node_get_attribute m.node "type" with
    | none => simp [ht] at hrun
    | some type =>
      simp only [ht, Option.some.injEq, Prod.mk.injEq] at hrun
      rw [← hrun.1, ← hrun.2.2]
      refine ⟨rfl, ?_, _, rfl⟩
      by_cases h1 : type = "result"
      · cases hcb : c.auth_cb with
        | none => simp [h1, hcb, invocations, _lm_utils_free_callback]
        | some cb =>
          cases hfn : cb.func <;> simp [h1, hcb, hfn, invocations, _lm_utils_free_callback]
      · by_cases h2 : type = "error"
        · cases hcb : c.auth_cb with
          | none => simp [h1, h2, hcb, invocations, _lm_utils_free_callback]
          | some cb =>
            cases hfn : cb.func <;>
              simp [h1, h2, hcb, hfn, invocations, _lm_utils_free_callback]
        · cases hcb : c.auth_cb with
          | none => simp [h1, h2, hcb, invocations, _lm_utils_free_callback]
          | some cb =>
            cases hfn : cb.func <;>
              simp [h1, h2, hcb, hfn, invocations, _lm_utils_free_callback]

theorem create_auth_msg_stream_id (env : Env) (c c2 : LmConnection)
    (username password resource : String) (auth_type : Nat)
    (hs : c2.stream_id = c.stream_id) :
    connection_create_auth_msg env c2 username password resource auth_type =
      connection_create_auth_msg env c username password resource auth_type := by
  unfold connection_create_auth_msg
  rw [hs]

/-- Whether a handler runs to its end depends on the connection only through the
stream id. -/
theorem handler_run_defined (env : Env) (h : LmMessageHandler) (c c2 : LmConnection)
    (m : LmMessage) (hs : c2.stream_id = c.stream_id)
    (hdef : (_lm_message_handler_handle_message env h c m).isSome) :
    (_lm_message_handler_handle_message env h c2 m).isSome := by
  unfold _lm_message_handler_handle_message at hdef ⊢
  cases hf : h.func with
  | user f => simp [hf]
  | auth_req_reply data =>
    simp only [hf, connection_auth_req_reply] at hdef ⊢
    rw [create_auth_msg_stream_id env c c2 _ _ _ _ hs]
    cases hmsg : connection_create_auth_msg env c data.username data.password data.resource
        (connection_check_auth_type m) with
    | none => simp [hmsg] at hdef
    | some auth_msg => simp
  | auth_reply =>
    simp only [hf, connection_auth_reply] at hdef ⊢
    cases ht : lm_message_node_get_attribute m.node "type" <;> simp_all

theorem handle_chain_stopped (env : Env) (m : LmMessage) (chain : List HandlerData)
    (c : LmConnection) :
    connection_handle_chain env m chain .REMOVE_MESSAGE c = some (c, []) := by
  cases chain <;> simp [connection_handle_chain]

theorem handle_chain_app (env : Env) (m : LmMessage) (chain : List HandlerData)
    (happ : chain_is_app chain) (r : LmHandlerResult) (c : LmConnection) :
    ∃ ev, connection_handle_chain env m chain r c = some (c, ev) := by
  induction chain generalizing r with
  | nil => exact ⟨[], rfl⟩
  | cons hd l ih =>
    obtain ⟨f, hf⟩ := happ hd (List.mem_cons_self _ _)
    obtain ⟨ev2, h2⟩ := ih (fun x hx => happ x (List.mem_cons_of_mem _ hx)) (f m)
    cases r with
    | REMOVE_MESSAGE => exact ⟨[], by simp [connection_handle_chain]⟩
    | ALLOW_MORE_HANDLERS =>
      refine ⟨[Event.handler hd.handler.ident m] ++ ev2, ?_⟩
      simp only [connection_handle_chain, _lm_message_handler_handle_message, hf, h2, if_true]

theorem handle_id_match (env : Env) (c c1 : LmConnection) (m : LmMessage) (id : String)
    (h : LmMessageHandler) (r : LmHandlerResult) (ev1 : List Event)
    (hid : lm_message_node_get_attribute m.node "id" = some id)
    (hlook : g_hash_table_lookup c.id_handlers id = some h)
    (hrun : _lm_message_handler_handle_message env h c m = some (r, c1, ev1)) :
    connection_handle_id env c m =
      some (r, { c1 with id_handlers := g_hash_table_remove c1.id_handlers id }, ev1) := by
  unfold connection_handle_id
  simp only [hid, hlook, hrun]

theorem handle_id_frame (env : Env) (c c0 : LmConnection) (m : LmMessage)
    (r : LmHandlerResult) (ev0 : List Event)
    (h : connection_handle_id env c m = some (r, c0, ev0)) :
    c0.handlers = c.handlers ∧ c0.stream_id = c.stream_id := by
  unfold connection_handle_id at h
  cases hid : lm_message_node_get_attribute m.node "id" with
  | none =>
    simp only [hid, Option.some.injEq, Prod.mk.injEq] at h
    rw [← h.2.1]
    exact ⟨rfl, rfl⟩
  | some id =>
    cases hl : g_hash_table_lookup c.id_handlers id with
    | none =>
      simp only [hid, hl, Option.some.injEq, Prod.mk.injEq] at h
      rw [← h.2.1]
      exact ⟨rfl, rfl⟩
    | some handler =>
      cases hrun : _lm_message_handler_handle_message env handler c m with
      | none => simp [hid, hl, hrun] at h
      | some res =>
        obtain ⟨r1, c1, ev1⟩ := res
        simp only [hid, hl, hrun, Option.some.injEq, Prod.mk.injEq] at h
        rw [← h.2.1]
        exact handler_run_frame env handler c c1 m r1 ev1 hrun

/-- The loop over a chain enters exactly the entries of `spec_invoked_entries`,
in order, provided each handler of the chain runs to its end. -/
theorem handle_chain_entries (env : Env) (m : LmMessage) (chain : List HandlerData)
    (c : LmConnection)
    (hdef : ∀ hd ∈ chain, (_lm_message_handler_handle_message env hd.handler c m).isSome) :
    ∃ c1 ev, connection_handle_chain env m chain .ALLOW_MORE_HANDLERS c = some (c1, ev) ∧
      invocations ev = (spec_invoked_entries m chain).map fun hd => hd.handler.ident := by
  induction chain generalizing c with
  | nil => exact ⟨c, [], rfl, rfl⟩
  | cons hd l ih =>
    have hhd := hdef hd (List.mem_cons_self _ _)
    obtain ⟨res, hrun⟩ := Option.isSome_iff_exists.mp hhd
    obtain ⟨r, c1, ev⟩ := res
    obtain ⟨hr, hinv, _⟩ := handler_run_result env hd.handler c c1 m r ev hrun
    have hfr := handler_run_frame env hd.handler c c1 m r ev hrun
    cases hrr : r with
    | REMOVE_MESSAGE =>
      refine ⟨c1, ev ++ [], ?_, ?_⟩
      · simp only [connection_handle_chain, hrun, if_true, hrr, handle_chain_stopped]
      · have hres : handler_result hd.handler m = .REMOVE_MESSAGE := by rw [← hr, hrr]
        simp only [spec_invoked_entries, hres, if_true, List.append_nil, hinv, List.map_cons,
          List.map_nil]
    | ALLOW_MORE_HANDLERS =>
      obtain ⟨c2, ev2, h2, hinv2⟩ := ih c1 (fun x hx =>
        handler_run_defined env x.handler c c1 m hfr.2 (hdef x (List.mem_cons_of_mem _ hx)))
      refine ⟨c2, ev ++ ev2, ?_, ?_⟩
      · rw [hrr] at hrun
        simp only [connection_handle_chain, hrun, if_true, h2]
      · have hres : handler_result hd.handler m ≠ .REMOVE_MESSAGE := by
          rw [← hr, hrr]; decide
        simp only [spec_invoked_entries, hres, if_false, invocations_append, hinv, hinv2,
          List.map_cons, List.singleton_append]

/-- C2: an id-based handler is one-shot. When a non-stream message whose id
matches a registered id-based handler is dispatched, whatever result the handler
gives, the dispatch ends with that id absent from the correlation map, and for a
later message with the same id no id-based handler is called. -/
theorem C2_id_handler_one_shot (env : Env) (c c1 : LmConnection) (m : LmMessage)
    (id : String) (h : LmMessageHandler) (r : LmHandlerResult) (ev1 : List Event)
    (hs : lm_message_get_type m ≠ .STREAM) (hu : lm_message_get_type m ≠ .UNKNOWN)
    (hid : lm_message_node_get_attribute m.node "id" = some id)
    (hlook : g_hash_table_lookup c.id_handlers id = some h)
    (hrun : _lm_message_handler_handle_message env h c m = some (r, c1, ev1))
    (happ : chain_is_app (c.handlers (lm_message_get_type m))) :
    ∃ c2 ev, connection_handle_message env c m = some (c2, ev) ∧
      g_hash_table_lookup c2.id_handlers id = none ∧
      ∀ m2 : LmMessage, lm_message_node_get_attribute m2.node "id" = some id →
        connection_handle_id env c2 m2 = some (.ALLOW_MORE_HANDLERS, c2, []) := by
  have hfr := handler_run_frame env h c c1 m r ev1 hrun
  obtain ⟨c2, hidm, hch, hnone⟩ : ∃ c2 : LmConnection,
      connection_handle_id env c m = some (r, c2, ev1) ∧ c2.handlers = c.handlers ∧
        g_hash_table_lookup c2.id_handlers id = none :=
    ⟨_, handle_id_match env c c1 m id h r ev1 hid hlook hrun, hfr.1,
      lookup_remove_self c1.id_handlers id⟩
  have hlater : ∀ m2 : LmMessage, lm_message_node_get_attribute m2.node "id" = some id →
      connection_handle_id env c2 m2 = some (.ALLOW_MORE_HANDLERS, c2, []) := by
    intro m2 hm2
    simp only [connection_handle_id, hm2, hnone]
  unfold connection_handle_message
  rw [if_neg hs, hidm]
  cases r with
  | REMOVE_MESSAGE =>
    exact ⟨c2, ev1, by simp, hnone, hlater⟩
  | ALLOW_MORE_HANDLERS =>
    have happ2 : chain_is_app (c2.handlers (lm_message_get_type m)) := by
      rw [hch]; exact happ
    obtain ⟨ev2, h2⟩ := handle_chain_app env m _ happ2 .ALLOW_MORE_HANDLERS c2
    refine ⟨c2, ev1 ++ ev2, ?_, hnone, hlater⟩
    simp only [if_neg hu, h2]
    simp

/-- C2 at a sample input: the handler stored by `lm_connection_send_with_reply`
under the generated id, and the reply carrying that id. -/
theorem C2_id_handler_one_shot_witness :
    ∃ c2 ev, connection_handle_message env0 conn_waiting reply0 = some (c2, ev) ∧
      g_hash_table_lookup c2.id_handlers "id0" = none ∧
      ∀ m2 : LmMessage, lm_message_node_get_attribute m2.node "id" = some "id0" →
        connection_handle_id env0 c2 m2 = some (.ALLOW_MORE_HANDLERS, c2, []) :=
  C2_id_handler_one_shot env0 conn_waiting conn_waiting reply0 "id0"
    (app_handler 5 .ALLOW_MORE_HANDLERS) .ALLOW_MORE_HANDLERS [.handler 5 reply0]
    (by decide) (by decide) (by decide) rfl rfl
    (by
      intro hd hhd
      have hc : conn_waiting.handlers (lm_message_get_type reply0) =
          [{ priority := 3, handler := app_handler 3 .ALLOW_MORE_HANDLERS },
           { priority := 2, handler := app_handler 2 .ALLOW_MORE_HANDLERS }] := rfl
      rw [hc] at hhd
      simp only [List.mem_cons, List.mem_singleton, List.not_mem_nil, or_false] at hhd
      rcases hhd with rfl | rfl <;> exact ⟨_, rfl⟩)

/-- C3: for a non-stream message whose id matches a registered id-based handler,
that handler is entered first; if it answers REMOVE_MESSAGE nothing else is
entered for the message; if it answers ALLOW_MORE_HANDLERS the rest of the
dispatch is the dispatch of the same message on the connection it left behind,
where the id matches nothing. -/
theorem C3_id_handler_before_chain (env : Env) (c c1 : LmConnection) (m : LmMessage)
    (id : String) (h : LmMessageHandler) (r : LmHandlerResult) (ev1 : List Event)
    (hs : lm_message_get_type m ≠ .STREAM)
    (hid : lm_message_node_get_attribute m.node "id" = some id)
    (hlook : g_hash_table_lookup c.id_handlers id = some h)
    (hrun : _lm_message_handler_handle_message env h c m = some (r, c1, ev1)) :
    ∃ c2 : LmConnection,
      c2.handlers = c.handlers ∧
      (∃ rest, ev1 = Event.handler h.ident m :: rest) ∧ invocations ev1 = [h.ident] ∧
      (r = .REMOVE_MESSAGE → connection_handle_message env c m = some (c2, ev1)) ∧
      (r = .ALLOW_MORE_HANDLERS →
        connection_handle_id env c2 m = some (.ALLOW_MORE_HANDLERS, c2, []) ∧
        connection_handle_message env c m =
          (connection_handle_message env c2 m).map fun p => (p.1, ev1 ++ p.2)) := by
  have hfr := handler_run_frame env h c c1 m r ev1 hrun
  obtain ⟨_, hinv, hfirst⟩ := handler_run_result env h c c1 m r ev1 hrun
  obtain ⟨c2, hidm, hch, hnone⟩ : ∃ c2 : LmConnection,
      connection_handle_id env c m = some (r, c2, ev1) ∧ c2.handlers = c.handlers ∧
        g_hash_table_lookup c2.id_handlers id = none :=
    ⟨_, handle_id_match env c c1 m id h r ev1 hid hlook hrun, hfr.1,
      lookup_remove_self c1.id_handlers id⟩
  have hno : connection_handle_id env c2 m = some (.ALLOW_MORE_HANDLERS, c2, []) := by
    simp only [connection_handle_id, hid, hnone]
  refine ⟨c2, hch, hfirst, hinv, ?_, ?_⟩
  · intro hr
    unfold connection_handle_message
    rw [if_neg hs, hidm, hr]
    simp
  · intro hr
    refine ⟨hno, ?_⟩
    simp only [connection_handle_message, if_neg hs, hidm, hno, hr]
    by_cases hu : lm_message_get_type m = .UNKNOWN
    · simp [hu]
    · simp only [if_neg hu]
      cases connection_handle_chain env m (c2.handlers (lm_message_get_type m))
        .ALLOW_MORE_HANDLERS c2 with
      | none => simp
      | some p => simp

/-- C3 at a sample input: the id-based handler of `conn_waiting` lets the reply
pass on to the chain for iq stanzas. -/
theorem C3_id_handler_before_chain_witness :
    ∃ c2 : LmConnection,
      c2.handlers = conn_waiting.handlers ∧
      (∃ rest, [Event.handler 5 reply0] = Event.handler 5 reply0 :: rest) ∧
      invocations [Event.handler 5 reply0] = [5] ∧
      (LmHandlerResult.ALLOW_MORE_HANDLERS = .REMOVE_MESSAGE →
        connection_handle_message env0 conn_waiting reply0 =
          some (c2, [Event.handler 5 reply0])) ∧
      (LmHandlerResult.ALLOW_MORE_HANDLERS = .ALLOW_MORE_HANDLERS →
        connection_handle_id env0 c2 reply0 = some (.ALLOW_MORE_HANDLERS, c2, []) ∧
        connection_handle_message env0 conn_waiting reply0 =
          (connection_handle_message env0 c2 reply0).map
            fun p => (p.1, [Event.handler 5 reply0] ++ p.2)) :=
  C3_id_handler_before_chain env0 conn_waiting conn_waiting reply0 "id0"
    (app_handler 5 .ALLOW_MORE_HANDLERS) .ALLOW_MORE_HANDLERS [.handler 5 reply0]
    (by decide) (by decide) rfl rfl

/-- C4: a message that reaches the chain walk (it is no stream message, its type
has a chain, and the id-based step has not consumed it) enters exactly the
entries of the chain of its type up to and including the first whose handler
answers REMOVE_MESSAGE, all of them if none does, each once and in chain order. -/
theorem C4_chain_walk_stops_at_first_remove (env : Env) (c c0 : LmConnection) (m : LmMessage)
    (ev0 : List Event)
    (hs : lm_message_get_type m ≠ .STREAM) (hu : lm_message_get_type m ≠ .UNKNOWN)
    (hidp : connection_handle_id env c m = some (.ALLOW_MORE_HANDLERS, c0, ev0))
    (hdef : ∀ hd ∈ c.handlers (lm_message_get_type m),
      (_lm_message_handler_handle_message env hd.handler c m).isSome) :
    ∃ c1 ev, connection_handle_message env c m = some (c1, ev0 ++ ev) ∧
      invocations ev =
        (spec_invoked_entries m (c.handlers (lm_message_get_type m))).map
          fun hd => hd.handler.ident := by
  have hfr := handle_id_frame env c c0 m _ ev0 hidp
  have hdef0 : ∀ hd ∈ c0.handlers (lm_message_get_type m),
      (_lm_message_handler_handle_message env hd.handler c0 m).isSome := by
    intro hd hhd
    rw [hfr.1] at hhd
    exact handler_run_defined env hd.handler c c0 m hfr.2 (hdef hd hhd)
  obtain ⟨c1, ev, hwalk, hinv⟩ := handle_chain_entries env m _ c0 hdef0
  refine ⟨c1, ev, ?_, ?_⟩
  · unfold connection_handle_message
    rw [if_neg hs, hidp]
    simp only [if_neg hu, hwalk]
    simp
  · rw [hinv, hfr.1]

/-- C5: a stream-level message goes straight to `connection_stream_received`; no
handler is entered and the correlation map and the chains stay as they were,
whatever id the message carries. -/
theorem C5_stream_message_bypasses_registry (env : Env) (c : LmConnection) (m : LmMessage)
    (hs : lm_message_get_type m = .STREAM) :
    connection_handle_message env c m = some (connection_stream_received c m) ∧
      (connection_stream_received c m).1.id_handlers = c.id_handlers ∧
      (connection_stream_received c m).1.handlers = c.handlers ∧
      invocations (connection_stream_received c m).2 = [] := by
  refine ⟨by simp [connection_handle_message, hs], rfl, rfl, ?_⟩
  unfold connection_stream_received
  cases hcb : c.open_cb with
  | none => simp [hcb, invocations, _lm_utils_free_callback]
  | some cb => cases hfn : cb.func <;> simp [hcb, hfn, invocations, _lm_utils_free_callback]

/-- C5 at a sample input: a stream stanza whose id is the one `conn_waiting`
holds an id-based handler for. -/
theorem C5_stream_message_bypasses_registry_witness :
    (g_hash_table_lookup conn_waiting.id_handlers "id0").isSome = true ∧
    connection_handle_message env0 conn_waiting (stanza .STREAM "stream:stream" [("id", "id0")])
      = some (connection_stream_received conn_waiting
          (stanza .STREAM "stream:stream" [("id", "id0")])) ∧
      (connection_stream_received conn_waiting
        (stanza .STREAM "stream:stream" [("id", "id0")])).1.id_handlers
        = conn_waiting.id_handlers ∧
      (connection_stream_received conn_waiting
        (stanza .STREAM "stream:stream" [("id", "id0")])).1.handlers = conn_waiting.handlers ∧
      invocations (connection_stream_received conn_waiting
        (stanza .STREAM "stream:stream" [("id", "id0")])).2 = [] :=
  ⟨rfl, C5_stream_message_bypasses_registry env0 conn_waiting _ rfl⟩

/-- C4 at a sample input: of the chain of handlers 3, 2, 1 the second consumes
the message, so handlers 3 and 2 are entered and handler 1 is not. -/
theorem C4_chain_walk_stops_at_first_remove_witness :
    (∃ c1 ev, connection_handle_message env0 conn_chain msg0 = some (c1, [] ++ ev) ∧
      invocations ev =
        (spec_invoked_entries msg0 (conn_chain.handlers (lm_message_get_type msg0))).map
          fun hd => hd.handler.ident) ∧
    (spec_invoked_entries msg0 (conn_chain.handlers (lm_message_get_type msg0))).map
      (fun hd => hd.handler.ident) = [3, 2] :=
  ⟨C4_chain_walk_stops_at_first_remove env0 conn_chain conn_chain msg0 [] (by decide) (by decide) rfl
    (by
      intro hd hhd
      have hc : conn_chain.handlers (lm_message_get_type msg0) =
          [{ priority := 3, handler := app_handler 3 .ALLOW_MORE_HANDLERS },
           { priority := 2, handler := app_handler 2 .REMOVE_MESSAGE },
           { priority := 1, handler := app_handler 1 .ALLOW_MORE_HANDLERS }] := rfl
      rw [hc] at hhd
      simp only [List.mem_cons, List.mem_singleton, List.not_mem_nil, or_false] at hhd
      rcases hhd with rfl | rfl | rfl <;> rfl),
    rfl⟩

/-! ## Stream opening (C6), open (C7), authentication (C9, C10) -/

/-- C6: handling the stream-opening stanza of the server stores the value of its
id attribute as the stream id, sets the state to CONNECTED, calls the open
callback, when its function is set, exactly once with success and then releases
the slot, so that a further stream stanza calls no open callback. -/
theorem C6_stream_received_opens (c : LmConnection) (m : LmMessage) :
    (connection_stream_received c m).1.stream_id = lm_message_node_get_attribute m.node "id" ∧
    (connection_stream_received c m).1.state = .CONNECTED ∧
    (connection_stream_received c m).1.open_cb = none ∧
    (connection_stream_received c m).2 =
      fire_and_free c.open_cb (fun f => Event.open_result f true) ∧
    ∀ m2 : LmMessage,
      (connection_stream_received (connection_stream_received c m).1 m2).2 = [] := by
  refine ⟨rfl, rfl, rfl, ?_, fun m2 => rfl⟩
  unfold connection_stream_received fire_and_free _lm_utils_free_callback
  cases hcb : c.open_cb with
  | none => rfl
  | some cb => cases hfn : cb.func <;> simp [hfn]

theorem do_open_refused (os : Nat → ConnectOutcome) (resolve : String → Option (List Nat))
    (c : LmConnection) (h : lm_connection_is_open c = true ∨ c.server = none) :
    ∃ err, connection_do_open os resolve c = some (false, some err, c, none, []) := by
  by_cases ho : lm_connection_is_open c = true
  · exact ⟨.CONNECTION_NOT_OPEN, by simp [connection_do_open, ho]⟩
  · have hs : c.server = none := h.resolve_left ho
    have hf : lm_connection_is_open c = false := by simpa using ho
    exact ⟨.CONNECTION_OPEN, by simp [connection_do_open, hf, hs]⟩

/-- C7: `connection_do_open` and `lm_connection_open` on a connection that is
open already, or that has no server, return FALSE with an error, leave the state
(and the attached source) as it was and start no connect attempt. -/
theorem C7_open_refused (os : Nat → ConnectOutcome) (resolve : String → Option (List Nat))
    (c : LmConnection) (function : Option Nat) (user_data : Nat) (notify : Option Nat)
    (h : lm_connection_is_open c = true ∨ c.server = none) :
    (∃ err, connection_do_open os resolve c = some (false, some err, c, none, [])) ∧
    (∃ err c1, lm_connection_open os resolve c function user_data notify =
        some (false, some err, c1, none, []) ∧
      c1.state = c.state ∧ c1.incoming_source = c.incoming_source ∧
      c1.cancel_open = c.cancel_open) := by
  refine ⟨do_open_refused os resolve c h, ?_⟩
  obtain ⟨err, he⟩ := do_open_refused os resolve
    { c with open_cb := some (_lm_utils_new_callback function user_data notify) } h
  exact ⟨err, _, he, rfl, rfl, rfl⟩

/-- C7 at two sample inputs: a second open on the open sample connection, and an
open on a fresh connection that has no server. -/
theorem C7_open_refused_witness :
    ((∃ err, connection_do_open (fun _ => .in_progress 5) (fun _ => some [10]) conn_open =
        some (false, some err, conn_open, none, [])) ∧
      (∃ err c1, lm_connection_open (fun _ => .in_progress 5) (fun _ => some [10]) conn_open
          (some 1) 0 none = some (false, some err, c1, none, []) ∧
        c1.state = conn_open.state ∧ c1.incoming_source = conn_open.incoming_source ∧
        c1.cancel_open = conn_open.cancel_open)) ∧
    ((∃ err, connection_do_open (fun _ => .in_progress 5) (fun _ => some [10])
        (lm_connection_new none) = some (false, some err, lm_connection_new none, none, [])) ∧
      (∃ err c1, lm_connection_open (fun _ => .in_progress 5) (fun _ => some [10])
          (lm_connection_new none) (some 1) 0 none = some (false, some err, c1, none, []) ∧
        c1.state = (lm_connection_new none).state ∧
        c1.incoming_source = (lm_connection_new none).incoming_source ∧
        c1.cancel_open = (lm_connection_new none).cancel_open)) :=
  ⟨C7_open_refused _ _ conn_open (some 1) 0 none (Or.inl rfl),
    C7_open_refused _ _ (lm_connection_new none) (some 1) 0 none (Or.inr rfl)⟩

/-- C9: `lm_connection_authenticate` on an open connection sets the state to
AUTHENTICATING, stores the auth callback, stores the discovery handler under the
id of the discovery request and sends that request; on a connection that is not
open it returns FALSE with the connection-not-open error, leaves the connection
as it was and sends nothing. -/
theorem C9_authenticate (env : Env) (c : LmConnection) (username password resource : String)
    (function : Option Nat) (user_data : Nat) (notify : Option Nat) :
    (lm_connection_is_open c = true →
      (lm_connection_authenticate env c username password resource function user_data
        notify).1 = (true, none) ∧
      (lm_connection_authenticate env c username password resource function user_data
        notify).2.1.state = .AUTHENTICATING ∧
      (lm_connection_authenticate env c username password resource function user_data
        notify).2.1.auth_cb = some (_lm_utils_new_callback function user_data notify) ∧
      (∃ h, g_hash_table_lookup
          (lm_connection_authenticate env c username password resource function user_data
            notify).2.1.id_handlers (env.generate_id c.next_id) = some h ∧
        h.func = .auth_req_reply
          { username := username, password := password, resource := resource }) ∧
      (lm_connection_authenticate env c username password resource function user_data
        notify).2.2 = [Event.send_message (discovery_request env c.next_id username)] ∧
      lm_message_node_get_attribute (discovery_request env c.next_id username).node "id" =
        some (env.generate_id c.next_id)) ∧
    (lm_connection_is_open c = false →
      lm_connection_authenticate env c username password resource function user_data notify =
        ((false, some .CONNECTION_NOT_OPEN), c, [])) := by
  constructor
  · intro ho
    have hst : ¬ (LmConnectionState.AUTHENTICATING.toNat < LmConnectionState.CONNECTING.toNat) := by
      decide
    have hid : lm_message_node_get_attribute (connection_create_auth_req_msg username).node "id"
        = none := by
      simp [connection_create_auth_req_msg, lm_message_new_with_sub_type,
        lm_message_node_get_attribute, LmMessageNode.attributes, List.lookup]
    refine ⟨?_, ?_, ?_, ?_, ?_, ?_⟩
    · simp [lm_connection_authenticate, ho, lm_connection_send_with_reply, hid,
        lm_connection_send, hst]
    · simp [lm_connection_authenticate, ho, lm_connection_send_with_reply, hid]
    · simp [lm_connection_authenticate, ho, lm_connection_send_with_reply, hid]
    · refine ⟨LmMessageHandler.mk env.auth_req_handler
        (.auth_req_reply (AuthReqData.mk username password resource)), ?_, rfl⟩
      simp [lm_connection_authenticate, ho, lm_connection_send_with_reply, hid,
        lookup_insert_self]
    · simp [lm_connection_authenticate, ho, lm_connection_send_with_reply, hid,
        lm_connection_send, hst, discovery_request]
    · simp [discovery_request, connection_create_auth_req_msg, lm_message_new_with_sub_type,
        lm_message_node_get_attribute, lm_message_node_set_attribute, LmMessageNode.attributes,
        List.lookup]
  · intro ho
    simp [lm_connection_authenticate, ho]

/-- C9 at two sample inputs: the open sample connection, and a fresh connection,
which is not open. -/
theorem C9_authenticate_witness :
    ((lm_connection_authenticate env0 conn_open "romeo" "secret" "orchard" (some 9) 0
        none).1 = (true, none) ∧
      (lm_connection_authenticate env0 conn_open "romeo" "secret" "orchard" (some 9) 0
        none).2.1.state = .AUTHENTICATING ∧
      (lm_connection_authenticate env0 conn_open "romeo" "secret" "orchard" (some 9) 0
        none).2.1.auth_cb = some (_lm_utils_new_callback (some 9) 0 none) ∧
      (∃ h, g_hash_table_lookup
          (lm_connection_authenticate env0 conn_open "romeo" "secret" "orchard" (some 9) 0
            none).2.1.id_handlers (env0.generate_id conn_open.next_id) = some h ∧
        h.func = .auth_req_reply
          { username := "romeo", password := "secret", resource := "orchard" }) ∧
      (lm_connection_authenticate env0 conn_open "romeo" "secret" "orchard" (some 9) 0
        none).2.2 = [Event.send_message (discovery_request env0 conn_open.next_id "romeo")] ∧
      lm_message_node_get_attribute
        (discovery_request env0 conn_open.next_id "romeo").node "id" =
        some (env0.generate_id conn_open.next_id)) ∧
    lm_connection_authenticate env0 conn0 "romeo" "secret" "orchard" (some 9) 0 none =
      ((false, some .CONNECTION_NOT_OPEN), conn0, []) :=
  ⟨(C9_authenticate env0 conn_open "romeo" "secret" "orchard" (some 9) 0 none).1 rfl,
    (C9_authenticate env0 conn0 "romeo" "secret" "orchard" (some 9) 0 none).2 rfl⟩

/-- C10: `connection_auth_reply` on a reply of type result sets the state to
AUTHENTICATED and calls the auth callback with true; on a reply of type error it
sets the state to CONNECTED and calls the auth callback with false; either way
the callback function, when set, is called exactly once, the slot is released and
left empty, and the handler answers REMOVE_MESSAGE. -/
theorem C10_auth_reply (c : LmConnection) (m : LmMessage) :
    (lm_message_node_get_attribute m.node "type" = some "result" →
      ∃ c1, connection_auth_reply c m = some (.REMOVE_MESSAGE, c1,
          fire_and_free c.auth_cb (fun f => Event.auth_result f true)) ∧
        c1.state = .AUTHENTICATED ∧ c1.auth_cb = none) ∧
    (lm_message_node_get_attribute m.node "type" = some "error" →
      ∃ c1, connection_auth_reply c m = some (.REMOVE_MESSAGE, c1,
          fire_and_free c.auth_cb (fun f => Event.auth_result f false)) ∧
        c1.state = .CONNECTED ∧ c1.auth_cb = none) := by
  constructor
  · intro ht
    refine ⟨{ c with state := .AUTHENTICATED, auth_cb := none }, ?_, rfl, rfl⟩
    simp only [connection_auth_reply, ht, if_true, fire_and_free, _lm_utils_free_callback]
    cases hcb : c.auth_cb with
    | none => rfl
    | some cb => cases hfn : cb.func <;> rfl
  · intro ht
    have hne : ¬ ("error" = "result") := by decide
    refine ⟨{ c with state := .CONNECTED, auth_cb := none }, ?_, rfl, rfl⟩
    simp only [connection_auth_reply, ht, if_neg hne, if_true, fire_and_free,
      _lm_utils_free_callback]
    cases hcb : c.auth_cb with
    | none => rfl
    | some cb => cases hfn : cb.func <;> rfl

/-- C10 at two sample inputs: a result reply and an error reply handled on the
sample connection that is authenticating with callback 9. -/
theorem C10_auth_reply_witness :
    (∃ c1, connection_auth_reply conn_authenticating
        (stanza .IQ "iq" [("type", "result"), ("id", "id1")]) =
          some (.REMOVE_MESSAGE, c1,
            fire_and_free conn_authenticating.auth_cb (fun f => Event.auth_result f true)) ∧
        c1.state = .AUTHENTICATED ∧ c1.auth_cb = none) ∧
    (∃ c1, connection_auth_reply conn_authenticating
        (stanza .IQ "iq" [("type", "error"), ("id", "id1")]) =
          some (.REMOVE_MESSAGE, c1,
            fire_and_free conn_authenticating.auth_cb (fun f => Event.auth_result f false)) ∧
        c1.state = .CONNECTED ∧ c1.auth_cb = none) ∧
    fire_and_free conn_authenticating.auth_cb (fun f => Event.auth_result f false) =
      [.auth_result 9 false, .free_callback (_lm_utils_new_callback (some 9) 0 none)] :=
  ⟨(C10_auth_reply conn_authenticating _).1 rfl, (C10_auth_reply conn_authenticating _).2 rfl,
    rfl⟩

/-! ## Lifecycle state changes (C8) -/

theorem reply_change_trans (m : LmMessage) (s0 s1 s2 : LmConnectionState)
    (h1 : reply_change m s0 s1) (h2 : reply_change m s1 s2) : reply_change m s0 s2 := by
  rcases h2 with h | h | h
  · rw [h]; exact h1
  · exact Or.inr (Or.inl h)
  · exact Or.inr (Or.inr h)

theorem handler_run_state (env : Env) (h : LmMessageHandler) (c c1 : LmConnection)
    (m : LmMessage) (r : LmHandlerResult) (ev : List Event)
    (hrun : _lm_message_handler_handle_message env h c m = some (r, c1, ev)) :
    reply_change m c.state c1.state := by
  unfold _lm_message_handler_handle_message at hrun
  cases hf : h.func with
  | user f =>
    simp only [hf, Option.some.injEq, Prod.mk.injEq] at hrun
    rw [← hrun.2.1]
    exact Or.inl rfl
  | auth_req_reply data =>
    simp only [hf, connection_auth_req_reply] at hrun
    cases hmsg : connection_create_auth_msg env c data.username data.password data.resource
        (connection_check_auth_type m) with
    | none => simp [hmsg] at hrun
    | some auth_msg =>
      simp only [hmsg, Option.some.injEq, Prod.mk.injEq] at hrun
      rw [← hrun.2.1]
      exact Or.inl (send_with_reply_frame env c auth_msg _).2.2
  | auth_reply =>
    simp only [hf, connection_auth_reply] at hrun
    cases ht : lm_message_node_get_attribute m.node "type" with
    | none => simp [ht] at hrun
    | some type =>
      simp only [ht, Option.some.injEq, Prod.mk.injEq] at hrun
      rw [← hrun.2.1]
      by_cases h1 : type = "result"
      · exact Or.inr (Or.inl ⟨by rw [ht, h1], by simp [h1]⟩)
      · by_cases h2 : type = "error"
        · exact Or.inr (Or.inr ⟨by rw [ht, h2], by simp [h1, h2]⟩)
        · exact Or.inl (by simp [h1, h2])

theorem handle_chain_state (env : Env) (m : LmMessage) (chain : List HandlerData)
    (r : LmHandlerResult) (c c1 : LmConnection) (ev : List Event)
    (h : connection_handle_chain env m chain r c = some (c1, ev)) :
    reply_change m c.state c1.state := by
  induction chain generalizing r c ev with
  | nil =>
    simp only [connection_handle_chain, Option.some.injEq, Prod.mk.injEq] at h
    rw [← h.1]; exact Or.inl rfl
  | cons hd l ih =>
    unfold connection_handle_chain at h
    by_cases hr : r = .ALLOW_MORE_HANDLERS
    · simp only [hr, if_true] at h
      cases hrun : _lm_message_handler_handle_message env hd.handler c m with
      | none => simp [hrun] at h
      | some res =>
        obtain ⟨r1, c2, ev1⟩ := res
        simp only [hrun] at h
        cases hrest : connection_handle_chain env m l r1 c2 with
        | none => simp [hrest] at h
        | some p =>
          obtain ⟨c3, ev3⟩ := p
          simp only [hrest, Option.some.injEq, Prod.mk.injEq] at h
          rw [← h.1] at ih ⊢
          exact reply_change_trans m _ _ _ (handler_run_state env hd.handler c c2 m r1 ev1 hrun)
            (ih r1 c2 ev3 hrest)
    · simp only [hr, if_false, Option.some.injEq, Prod.mk.injEq] at h
      rw [← h.1]; exact Or.inl rfl

theorem handle_id_state (env : Env) (c c0 : LmConnection) (m : LmMessage)
    (r : LmHandlerResult) (ev0 : List Event)
    (h : connection_handle_id env c m = some (r, c0, ev0)) :
    reply_change m c.state c0.state := by
  unfold connection_handle_id at h
  cases hid : lm_message_node_get_attribute m.node "id" with
  | none =>
    simp only [hid, Option.some.injEq, Prod.mk.injEq] at h
    rw [← h.2.1]; exact Or.inl rfl
  | some id =>
    cases hl : g_hash_table_lookup c.id_handlers id with
    | none =>
      simp only [hid, hl, Option.some.injEq, Prod.mk.injEq] at h
      rw [← h.2.1]; exact Or.inl rfl
    | some handler =>
      cases hrun : _lm_message_handler_handle_message env handler c m with
      | none => simp [hid, hl, hrun] at h
      | some res =>
        obtain ⟨r1, c1, ev1⟩ := res
        simp only [hid, hl, hrun, Option.some.injEq, Prod.mk.injEq] at h
        rw [← h.2.1]
        exact handler_run_state env handler c c1 m r1 ev1 hrun

/-- The state after the dispatch of one message: CONNECTED for a stream stanza,
otherwise what `reply_change` allows. -/
theorem handle_message_state (env : Env) (c c1 : LmConnection) (m : LmMessage)
    (ev : List Event) (h : connection_handle_message env c m = some (c1, ev)) :
    (lm_message_get_type m = .STREAM ∧ c1.state = .CONNECTED) ∨
      reply_change m c.state c1.state := by
  unfold connection_handle_message at h
  by_cases hs : lm_message_get_type m = .STREAM
  · simp only [hs, if_true, Option.some.injEq] at h
    left
    have h1 : c1 = (connection_stream_received c m).1 := by rw [h]
    exact ⟨hs, by rw [h1]; rfl⟩
  · right
    simp only [if_neg hs] at h
    cases hidp : connection_handle_id env c m with
    | none => simp [hidp] at h
    | some res =>
      obtain ⟨r, c0, ev0⟩ := res
      have h0 := handle_id_state env c c0 m r ev0 hidp
      simp only [hidp] at h
      by_cases hr : r = .REMOVE_MESSAGE
      · simp only [hr, if_true, Option.some.injEq, Prod.mk.injEq] at h
        rw [← h.1]; exact h0
      · simp only [if_neg hr] at h
        by_cases hu : lm_message_get_type m = .UNKNOWN
        · simp [hu] at h
        · simp only [if_neg hu] at h
          cases hw : connection_handle_chain env m (c0.handlers (lm_message_get_type m)) r c0 with
          | none => simp [hw] at h
          | some p =>
            obtain ⟨c2, ev2⟩ := p
            simp only [hw, Option.some.injEq, Prod.mk.injEq] at h
            rw [← h.1]
            exact reply_change_trans m _ _ _ h0 (handle_chain_state env m _ r c0 c2 ev2 hw)

/-- The static `connection_do_close` leaves the state or sets it to
DISCONNECTED. -/
theorem do_close_state (c : LmConnection) :
    (connection_do_close c).1.state = c.state ∨
      (connection_do_close c).1.state = .DISCONNECTED := by
  unfold connection_do_close
  simp only []
  split
  · exact Or.inl rfl
  · exact Or.inr rfl

theorem not_open_le_connecting (c : LmConnection) (h : lm_connection_is_open c = false) :
    c.state.toNat ≤ LmConnectionState.CONNECTING.toNat := by
  unfold lm_connection_is_open at h
  cases hst : c.state <;> simp [hst, LmConnectionState.toNat] at h ⊢

theorem do_open_forward (os : Nat → ConnectOutcome) (resolve : String → Option (List Nat))
    (c : LmConnection)
    (r : Bool × Option LmError × LmConnection × Option LmConnectData × List Event)
    (h : connection_do_open os resolve c = some r) :
    c.state.toNat ≤ r.2.2.1.state.toNat := by
  unfold connection_do_open at h
  by_cases ho : lm_connection_is_open c = true
  · simp only [ho, if_true, Option.some.injEq] at h
    rw [← h]
  · have hf : lm_connection_is_open c = false := by simpa using ho
    have hle := not_open_le_connecting c hf
    simp only [hf, Bool.false_eq_true, if_false] at h
    cases hs : c.server with
    | none =>
      simp only [hs, Option.some.injEq] at h
      rw [← h]
    | some server =>
      simp only [hs] at h
      split at h
      · simp only [Option.some.injEq] at h
        rw [← h]; exact hle
      · split at h
        · simp at h
        · simp only [Option.some.injEq] at h
          rw [← h]; exact hle

theorem authenticate_state (env : Env) (c : LmConnection) (username password resource : String)
    (function : Option Nat) (user_data : Nat) (notify : Option Nat) :
    (lm_connection_authenticate env c username password resource function user_data
        notify).2.1.state = c.state ∨
      (lm_connection_is_open c = true ∧
        (lm_connection_authenticate env c username password resource function user_data
          notify).2.1.state = .AUTHENTICATING) := by
  unfold lm_connection_authenticate
  by_cases ho : lm_connection_is_open c = true
  · right
    refine ⟨ho, ?_⟩
    simp only [ho, Bool.not_true, Bool.false_eq_true, if_false]
    exact (send_with_reply_frame env _ _ _).2.2
  · left
    have hf : lm_connection_is_open c = false := by simpa using ho
    simp [hf]

theorem close_state (c : LmConnection) :
    (lm_connection_close c).2.1.state = c.state ∨
      (lm_connection_close c).2.1.state = .DISCONNECTED := by
  unfold lm_connection_close
  simp only []
  split
  · exact Or.inl rfl
  · split
    · exact Or.inl rfl
    · exact do_close_state c

theorem error_event_state (c : LmConnection) :
    (connection_error_event c).2.1.state = c.state ∨
      (connection_error_event c).2.1.state = .DISCONNECTED := by
  unfold connection_error_event
  split
  · exact Or.inl rfl
  · exact do_close_state c

theorem hup_event_state (c : LmConnection) :
    (connection_hup_event c).2.1.state = c.state ∨
      (connection_hup_event c).2.1.state = .DISCONNECTED := by
  unfold connection_hup_event
  split
  · exact Or.inl rfl
  · exact do_close_state c

theorem new_messages_state (parsed : List LmMessage) (c : LmConnection) :
    (parsed.foldl connection_new_message_cb c).state = c.state := by
  induction parsed generalizing c with
  | nil => rfl
  | cons m l ih => simp only [List.foldl_cons]; rw [ih]; rfl

theorem in_event_state (c : LmConnection) (bytes_read : Int) (read_status : GIOStatus)
    (parsed : List LmMessage) :
    (connection_in_event c bytes_read read_status parsed).2.1.state = c.state ∨
      (connection_in_event c bytes_read read_status parsed).2.1.state = .DISCONNECTED := by
  unfold connection_in_event
  split
  · exact Or.inl rfl
  · split
    · exact Or.inl (new_messages_state parsed c)
    · exact Or.inl rfl
    · exact do_close_state c
    · exact do_close_state c
    · exact do_close_state c

theorem state_le_authenticated (s : LmConnectionState) :
    s.toNat ≤ LmConnectionState.AUTHENTICATED.toNat := by
  cases s <;> decide

/-- One operation or event changes the lifecycle state only in the ways
`lifecycle_change_ok` lists. -/
theorem step_change_ok (env : Env) (c c1 : LmConnection) (op : Op) (ev : List Event)
    (h : step env c op = some (c1, ev)) : lifecycle_change_ok c op c1 := by
  cases op with
  | lm_connection_open function user_data notify os resolve =>
    simp only [step] at h
    cases hr : lm_connection_open os resolve c function user_data notify with
    | none => simp [hr] at h
    | some r =>
      simp only [hr, Option.some.injEq, Prod.mk.injEq] at h
      have hf := do_open_forward os resolve _ r hr
      rw [h.1] at hf
      exact Or.inl hf
  | lm_connection_authenticate username password resource function user_data notify =>
    simp only [step, Option.some.injEq, Prod.mk.injEq] at h
    rcases authenticate_state env c username password resource function user_data notify
      with hs | ⟨ho, hs⟩
    · rw [h.1] at hs
      exact Or.inl (by rw [hs])
    · rw [h.1] at hs
      unfold lm_connection_is_open at ho
      cases hst : c.state with
      | DISCONNECTED => simp [hst, LmConnectionState.toNat] at ho
      | CONNECTING => simp [hst, LmConnectionState.toNat] at ho
      | CONNECTED => exact Or.inl (by rw [hs, hst]; decide)
      | AUTHENTICATING => exact Or.inl (by rw [hs, hst])
      | AUTHENTICATED => exact Or.inr (Or.inr (Or.inr ⟨hst, hs, trivial⟩))
  | lm_connection_close =>
    simp only [step, Option.some.injEq] at h
    have h1 : c1 = (lm_connection_close c).2.1 := by rw [h]
    rcases close_state c with hs | hs
    · exact Or.inl (by rw [h1, hs])
    · exact Or.inr (Or.inl ⟨by rw [h1, hs], trivial⟩)
  | lm_connection_cancel_open =>
    simp only [step, Option.some.injEq, Prod.mk.injEq] at h
    exact Or.inl (by rw [← h.1]; exact Nat.le_refl _)
  | connection_incoming_dispatch =>
    simp only [step, connection_incoming_dispatch] at h
    cases hq : c.incoming_messages with
    | nil =>
      simp only [hq, Option.some.injEq, Prod.mk.injEq] at h
      exact Or.inl (by rw [← h.1])
    | cons m rest =>
      simp only [hq] at h
      rcases handle_message_state env _ c1 m ev h with ⟨hst, hs⟩ | hs | ⟨_, hs⟩ | ⟨he, hs⟩
      · exact Or.inr (Or.inr (Or.inl ⟨hs, m, rest, hq, Or.inl hst⟩))
      · exact Or.inl (by rw [hs])
      · exact Or.inl (by rw [hs]; exact state_le_authenticated _)
      · exact Or.inr (Or.inr (Or.inl ⟨hs, m, rest, hq, Or.inr he⟩))
  | connection_in_event bytes_read read_status parsed =>
    simp only [step, Option.some.injEq] at h
    have h1 : c1 = (connection_in_event c bytes_read read_status parsed).2.1 := by rw [h]
    rcases in_event_state c bytes_read read_status parsed with hs | hs
    · exact Or.inl (by rw [h1, hs])
    · exact Or.inr (Or.inl ⟨by rw [h1, hs], trivial⟩)
  | connection_error_event =>
    simp only [step, Option.some.injEq] at h
    have h1 : c1 = (connection_error_event c).2.1 := by rw [h]
    rcases error_event_state c with hs | hs
    · exact Or.inl (by rw [h1, hs])
    · exact Or.inr (Or.inl ⟨by rw [h1, hs], trivial⟩)
  | connection_hup_event =>
    simp only [step, Option.some.injEq] at h
    have h1 : c1 = (connection_hup_event c).2.1 := by rw [h]
    rcases hup_event_state c with hs | hs
    · exact Or.inl (by rw [h1, hs])
    · exact Or.inr (Or.inl ⟨by rw [h1, hs], trivial⟩)

/-- C8, in the form the code satisfies: in every execution of the public
operations and engine events, each change of the lifecycle state moves forward
in the order
DISCONNECTED, CONNECTING, CONNECTED, AUTHENTICATING, AUTHENTICATED, or is a
close or transport-failure transition to DISCONNECTED, or is a return to
CONNECTED made by the dispatch of a stream stanza or of a reply of type error, or
is the step from AUTHENTICATED to AUTHENTICATING of a further authenticate call. -/
theorem C8_lifecycle_changes (env : Env) (c : LmConnection) (ops : List Op) :
    ∀ t ∈ exec env c ops, lifecycle_change_ok t.1 t.2.1 t.2.2 := by
  induction ops generalizing c with
  | nil => intro t ht; simp [exec] at ht
  | cons op ops ih =>
    intro t ht
    unfold exec at ht
    cases hs : step env c op with
    | none => simp [hs] at ht
    | some p =>
      obtain ⟨c1, ev⟩ := p
      simp only [hs, List.mem_cons] at ht
      rcases ht with rfl | ht
      · exact step_change_ok env c c1 op ev hs
      · exact ih c1 t ht

/-- C8 at the sample execution, and at its step of authentication. -/
theorem C8_lifecycle_changes_witness :
    (∀ t ∈ exec env0 conn_connecting sample_ops, lifecycle_change_ok t.1 t.2.1 t.2.2) ∧
    lifecycle_change_ok conn_open
      (.lm_connection_authenticate "romeo" "secret" "orchard" (some 9) 0 none)
      conn_authenticating :=
  ⟨C8_lifecycle_changes env0 conn_connecting sample_ops,
    C8_lifecycle_changes env0 conn_open
      [.lm_connection_authenticate "romeo" "secret" "orchard" (some 9) 0 none]
      (conn_open, .lm_connection_authenticate "romeo" "secret" "orchard" (some 9) 0 none,
        conn_authenticating)
      (List.mem_singleton.mpr rfl)⟩

/-- C8 as stated fails: in the sample execution the error reply to the
authentication stanza takes the state from AUTHENTICATING back to CONNECTED,
which is neither a forward move nor a transition to DISCONNECTED. In the second
sample execution a further authenticate call takes it from AUTHENTICATED back to
AUTHENTICATING and a further stream stanza from there back to CONNECTED. -/
theorem C8_counterexample :
    (exec env0 conn_connecting sample_ops).map (fun t => (t.1.state, t.2.2.state)) =
      [(.CONNECTING, .CONNECTING), (.CONNECTING, .CONNECTED), (.CONNECTED, .AUTHENTICATING),
       (.AUTHENTICATING, .AUTHENTICATING), (.AUTHENTICATING, .AUTHENTICATING),
       (.AUTHENTICATING, .AUTHENTICATING), (.AUTHENTICATING, .CONNECTED)] ∧
    (¬ ∀ t ∈ (exec env0 conn_connecting sample_ops).map (fun t => (t.1.state, t.2.2.state)),
        t.1.toNat ≤ t.2.toNat ∨ t.2 = .DISCONNECTED) ∧
    (exec env0 conn_connecting sample_ops_accepted).map (fun t => (t.1.state, t.2.2.state)) =
      [(.CONNECTING, .CONNECTING), (.CONNECTING, .CONNECTED), (.CONNECTED, .AUTHENTICATING),
       (.AUTHENTICATING, .AUTHENTICATING), (.AUTHENTICATING, .AUTHENTICATING),
       (.AUTHENTICATING, .AUTHENTICATING), (.AUTHENTICATING, .AUTHENTICATED),
       (.AUTHENTICATED, .AUTHENTICATING), (.AUTHENTICATING, .AUTHENTICATING),
       (.AUTHENTICATING, .CONNECTED)] := by
  decide

/-! ## The connect sequencer -/

/-- The failure branch unfolded in `connection_do_connect` is
`connection_failed_with_error` on the attempt as it stands after the failed
`connect`: the descriptor is stored, the channel is the one of the attempt
before. -/
theorem do_connect_failed_eq (c : LmConnection) (os : Nat → ConnectOutcome)
    (resolved_addrs : List Nat) (addr : Nat) (rest : List Nat) (fd0 : Int)
    (io_channel : Option Nat) (fd : Nat) (hos : os addr = .connect_failed fd) :
    connection_do_connect c os resolved_addrs (addr :: rest) fd0 io_channel =
      (connection_failed_with_error c os
        { resolved_addrs := resolved_addrs, current_addr := addr :: rest, fd := fd,
          io_channel := io_channel }).map
        fun r => (r.1, [Event.trying addr (connect_port c), Event.close_fd fd] ++ r.2) := by
  cases rest with
  | nil => simp [connection_do_connect, connection_failed_with_error, hos]
  | cons a l =>
    simp only [connection_do_connect, connection_failed_with_error, hos]
    cases connection_do_connect c os resolved_addrs (a :: l) (↑fd) io_channel with
    | none => rfl
    | some p => simp

/-! ## Close (C11) -/

theorem open_not_below_connecting (c : LmConnection) (h : lm_connection_is_open c = true) :
    ¬ c.state.toNat < LmConnectionState.CONNECTING.toNat := by
  unfold lm_connection_is_open at h
  cases hst : c.state <;> simp [hst, LmConnectionState.toNat] at h ⊢

theorem signal_disconnect_disconnects (c : LmConnection) (reason : LmDisconnectReason) :
    disconnects (connection_signal_disconnect c reason) =
      if callback_set c.disconnect_cb then [reason] else [] := by
  unfold connection_signal_disconnect callback_set
  cases hcb : c.disconnect_cb with
  | none => rfl
  | some cb => cases hfn : cb.func <;> simp [disconnects, hfn]

theorem signal_disconnect_raw_sends (c : LmConnection) (reason : LmDisconnectReason) :
    raw_sends (connection_signal_disconnect c reason) = [] := by
  unfold connection_signal_disconnect
  cases hcb : c.disconnect_cb with
  | none => rfl
  | some cb => cases hfn : cb.func <;> simp [raw_sends, hfn]

theorem do_close_open (c : LmConnection) (h : lm_connection_is_open c = true) :
    (connection_do_close c).1.state = .DISCONNECTED ∧
    (connection_do_close c).1.io_channel = none ∧
    (connection_do_close c).1.disconnect_cb = c.disconnect_cb ∧
    disconnects (connection_do_close c).2 = [] ∧ raw_sends (connection_do_close c).2 = [] := by
  have h2 : lm_connection_is_open
      { c with io_channel := none, incoming_source := c.incoming_source - 1 } = true := h
  have hd : connection_do_close c =
      ({ c with io_channel := none, incoming_source := c.incoming_source - 1,
                state := .DISCONNECTED },
        channel_unref_events c.io_channel ++
          (if lm_connection_get_use_ssl c then [Event.gnutls_deinit] else [])) := by
    unfold connection_do_close
    simp only [h2, Bool.not_true, Bool.false_eq_true, if_false]
    rfl
  rw [hd]
  refine ⟨rfl, rfl, rfl, ?_, ?_⟩
  · cases c.io_channel <;> cases lm_connection_get_use_ssl c <;>
      simp [disconnects, channel_unref_events]
  · cases c.io_channel <;> cases lm_connection_get_use_ssl c <;>
      simp [raw_sends, channel_unref_events]

/-- C11: `lm_connection_close` on an open connection returns TRUE, writes the
text `</stream:stream>` and nothing else, leaves the state DISCONNECTED and no
channel, and calls the disconnect callback, when its function is set, exactly
once, with reason OK; on a connection that is not open it returns FALSE with the
connection-not-open error, leaves the connection as it was, writes nothing and
calls nothing. -/
theorem C11_close (c : LmConnection) :
    (lm_connection_is_open c = true →
      (lm_connection_close c).1 = (true, none) ∧
      (lm_connection_close c).2.1.state = .DISCONNECTED ∧
      (lm_connection_close c).2.1.io_channel = none ∧
      raw_sends (lm_connection_close c).2.2 = ["</stream:stream>"] ∧
      disconnects (lm_connection_close c).2.2 =
        (if callback_set c.disconnect_cb then [.OK] else [])) ∧
    (lm_connection_is_open c = false →
      lm_connection_close c = ((false, some .CONNECTION_NOT_OPEN), c, [])) := by
  constructor
  · intro ho
    have hst := open_not_below_connecting c ho
    obtain ⟨h1, h2, h3, h4, h5⟩ := do_close_open c ho
    have hsd := signal_disconnect_disconnects (connection_do_close c).1 .OK
    rw [h3] at hsd
    have hsr := signal_disconnect_raw_sends (connection_do_close c).1 .OK
    have hc : lm_connection_close c = ((true, none), (connection_do_close c).1,
        [Event.send "</stream:stream>"] ++ [Event.flush] ++ (connection_do_close c).2 ++
          connection_signal_disconnect (connection_do_close c).1 .OK) := by
      simp only [lm_connection_close, ho, connection_send, hst, Bool.not_true,
        Bool.false_eq_true, if_false]
    rw [hc]
    refine ⟨rfl, h1, h2, ?_, ?_⟩
    · simp only [raw_sends, List.filterMap_append] at h5 hsr ⊢
      rw [h5, hsr]
      rfl
    · simp only [disconnects, List.filterMap_append] at h4 hsd ⊢
      rw [h4, hsd]
      rfl
  · intro ho
    simp [lm_connection_close, ho]

/-- C11 at sample inputs: closing the authenticating sample connection with a
disconnect callback set, and closing a fresh connection. -/
theorem C11_close_witness :
    ((lm_connection_close { conn_authenticating with
        disconnect_cb := some (_lm_utils_new_callback (some 4) 0 none) }).1 = (true, none) ∧
      (lm_connection_close { conn_authenticating with
        disconnect_cb := some (_lm_utils_new_callback (some 4) 0 none) }).2.1.state
          = .DISCONNECTED ∧
      (lm_connection_close { conn_authenticating with
        disconnect_cb := some (_lm_utils_new_callback (some 4) 0 none) }).2.1.io_channel
          = none ∧
      raw_sends (lm_connection_close { conn_authenticating with
        disconnect_cb := some (_lm_utils_new_callback (some 4) 0 none) }).2.2
          = ["</stream:stream>"] ∧
      disconnects (lm_connection_close { conn_authenticating with
        disconnect_cb := some (_lm_utils_new_callback (some 4) 0 none) }).2.2 =
        (if callback_set (some (_lm_utils_new_callback (some 4) 0 none)) then [.OK] else [])) ∧
    lm_connection_close conn0 = ((false, some .CONNECTION_NOT_OPEN), conn0, []) :=
  ⟨(C11_close { conn_authenticating with
      disconnect_cb := some (_lm_utils_new_callback (some 4) 0 none) }).1 rfl,
    (C11_close conn0).2 rfl⟩

/-! ## Authentication stanzas (C12, C13, C14) -/

/-- C12: `connection_check_auth_type` returns plaintext alone for a reply without
a query child; otherwise the plaintext flag is set exactly when the query has a
password child, the digest flag exactly when it has a digest child, the 0k flag
exactly when it has both a sequence and a token child, and no other flag is set. -/
theorem C12_check_auth_type (m : LmMessage) :
    (lm_message_node_get_child m.node "query" = none →
      connection_check_auth_type m = AUTH_TYPE_PLAIN) ∧
    (∀ q, lm_message_node_get_child m.node "query" = some q →
      ((connection_check_auth_type m &&& AUTH_TYPE_PLAIN ≠ 0) ↔
        (lm_message_node_get_child q "password").isSome = true) ∧
      ((connection_check_auth_type m &&& AUTH_TYPE_DIGEST ≠ 0) ↔
        (lm_message_node_get_child q "digest").isSome = true) ∧
      ((connection_check_auth_type m &&& AUTH_TYPE_0K ≠ 0) ↔
        ((lm_message_node_get_child q "sequence").isSome = true ∧
          (lm_message_node_get_child q "token").isSome = true)) ∧
      connection_check_auth_type m < 8) := by
  constructor
  · intro h
    simp [connection_check_auth_type, h]
  · intro q h
    simp only [connection_check_auth_type, h]
    cases (lm_message_node_get_child q "password").isSome <;>
      cases (lm_message_node_get_child q "digest").isSome <;>
      cases (lm_message_node_get_child q "sequence").isSome <;>
      cases (lm_message_node_get_child q "token").isSome <;>
      simp [AUTH_TYPE_PLAIN, AUTH_TYPE_DIGEST, AUTH_TYPE_0K] <;> decide

/-- C12 at sample inputs: a reply without a query, and the sample reply that
offers password and digest. -/
theorem C12_check_auth_type_witness :
    connection_check_auth_type (stanza .IQ "iq" [("type", "result")]) = AUTH_TYPE_PLAIN ∧
    (((connection_check_auth_type (discovery_reply "id0") &&& AUTH_TYPE_PLAIN ≠ 0) ↔
        (lm_message_node_get_child (.mk "query" none [("xmlns", "jabber:iq:auth")]
          [.mk "username" none [] [], .mk "password" none [] [], .mk "digest" none [] []])
          "password").isSome = true) ∧
      ((connection_check_auth_type (discovery_reply "id0") &&& AUTH_TYPE_DIGEST ≠ 0) ↔
        (lm_message_node_get_child (.mk "query" none [("xmlns", "jabber:iq:auth")]
          [.mk "username" none [] [], .mk "password" none [] [], .mk "digest" none [] []])
          "digest").isSome = true) ∧
      ((connection_check_auth_type (discovery_reply "id0") &&& AUTH_TYPE_0K ≠ 0) ↔
        ((lm_message_node_get_child (.mk "query" none [("xmlns", "jabber:iq:auth")]
          [.mk "username" none [] [], .mk "password" none [] [], .mk "digest" none [] []])
          "sequence").isSome = true ∧
          (lm_message_node_get_child (.mk "query" none [("xmlns", "jabber:iq:auth")]
          [.mk "username" none [] [], .mk "password" none [] [], .mk "digest" none [] []])
          "token").isSome = true)) ∧
      connection_check_auth_type (discovery_reply "id0") < 8) ∧
    connection_check_auth_type (discovery_reply "id0") = 3 :=
  ⟨(C12_check_auth_type (stanza .IQ "iq" [("type", "result")])).1 rfl,
    (C12_check_auth_type (discovery_reply "id0")).2 _ rfl, by decide⟩

/-- C13: for every stream id, password and mechanism set that includes digest,
`connection_create_auth_msg` builds a stanza whose query has a digest child
holding the hash of the stream id immediately followed by the password, and no
password child. -/
theorem C13_digest_of_stream_id_and_password (env : Env) (c : LmConnection)
    (username password resource sid : String) (auth_type : Nat)
    (hd : auth_type &&& AUTH_TYPE_DIGEST ≠ 0) (hs : c.stream_id = some sid) :
    ∃ msg q, connection_create_auth_msg env c username password resource auth_type = some msg ∧
      lm_message_node_get_child msg.node "query" = some q ∧
      lm_message_node_get_child q "digest" =
        some (.mk "digest" (some (env.lm_sha_hash (sid ++ password))) [] []) ∧
      lm_message_node_get_child q "password" = none := by
  refine ⟨LmMessage.mk .IQ (.mk "iq" none [("type", "set")]
      [.mk "query" none [("xmlns", "jabber:iq:auth")]
        [.mk "username" (some username) [] [],
         .mk "digest" (some (env.lm_sha_hash (sid ++ password))) [] [],
         .mk "resource" (some resource) [] []]]),
    .mk "query" none [("xmlns", "jabber:iq:auth")]
        [.mk "username" (some username) [] [],
         .mk "digest" (some (env.lm_sha_hash (sid ++ password))) [] [],
         .mk "resource" (some resource) [] []], ?_, ?_, ?_, ?_⟩
  · simp only [connection_create_auth_msg, hd, hs, if_true, ne_eq, not_false_eq_true,
      lm_message_new_with_sub_type]
    rfl
  · simp [lm_message_node_get_child, LmMessageNode.children, LmMessageNode.name]
  · simp [lm_message_node_get_child, LmMessageNode.children, LmMessageNode.name]
  · simp [lm_message_node_get_child, LmMessageNode.children, LmMessageNode.name]

/-- C13 at the sample of the spec: stream id `s1` and password `secret`. -/
theorem C13_digest_of_stream_id_and_password_witness :
    (∃ msg q, connection_create_auth_msg env0 conn_open "romeo" "secret" "orchard"
        AUTH_TYPE_DIGEST = some msg ∧
      lm_message_node_get_child msg.node "query" = some q ∧
      lm_message_node_get_child q "digest" =
        some (.mk "digest" (some (env0.lm_sha_hash ("s1" ++ "secret"))) [] []) ∧
      lm_message_node_get_child q "password" = none) ∧
    "s1" ++ "secret" = "s1secret" :=
  ⟨C13_digest_of_stream_id_and_password env0 conn_open "romeo" "secret" "orchard" "s1"
    AUTH_TYPE_DIGEST (by decide) rfl, by decide⟩

/-- C14, in the form the code satisfies: for every discovery reply that offers
digest or plaintext (a reply without a query node counts as plaintext), on a
connection that has a stream id, the stanza built by `connection_check_auth_type`
followed by `connection_create_auth_msg` is an iq of type set whose
jabber:iq:auth query holds, in this order, the username, one credential and the
resource: the credential is the digest when digest is offered and otherwise the
clear password. -/
theorem C14_auth_stanza_shape (env : Env) (c : LmConnection) (m : LmMessage)
    (username password resource sid : String)
    (hadv : connection_check_auth_type m &&& AUTH_TYPE_DIGEST ≠ 0 ∨
      connection_check_auth_type m &&& AUTH_TYPE_PLAIN ≠ 0)
    (hs : c.stream_id = some sid) :
    connection_create_auth_msg env c username password resource
        (connection_check_auth_type m) =
      some (LmMessage.mk .IQ (.mk "iq" none [("type", "set")]
        [.mk "query" none [("xmlns", "jabber:iq:auth")]
          [.mk "username" (some username) [] [],
           (if connection_check_auth_type m &&& AUTH_TYPE_DIGEST ≠ 0
            then .mk "digest" (some (env.lm_sha_hash (sid ++ password))) [] []
            else .mk "password" (some password) [] []),
           .mk "resource" (some resource) [] []]])) := by
  by_cases hd : connection_check_auth_type m &&& AUTH_TYPE_DIGEST ≠ 0
  · simp only [connection_create_auth_msg, hd, hs, if_true, ne_eq, not_false_eq_true,
      lm_message_new_with_sub_type]
    rfl
  · have hp : connection_check_auth_type m &&& AUTH_TYPE_PLAIN ≠ 0 := hadv.resolve_left hd
    simp only [connection_create_auth_msg, hd, hp, if_true, if_false, ne_eq, not_false_eq_true,
      lm_message_new_with_sub_type]
    rfl

/-- C14 at sample inputs: the sample reply that offers password and digest, and
a reply without a query node. -/
theorem C14_auth_stanza_shape_witness :
    connection_create_auth_msg env0 conn_open "romeo" "secret" "orchard"
        (connection_check_auth_type (discovery_reply "id0")) =
      some (LmMessage.mk .IQ (.mk "iq" none [("type", "set")]
        [.mk "query" none [("xmlns", "jabber:iq:auth")]
          [.mk "username" (some "romeo") [] [],
           (if connection_check_auth_type (discovery_reply "id0") &&& AUTH_TYPE_DIGEST ≠ 0
            then .mk "digest" (some (env0.lm_sha_hash ("s1" ++ "secret"))) [] []
            else .mk "password" (some "secret") [] []),
           .mk "resource" (some "orchard") [] []]])) ∧
    connection_create_auth_msg env0 conn_open "romeo" "secret" "orchard"
        (connection_check_auth_type (stanza .IQ "iq" [("type", "result")])) =
      some (LmMessage.mk .IQ (.mk "iq" none [("type", "set")]
        [.mk "query" none [("xmlns", "jabber:iq:auth")]
          [.mk "username" (some "romeo") [] [],
           (if connection_check_auth_type (stanza .IQ "iq" [("type", "result")])
              &&& AUTH_TYPE_DIGEST ≠ 0
            then .mk "digest" (some (env0.lm_sha_hash ("s1" ++ "secret"))) [] []
            else .mk "password" (some "secret") [] []),
           .mk "resource" (some "orchard") [] []]])) :=
  ⟨C14_auth_stanza_shape env0 conn_open (discovery_reply "id0") "romeo" "secret" "orchard" "s1"
      (by decide) rfl,
    C14_auth_stanza_shape env0 conn_open (stanza .IQ "iq" [("type", "result")]) "romeo" "secret"
      "orchard" "s1" (by decide) rfl⟩

/-- C14 as stated fails: for a discovery reply whose query offers neither a
password nor a digest field, the stanza built has a username and a resource child
and no credential child at all. -/
theorem C14_counterexample :
    connection_check_auth_type (discovery_reply_bare "id0") = 0 ∧
    connection_create_auth_msg env0 conn_open "romeo" "secret" "orchard"
        (connection_check_auth_type (discovery_reply_bare "id0")) =
      some (LmMessage.mk .IQ (.mk "iq" none [("type", "set")]
        [.mk "query" none [("xmlns", "jabber:iq:auth")]
          [.mk "username" (some "romeo") [] [], .mk "resource" (some "orchard") [] []]])) := by
  decide

/-! ## The incoming queue (C15, C16) and unregistering (C17) -/

/-- C15: when the incoming queue holds a message with the request id, the queue
scan of `lm_connection_send_with_reply_and_block` returns the first such message
and takes only that one out: the messages before it and after it stay, in their
order. -/
theorem C15_queue_scan_takes_first_match (id : String) (queue : List LmMessage)
    (h : ∃ m ∈ queue, lm_message_node_get_attribute m.node "id" = some id) :
    ∃ pre m post, queue = pre ++ m :: post ∧
      (∀ x ∈ pre, lm_message_node_get_attribute x.node "id" ≠ some id) ∧
      lm_message_node_get_attribute m.node "id" = some id ∧
      queue_scan id queue = some (m, pre ++ post) := by
  induction queue with
  | nil => obtain ⟨m, hm, _⟩ := h; cases hm
  | cons x rest ih =>
    by_cases hx : lm_message_node_get_attribute x.node "id" = some id
    · exact ⟨[], x, rest, rfl, (fun y hy => by cases hy), hx, by simp [queue_scan, hx]⟩
    · obtain ⟨m, hm, hid⟩ := h
      have hm2 : m ∈ rest := by
        rcases List.mem_cons.mp hm with rfl | h2
        · exact absurd hid hx
        · exact h2
      obtain ⟨pre, m1, post, hq, hpre, hm1, hscan⟩ := ih ⟨m, hm2, hid⟩
      refine ⟨x :: pre, m1, post, by rw [hq]; rfl, ?_, hm1, ?_⟩
      · intro y hy
        rcases List.mem_cons.mp hy with rfl | h2
        · exact hx
        · exact hpre y h2
      · simp [queue_scan, hx, hscan]

/-- C15 at the sample of the spec: the queue holds the message `y1` and then the
message `x1`, and the request id is `x1`; the same through the whole blocking
call, when the two messages arrive in two turns of the main loop. -/
theorem C15_queue_scan_takes_first_match_witness :
    (∃ pre m post, [iq_with_id "y1", iq_with_id "x1"] = pre ++ m :: post ∧
      (∀ x ∈ pre, lm_message_node_get_attribute x.node "id" ≠ some "x1") ∧
      lm_message_node_get_attribute m.node "id" = some "x1" ∧
      queue_scan "x1" [iq_with_id "y1", iq_with_id "x1"] = some (m, pre ++ post)) ∧
    queue_scan "x1" [iq_with_id "y1", iq_with_id "x1"] =
      some (iq_with_id "x1", [iq_with_id "y1"]) ∧
    (lm_connection_send_with_reply_and_block env0 conn_live
        (stanza .IQ "iq" [("type", "get"), ("id", "x1")])
        [[.connection_in_event 0 .NORMAL [iq_with_id "y1"]],
         [.connection_in_event 0 .NORMAL [iq_with_id "x1"]]]).map
      (fun r => (r.1, r.2.1.incoming_messages, r.2.1.incoming_source)) =
      some (iq_with_id "x1", [iq_with_id "y1"], 1) :=
  ⟨C15_queue_scan_takes_first_match "x1" [iq_with_id "y1", iq_with_id "x1"]
      ⟨iq_with_id "x1", by simp, by decide⟩,
    by decide, by decide⟩

theorem send_with_reply_queue (env : Env) (c : LmConnection) (message : LmMessage)
    (handler : LmMessageHandler) :
    (lm_connection_send_with_reply env c message handler).2.1.incoming_messages =
      c.incoming_messages := by
  unfold lm_connection_send_with_reply
  cases lm_message_node_get_attribute message.node "id" <;> simp

/-- No handler function touches the incoming queue. -/
theorem handler_run_queue (env : Env) (h : LmMessageHandler) (c c1 : LmConnection)
    (m : LmMessage) (r : LmHandlerResult) (ev : List Event)
    (hrun : _lm_message_handler_handle_message env h c m = some (r, c1, ev)) :
    c1.incoming_messages = c.incoming_messages := by
  unfold _lm_message_handler_handle_message at hrun
  cases hf : h.func with
  | user f =>
    simp only [hf, Option.some.injEq, Prod.mk.injEq] at hrun
    rw [← hrun.2.1]
  | auth_req_reply data =>
    simp only [hf, connection_auth_req_reply] at hrun
    cases hmsg : connection_create_auth_msg env c data.username data.password data.resource
        (connection_check_auth_type m) with
    | none => simp [hmsg] at hrun
    | some auth_msg =>
      simp only [hmsg, Option.some.injEq, Prod.mk.injEq] at hrun
      rw [← hrun.2.1]
      exact send_with_reply_queue env c auth_msg _
  | auth_reply =>
    simp only [hf, connection_auth_reply] at hrun
    cases ht : lm_message_node_get_attribute m.node "type" with
    | none => simp [ht] at hrun
    | some type =>
      simp only [ht, Option.some.injEq, Prod.mk.injEq] at hrun
      rw [← hrun.2.1]
      by_cases h1 : type = "result"
      · simp [h1]
      · by_cases h2 : type = "error" <;> simp [h1, h2]

theorem handle_chain_queue (env : Env) (m : LmMessage) (chain : List HandlerData)
    (r : LmHandlerResult) (c c1 : LmConnection) (ev : List Event)
    (h : connection_handle_chain env m chain r c = some (c1, ev)) :
    c1.incoming_messages = c.incoming_messages := by
  induction chain generalizing r c ev with
  | nil =>
    simp only [connection_handle_chain, Option.some.injEq, Prod.mk.injEq] at h
    rw [← h.1]
  | cons hd l ih =>
    unfold connection_handle_chain at h
    by_cases hr : r = .ALLOW_MORE_HANDLERS
    · simp only [hr, if_true] at h
      cases hrun : _lm_message_handler_handle_message env hd.handler c m with
      | none => simp [hrun] at h
      | some res =>
        obtain ⟨r1, c2, ev1⟩ := res
        simp only [hrun] at h
        cases hrest : connection_handle_chain env m l r1 c2 with
        | none => simp [hrest] at h
        | some p =>
          obtain ⟨c3, ev3⟩ := p
          simp only [hrest, Option.some.injEq, Prod.mk.injEq] at h
          rw [← h.1] at ih ⊢
          rw [ih r1 c2 ev3 hrest]
          exact handler_run_queue env hd.handler c c2 m r1 ev1 hrun
    · simp only [hr, if_false, Option.some.injEq, Prod.mk.injEq] at h
      rw [← h.1]

theorem handle_id_queue (env : Env) (c c0 : LmConnection) (m : LmMessage)
    (r : LmHandlerResult) (ev0 : List Event)
    (h : connection_handle_id env c m = some (r, c0, ev0)) :
    c0.incoming_messages = c.incoming_messages := by
  unfold connection_handle_id at h
  cases hid : lm_message_node_get_attribute m.node "id" with
  | none =>
    simp only [hid, Option.some.injEq, Prod.mk.injEq] at h
    rw [← h.2.1]
  | some id =>
    cases hl : g_hash_table_lookup c.id_handlers id with
    | none =>
      simp only [hid, hl, Option.some.injEq, Prod.mk.injEq] at h
      rw [← h.2.1]
    | some handler =>
      cases hrun : _lm_message_handler_handle_message env handler c m with
      | none => simp [hid, hl, hrun] at h
      | some res =>
        obtain ⟨r1, c1, ev1⟩ := res
        simp only [hid, hl, hrun, Option.some.injEq, Prod.mk.injEq] at h
        rw [← h.2.1]
        exact handler_run_queue env handler c c1 m r1 ev1 hrun

/-- The dispatch of a message leaves the incoming queue as it is. -/
theorem handle_message_queue (env : Env) (c c1 : LmConnection) (m : LmMessage)
    (ev : List Event) (h : connection_handle_message env c m = some (c1, ev)) :
    c1.incoming_messages = c.incoming_messages := by
  unfold connection_handle_message at h
  by_cases hs : lm_message_get_type m = .STREAM
  · simp only [hs, if_true, Option.some.injEq] at h
    have h1 : c1 = (connection_stream_received c m).1 := by rw [h]
    rw [h1]; rfl
  · simp only [if_neg hs] at h
    cases hidp : connection_handle_id env c m with
    | none => simp [hidp] at h
    | some res =>
      obtain ⟨r, c0, ev0⟩ := res
      have h0 := handle_id_queue env c c0 m r ev0 hidp
      simp only [hidp] at h
      by_cases hr : r = .REMOVE_MESSAGE
      · simp only [hr, if_true, Option.some.injEq, Prod.mk.injEq] at h
        rw [← h.1]; exact h0
      · simp only [if_neg hr] at h
        by_cases hu : lm_message_get_type m = .UNKNOWN
        · simp [hu] at h
        · simp only [if_neg hu] at h
          cases hw : connection_handle_chain env m (c0.handlers (lm_message_get_type m)) r c0 with
          | none => simp [hw] at h
          | some p =>
            obtain ⟨c2, ev2⟩ := p
            simp only [hw, Option.some.injEq, Prod.mk.injEq] at h
            rw [← h.1, handle_chain_queue env m _ r c0 c2 ev2 hw]
            exact h0

/-- A dispatch pass takes the head off the queue and leaves the rest. -/
theorem incoming_dispatch_queue (env : Env) (c c1 : LmConnection) (ev : List Event)
    (h : connection_incoming_dispatch env c = some (c1, ev)) :
    c1.incoming_messages = c.incoming_messages.tail := by
  unfold connection_incoming_dispatch at h
  cases hq : c.incoming_messages with
  | nil =>
    simp only [hq, Option.some.injEq, Prod.mk.injEq] at h
    rw [← h.1, hq]; rfl
  | cons m rest =>
    simp only [hq] at h
    rw [handle_message_queue env _ c1 m ev h]
    rfl

theorem send_with_reply_set_queue (env : Env) (c : LmConnection) (q : List LmMessage)
    (message : LmMessage) (handler : LmMessageHandler) :
    lm_connection_send_with_reply env (set_queue c q) message handler =
      ((lm_connection_send_with_reply env c message handler).1,
        set_queue (lm_connection_send_with_reply env c message handler).2.1 q,
        (lm_connection_send_with_reply env c message handler).2.2) := by
  unfold lm_connection_send_with_reply
  cases lm_message_node_get_attribute message.node "id" <;> rfl

theorem auth_reply_set_queue (c : LmConnection) (q : List LmMessage) (m : LmMessage) :
    connection_auth_reply (set_queue c q) m =
      (connection_auth_reply c m).map fun r => (r.1, set_queue r.2.1 q, r.2.2) := by
  unfold connection_auth_reply
  cases lm_message_node_get_attribute m.node "type" with
  | none => rfl
  | some type =>
    by_cases h1 : type = "result"
    · simp only [h1, if_true]; rfl
    · by_cases h2 : type = "error"
      · simp only [h2, if_neg h1, if_true]; rfl
      · simp only [if_neg h1, if_neg h2]; rfl

theorem auth_req_reply_set_queue (env : Env) (c : LmConnection) (q : List LmMessage)
    (m : LmMessage) (data : AuthReqData) :
    connection_auth_req_reply env (set_queue c q) m data =
      (connection_auth_req_reply env c m data).map fun r => (r.1, set_queue r.2.1 q, r.2.2) := by
  have hmsg : ∀ t, connection_create_auth_msg env (set_queue c q) data.username data.password
      data.resource t = connection_create_auth_msg env c data.username data.password
        data.resource t := fun t => rfl
  unfold connection_auth_req_reply
  simp only [hmsg]
  cases connection_create_auth_msg env c data.username data.password data.resource
      (connection_check_auth_type m) with
  | none => rfl
  | some auth_msg =>
    simp only [send_with_reply_set_queue, Option.map_some']

theorem handler_run_set_queue (env : Env) (h : LmMessageHandler) (c : LmConnection)
    (q : List LmMessage) (m : LmMessage) :
    _lm_message_handler_handle_message env h (set_queue c q) m =
      (_lm_message_handler_handle_message env h c m).map
        fun r => (r.1, set_queue r.2.1 q, r.2.2) := by
  unfold _lm_message_handler_handle_message
  cases h.func with
  | user f => rfl
  | auth_req_reply data =>
    simp only [auth_req_reply_set_queue]
    cases connection_auth_req_reply env c m data <;> rfl
  | auth_reply =>
    simp only [auth_reply_set_queue]
    cases connection_auth_reply c m <;> rfl

theorem handle_chain_set_queue (env : Env) (m : LmMessage) (chain : List HandlerData)
    (r : LmHandlerResult) (c : LmConnection) (q : List LmMessage) :
    connection_handle_chain env m chain r (set_queue c q) =
      (connection_handle_chain env m chain r c).map fun p => (set_queue p.1 q, p.2) := by
  induction chain generalizing r c with
  | nil => rfl
  | cons hd l ih =>
    unfold connection_handle_chain
    by_cases hr : r = .ALLOW_MORE_HANDLERS
    · simp only [hr, if_true, handler_run_set_queue]
      cases _lm_message_handler_handle_message env hd.handler c m with
      | none => rfl
      | some res =>
        obtain ⟨r1, c1, ev1⟩ := res
        simp only [Option.map_some', ih]
        cases connection_handle_chain env m l r1 c1 <;> rfl
    · simp only [hr, if_false]; rfl

theorem handle_id_set_queue (env : Env) (c : LmConnection) (q : List LmMessage)
    (m : LmMessage) :
    connection_handle_id env (set_queue c q) m =
      (connection_handle_id env c m).map fun r => (r.1, set_queue r.2.1 q, r.2.2) := by
  unfold connection_handle_id
  cases lm_message_node_get_attribute m.node "id" with
  | none => rfl
  | some id =>
    have hl : g_hash_table_lookup (set_queue c q).id_handlers id =
        g_hash_table_lookup c.id_handlers id := rfl
    simp only [hl]
    cases g_hash_table_lookup c.id_handlers id with
    | none => rfl
    | some handler =>
      simp only [handler_run_set_queue]
      cases _lm_message_handler_handle_message env handler c m <;> rfl

/-- The dispatch of a message does not look at the incoming queue: on a
connection with another queue it does the same and leaves that queue. -/
theorem handle_message_set_queue (env : Env) (c : LmConnection) (q : List LmMessage)
    (m : LmMessage) :
    connection_handle_message env (set_queue c q) m =
      (connection_handle_message env c m).map fun p => (set_queue p.1 q, p.2) := by
  unfold connection_handle_message
  by_cases hs : lm_message_get_type m = .STREAM
  · simp only [hs, if_true]; rfl
  · simp only [if_neg hs, handle_id_set_queue]
    cases connection_handle_id env c m with
    | none => rfl
    | some res =>
      obtain ⟨r, c0, ev0⟩ := res
      simp only [Option.map_some']
      by_cases hr : r = .REMOVE_MESSAGE
      · simp only [hr, if_true]; rfl
      · simp only [if_neg hr]
        by_cases hu : lm_message_get_type m = .UNKNOWN
        · simp only [hu, if_true]; rfl
        · have hh : (set_queue c0 q).handlers (lm_message_get_type m) =
              c0.handlers (lm_message_get_type m) := rfl
          simp only [if_neg hu, hh, handle_chain_set_queue]
          cases connection_handle_chain env m (c0.handlers (lm_message_get_type m)) r c0 <;> rfl

theorem set_queue_self (c : LmConnection) (q : List LmMessage) (h : c.incoming_messages = q) :
    set_queue c q = c := by
  cases c
  simp only [set_queue] at h ⊢
  subst h
  rfl

/-- A run of queue actions is the handling, in order, of the first messages of
the queue at its start followed by the messages delivered, as many as there are
dispatch passes that find a message; the other messages are left queued. -/
theorem queue_run_in_order (env : Env) (actions : List QueueAction) (c : LmConnection) :
    queue_run env c actions =
      (handle_in_order env (set_queue c [])
        ((c.incoming_messages ++ delivered actions).take
          (handed_count c.incoming_messages.length actions))).map
        fun r => (set_queue r.1 ((c.incoming_messages ++ delivered actions).drop
          (handed_count c.incoming_messages.length actions)), r.2) := by
  induction actions generalizing c with
  | nil =>
    simp only [queue_run, handed_count, delivered, List.take_zero, handle_in_order,
      Option.map_some', List.drop_zero, List.append_nil]
    rfl
  | cons a rest ih =>
    cases a with
    | new_message m =>
      have hq : (connection_new_message_cb c m).incoming_messages ++ delivered rest =
          c.incoming_messages ++ delivered (.new_message m :: rest) := by
        simp [connection_new_message_cb, delivered]
      have hl : (connection_new_message_cb c m).incoming_messages.length =
          c.incoming_messages.length + 1 := by
        simp [connection_new_message_cb]
      have hs : set_queue (connection_new_message_cb c m) [] = set_queue c [] := rfl
      have h := ih (connection_new_message_cb c m)
      rw [hq, hl, hs] at h
      simp only [queue_run, handed_count]
      exact h
    | dispatch =>
      cases hqueue : c.incoming_messages with
      | nil =>
        have hd : connection_incoming_dispatch env c = some (c, []) := by
          simp [connection_incoming_dispatch, hqueue]
        have h := ih c
        rw [hqueue] at h
        simp only [queue_run, hd, handed_count, delivered, List.length_nil, List.nil_append] at h ⊢
        rw [h]
        cases handle_in_order env (set_queue c [])
          (List.take (handed_count 0 rest) (delivered rest)) <;> simp
      | cons m q =>
        have hd : connection_incoming_dispatch env c =
            (connection_handle_message env (set_queue c []) m).map
              fun p => (set_queue p.1 q, p.2) := by
          rw [← handle_message_set_queue]
          simp only [connection_incoming_dispatch, hqueue]
          rfl
        have hdel : delivered (.dispatch :: rest) = delivered rest := rfl
        simp only [queue_run, hd, handed_count, List.length_cons, hdel, List.cons_append,
          List.take_succ_cons,
          List.drop_succ_cons, handle_in_order]
        cases hm : connection_handle_message env (set_queue c []) m with
        | none => rfl
        | some p =>
          obtain ⟨c1, ev⟩ := p
          have hc1 : c1.incoming_messages = [] :=
            handle_message_queue env (set_queue c []) c1 m ev hm
          have h := ih (set_queue c1 q)
          have e1 : (set_queue c1 q).incoming_messages = q := rfl
          have e2 : set_queue (set_queue c1 q) [] = c1 := set_queue_self c1 [] hc1
          rw [e1, e2] at h
          simp only [Option.map_some', h]
          cases handle_in_order env c1
            (List.take (handed_count q.length rest) (q ++ delivered rest)) <;> simp

theorem handed_count_le (actions : List QueueAction) (n : Nat) :
    handed_count n actions ≤ dispatch_passes actions ∧
    handed_count n actions ≤ n + (delivered actions).length := by
  induction actions generalizing n with
  | nil => simp [handed_count, dispatch_passes]
  | cons a rest ih =>
    cases a with
    | new_message m =>
      obtain ⟨h1, h2⟩ := ih (n + 1)
      simp only [handed_count, dispatch_passes, delivered, List.length_cons]
      exact ⟨h1, by omega⟩
    | dispatch =>
      cases n with
      | zero =>
        obtain ⟨h1, h2⟩ := ih 0
        simp only [handed_count, dispatch_passes, delivered]
        exact ⟨by omega, by omega⟩
      | succ k =>
        obtain ⟨h1, h2⟩ := ih k
        simp only [handed_count, dispatch_passes, delivered]
        exact ⟨by omega, by omega⟩

/-- C16: whatever the interleaving of messages delivered by the parser and of
dispatch passes, what the passes do is the handling by
`connection_handle_message`, one message after the other and each once, of an
initial part of the messages queued at the start followed by the messages
delivered, in that order, and the rest of them is the queue at the end; a pass
hands over at most one message, so the messages handled are no more than the
passes; and the source is ready exactly when the queue is not empty. -/
theorem C16_dispatch_in_parse_order (env : Env) (c : LmConnection)
    (actions : List QueueAction) :
    queue_run env c actions =
      (handle_in_order env (set_queue c [])
        ((c.incoming_messages ++ delivered actions).take
          (handed_count c.incoming_messages.length actions))).map
        (fun r => (set_queue r.1 ((c.incoming_messages ++ delivered actions).drop
          (handed_count c.incoming_messages.length actions)), r.2)) ∧
    handed_count c.incoming_messages.length actions ≤ dispatch_passes actions ∧
    handed_count c.incoming_messages.length actions ≤
      (c.incoming_messages ++ delivered actions).length ∧
    (∀ c2 : LmConnection, incoming_source_ready c2 = true ↔ c2.incoming_messages ≠ []) := by
  obtain ⟨h1, h2⟩ := handed_count_le actions c.incoming_messages.length
  refine ⟨queue_run_in_order env actions c, h1, by simpa using h2, ?_⟩
  · intro c2
    unfold incoming_source_ready connection_incoming_prepare connection_incoming_check
    cases c2.incoming_messages <;> simp

/-- C16 at a sample run on the chain sample connection: two messages arrive, one
pass, a third message arrives, two passes: the handlers of the chain see the
first three messages in the order of their arrival, each once, and nothing is
left queued; a fourth pass would find nothing. -/
theorem C16_dispatch_in_parse_order_witness :
    queue_run env0 conn_chain
        [.new_message (stanza .MESSAGE "message" [("from", "a")]),
         .new_message (stanza .MESSAGE "message" [("from", "b")]), .dispatch,
         .new_message (stanza .MESSAGE "message" [("from", "c")]), .dispatch, .dispatch,
         .dispatch] =
      (handle_in_order env0 (set_queue conn_chain [])
        [stanza .MESSAGE "message" [("from", "a")], stanza .MESSAGE "message" [("from", "b")],
         stanza .MESSAGE "message" [("from", "c")]]).map
        (fun r => (set_queue r.1 [], r.2)) ∧
    (queue_run env0 conn_chain
        [.new_message (stanza .MESSAGE "message" [("from", "a")]),
         .new_message (stanza .MESSAGE "message" [("from", "b")]), .dispatch,
         .new_message (stanza .MESSAGE "message" [("from", "c")]), .dispatch, .dispatch,
         .dispatch]).map (fun r => (r.1.incoming_messages, r.2)) =
      some ([],
        [.handler 3 (stanza .MESSAGE "message" [("from", "a")]),
         .handler 2 (stanza .MESSAGE "message" [("from", "a")]),
         .handler 3 (stanza .MESSAGE "message" [("from", "b")]),
         .handler 2 (stanza .MESSAGE "message" [("from", "b")]),
         .handler 3 (stanza .MESSAGE "message" [("from", "c")]),
         .handler 2 (stanza .MESSAGE "message" [("from", "c")])]) :=
  ⟨(C16_dispatch_in_parse_order env0 conn_chain _).1, by decide⟩

theorem unregister_first_match (handler : LmMessageHandler) (pre post : List HandlerData)
    (hd : HandlerData) (hpre : ∀ x ∈ pre, x.handler.ident ≠ handler.ident)
    (hhd : hd.handler.ident = handler.ident) :
    unregister_first handler (pre ++ hd :: post) = pre ++ post := by
  induction pre with
  | nil => simp [unregister_first, hhd]
  | cons x l ih =>
    have hx := hpre x (List.mem_cons_self _ _)
    have ih2 := ih (fun y hy => hpre y (List.mem_cons_of_mem _ hy))
    show unregister_first handler (x :: (l ++ hd :: post)) = x :: (l ++ post)
    simp only [unregister_first, hx, if_false, ih2]

theorem unregister_first_no_match (handler : LmMessageHandler) (chain : List HandlerData)
    (h : ∀ x ∈ chain, x.handler.ident ≠ handler.ident) :
    unregister_first handler chain = chain := by
  induction chain with
  | nil => rfl
  | cons x l ih =>
    have hx := h x (List.mem_cons_self _ _)
    simp only [unregister_first, hx, if_false]
    rw [ih (fun y hy => h y (List.mem_cons_of_mem _ hy))]

/-- C17: `lm_connection_unregister_message_handler` takes out of the chain of the
given type the first entry whose handler is the given object and keeps every
other entry, later entries with the same handler included, in its place; when no
entry holds the handler the chain stays as it is; the chains of the other types
are never touched. -/
theorem C17_unregister_first_entry (c : LmConnection) (handler : LmMessageHandler)
    (type : LmMessageType) :
    (type ≠ .UNKNOWN → ∀ pre hd post, c.handlers type = pre ++ hd :: post →
      (∀ x ∈ pre, x.handler.ident ≠ handler.ident) → hd.handler.ident = handler.ident →
      (lm_connection_unregister_message_handler c handler type).handlers type = pre ++ post) ∧
    ((∀ x ∈ c.handlers type, x.handler.ident ≠ handler.ident) →
      (lm_connection_unregister_message_handler c handler type).handlers type =
        c.handlers type) ∧
    (∀ t, t ≠ type →
      (lm_connection_unregister_message_handler c handler type).handlers t = c.handlers t) := by
  refine ⟨?_, ?_, ?_⟩
  · intro hu pre hd post hc hpre hhd
    simp only [lm_connection_unregister_message_handler, if_neg hu, if_true]
    rw [hc]
    exact unregister_first_match handler pre post hd hpre hhd
  · intro h
    by_cases hu : type = .UNKNOWN
    · simp [lm_connection_unregister_message_handler, hu]
    · simp only [lm_connection_unregister_message_handler, if_neg hu, if_true]
      exact unregister_first_no_match handler _ h
  · intro t ht
    by_cases hu : type = .UNKNOWN
    · simp [lm_connection_unregister_message_handler, hu]
    · simp only [lm_connection_unregister_message_handler, if_neg hu, if_neg ht]

/-- C17 at sample inputs: handler 2 is taken out of the chain 3, 2, 1 of the
chain sample connection; handler 7 is in no chain; the chain for iq stanzas is
not touched. -/
theorem C17_unregister_first_entry_witness :
    (lm_connection_unregister_message_handler conn_chain (app_handler 2 .REMOVE_MESSAGE)
        .MESSAGE).handlers .MESSAGE =
      [{ priority := 3, handler := app_handler 3 .ALLOW_MORE_HANDLERS }] ++
        [{ priority := 1, handler := app_handler 1 .ALLOW_MORE_HANDLERS }] ∧
    (lm_connection_unregister_message_handler conn_chain (app_handler 7 .REMOVE_MESSAGE)
        .MESSAGE).handlers .MESSAGE = conn_chain.handlers .MESSAGE ∧
    (lm_connection_unregister_message_handler conn_chain (app_handler 2 .REMOVE_MESSAGE)
        .MESSAGE).handlers .IQ = conn_chain.handlers .IQ :=
  ⟨(C17_unregister_first_entry conn_chain (app_handler 2 .REMOVE_MESSAGE) .MESSAGE).1
      (by decide) [{ priority := 3, handler := app_handler 3 .ALLOW_MORE_HANDLERS }]
      { priority := 2, handler := app_handler 2 .REMOVE_MESSAGE }
      [{ priority := 1, handler := app_handler 1 .ALLOW_MORE_HANDLERS }] rfl
      (by
        intro x hx
        simp only [List.mem_singleton] at hx
        rw [hx]; decide)
      rfl,
    (C17_unregister_first_entry conn_chain (app_handler 7 .REMOVE_MESSAGE) .MESSAGE).2.1
      (by
        intro x hx
        have hc : conn_chain.handlers .MESSAGE =
            [{ priority := 3, handler := app_handler 3 .ALLOW_MORE_HANDLERS },
             { priority := 2, handler := app_handler 2 .REMOVE_MESSAGE },
             { priority := 1, handler := app_handler 1 .ALLOW_MORE_HANDLERS }] := rfl
        rw [hc] at hx
        simp only [List.mem_cons, List.mem_singleton, List.not_mem_nil, or_false] at hx
        rcases hx with rfl | rfl | rfl <;> decide),
    (C17_unregister_first_entry conn_chain (app_handler 2 .REMOVE_MESSAGE) .MESSAGE).2.2 .IQ
      (by decide)⟩

/-! ## Fail-over across candidates (C18) -/

theorem do_connect_in_progress (c : LmConnection) (os : Nat → ConnectOutcome)
    (resolved_addrs : List Nat) (a : Nat) (rest : List Nat) (fd0 : Int) (ch : Option Nat)
    (fd : Nat) (h : os a = .in_progress fd) :
    connection_do_connect c os resolved_addrs (a :: rest) fd0 ch =
      some (some (waiting_attempt resolved_addrs (a :: rest) fd),
        [.trying a (connect_port c), .watch fd]) := by
  cases rest <;> simp [connection_do_connect, h, waiting_attempt]

theorem failed_next_in_progress (c : LmConnection) (os : Nat → ConnectOutcome)
    (resolved_addrs : List Nat) (p a : Nat) (rest : List Nat) (fdp fd : Nat)
    (h : os a = .in_progress fd) :
    connection_failed_with_error c os (waiting_attempt resolved_addrs (p :: a :: rest) fdp) =
      some (some (waiting_attempt resolved_addrs (a :: rest) fd),
        [.channel_unref fdp, .trying a (connect_port c), .watch fd]) := by
  simp only [connection_failed_with_error, waiting_attempt,
    do_connect_in_progress c os resolved_addrs a rest _ _ fd h, channel_unref_events]
  rfl

theorem connect_run_writable (tls : TlsSession) (os : Nat → ConnectOutcome) (negotiate : Bool)
    (c : LmConnection) (cd : LmConnectData) (hproxy : c.proxy = none) :
    connect_run tls os negotiate c (some cd) [.OUT] =
      (connection_succeeded tls c cd).map fun r => (r.1, none, r.2) := by
  simp only [connect_run, connection_connect_cb, hproxy]
  cases connection_succeeded tls c cd with
  | none => rfl
  | some r => simp

theorem connect_run_error (tls : TlsSession) (os : Nat → ConnectOutcome) (negotiate : Bool)
    (c : LmConnection) (cd : LmConnectData) (cd1 : Option LmConnectData) (ev : List Event)
    (rest : List GIOCondition) (hf : connection_failed_with_error c os cd = some (cd1, ev)) :
    connect_run tls os negotiate c (some cd) (.ERR :: rest) =
      (connect_run tls os negotiate c cd1 rest).map fun r => (r.1, r.2.1, ev ++ r.2.2) := by
  simp only [connect_run, connection_connect_cb, hf]
  cases connect_run tls os negotiate c cd1 rest with
  | none => rfl
  | some r => rfl

/-- From an attempt waiting on candidate `p`: an error condition on each socket
up to candidate `a`, then a writable socket, make the attempt fail over through
the candidates in between and hand the socket of `a` to `connection_succeeded`. -/
theorem connect_run_failover (tls : TlsSession) (os : Nat → ConnectOutcome) (negotiate : Bool)
    (c : LmConnection) (resolved_addrs : List Nat) (sock : Nat → Nat) (a : Nat)
    (post : List Nat) (hproxy : c.proxy = none) (pre : List Nat) (p : Nat)
    (hos : ∀ x ∈ pre ++ [a], os x = .in_progress (sock x)) :
    connect_run tls os negotiate c
        (some (waiting_attempt resolved_addrs (p :: (pre ++ a :: post)) (sock p)))
        (List.replicate (pre.length + 1) .ERR ++ [.OUT]) =
      (connection_succeeded tls c (waiting_attempt resolved_addrs (a :: post) (sock a))).map
        fun r => (r.1, none, [Event.channel_unref (sock p)] ++
          failover_events (connect_port c) sock pre ++
          [Event.trying a (connect_port c), .watch (sock a)] ++ r.2) := by
  induction pre generalizing p with
  | nil =>
    have ha := hos a (by simp)
    have hf := failed_next_in_progress c os resolved_addrs p a post (sock p) (sock a) ha
    have hw := connect_run_writable tls os negotiate c
      (waiting_attempt resolved_addrs (a :: post) (sock a)) hproxy
    simp only [List.nil_append] at hf
    simp only [List.length_nil, Nat.zero_add, List.replicate_one, List.singleton_append,
      List.nil_append]
    rw [connect_run_error tls os negotiate c _ _ _ _ hf, hw]
    cases connection_succeeded tls c (waiting_attempt resolved_addrs (a :: post) (sock a)) with
    | none => rfl
    | some r => simp [failover_events]
  | cons q pre ih =>
    have hq := hos q (by simp)
    have hf := failed_next_in_progress c os resolved_addrs p q (pre ++ a :: post) (sock p)
      (sock q) hq
    have ih2 := ih q (fun x hx => hos x (by
      rcases List.mem_append.mp hx with h | h
      · exact List.mem_append_left _ (List.mem_cons_of_mem _ h)
      · exact List.mem_append_right _ h))
    have hrep : List.replicate ((q :: pre).length + 1) GIOCondition.ERR ++ [GIOCondition.OUT] =
        GIOCondition.ERR :: (List.replicate (pre.length + 1) GIOCondition.ERR ++ [.OUT]) := by
      simp [List.replicate_succ]
    rw [hrep]
    simp only [List.cons_append] at hf ⊢
    rw [connect_run_error tls os negotiate c _ _ _ _ hf, ih2]
    cases connection_succeeded tls c (waiting_attempt resolved_addrs (a :: post) (sock a)) with
    | none => rfl
    | some r => simp [failover_events]

theorem handshakes_append (a b : List Event) :
    handshakes (a ++ b) = handshakes a ++ handshakes b := by
  simp [handshakes, List.filterMap_append]

theorem handshakes_run_checks (f : Nat → LmSSLStatus → LmSSLResponse)
    (l : List (Bool × LmSSLStatus)) (n : Nat) : handshakes (run_checks f n l).2 = [] := by
  induction l generalizing n with
  | nil => rfl
  | cons x rest ih =>
    obtain ⟨failing, status⟩ := x
    unfold run_checks
    split
    · split
      · have := ih (n + 1)
        simpa [handshakes] using this
      · rfl
    · exact ih n

theorem handshakes_verify (tls : TlsSession) (c : LmConnection) (v : Bool × List Event)
    (h : connection_verify_certificate tls c = some v) : handshakes v.2 = [] := by
  unfold connection_verify_certificate at h
  simp only [] at h
  split at h
  · simp only [Option.some.injEq] at h
    rw [← h]; exact handshakes_run_checks _ _ _
  · split at h
    · simp only [Option.some.injEq] at h
      rw [← h]; exact handshakes_run_checks _ _ _
    · split at h
      · split at h
        · cases h
        · simp only [Option.some.injEq] at h
          rw [← h, handshakes_append, handshakes_run_checks]
          rfl
      · simp only [Option.some.injEq] at h
        rw [← h, handshakes_append, handshakes_run_checks, handshakes_run_checks]
        rfl

/-- The events of `connection_do_close`: the channel is dropped, and GnuTLS is
shut down when the connection was open and uses SSL. -/
theorem do_close_events (c : LmConnection) :
    (connection_do_close c).2 = channel_unref_events c.io_channel ++
      (if lm_connection_is_open c && lm_connection_get_use_ssl c
        then [Event.gnutls_deinit] else []) := by
  have h2 : lm_connection_is_open
      { c with io_channel := none, incoming_source := c.incoming_source - 1 } =
        lm_connection_is_open c := rfl
  have h3 : lm_connection_get_use_ssl
      { c with io_channel := none, incoming_source := c.incoming_source - 1 } =
        lm_connection_get_use_ssl c := rfl
  unfold connection_do_close
  simp only [h2, h3]
  cases lm_connection_is_open c <;> cases lm_connection_get_use_ssl c <;>
    simp [channel_unref_events]

theorem handshakes_do_close (c : LmConnection) : handshakes (connection_do_close c).2 = [] := by
  rw [do_close_events]
  cases c.io_channel <;> cases lm_connection_is_open c <;>
    cases lm_connection_get_use_ssl c <;> rfl

theorem handshakes_send (c : LmConnection) (str : String) :
    handshakes (connection_send c str).2.2 = [] := by
  unfold connection_send
  split <;> rfl

theorem handshakes_send_message (c : LmConnection) (m : LmMessage) :
    handshakes (lm_connection_send c m).2.2 = [] := by
  unfold lm_connection_send
  split <;> rfl

theorem begin_ssl_handshakes (tls : TlsSession) (c : LmConnection)
    (r : Bool × Option LmError × LmConnection × List Event)
    (h : connection_begin_ssl tls c = some r) :
    handshakes r.2.2.2 = if lm_connection_get_use_ssl c then [c.fd] else [] := by
  unfold connection_begin_ssl at h
  by_cases hs : lm_connection_get_use_ssl c = true
  · simp only [hs, if_true] at h ⊢
    split at h
    · cases h
    · rename_i v hv
      have hv2 : handshakes v.2 = [] := by
        split at hv
        · exact handshakes_verify tls c v hv
        · simp only [Option.some.injEq] at hv
          rw [← hv]; rfl
      split at h
      · simp only [Option.some.injEq] at h
        rw [← h]
        simp only [handshakes_append, hv2, handshakes_do_close]
        rfl
      · simp only [Option.some.injEq] at h
        rw [← h]
        simp only [handshakes_append, hv2]
        rfl
  · simp only [hs, if_false, Bool.false_eq_true, Option.some.injEq] at h ⊢
    rw [← h]; rfl

/-- The only TLS handshake `connection_succeeded` starts is on the socket of the
attempt it is given, and only when SSL is in use. -/
theorem succeeded_handshakes (tls : TlsSession) (c : LmConnection) (cd : LmConnectData)
    (r : LmConnection × List Event) (hc : c.cancel_open = false)
    (h : connection_succeeded tls c cd = some r) :
    handshakes r.2 = if lm_connection_get_use_ssl c then [cd.fd] else [] := by
  unfold connection_succeeded at h
  simp only [hc, Bool.false_eq_true, if_false] at h
  split at h
  · cases h
  · rename_i ok e c2 ev1 hb
    have hbs := begin_ssl_handshakes tls _ _ hb
    simp only [] at hbs
    have hev0 : handshakes (set_blocking_events cd.io_channel) = [] := by
      cases cd.io_channel <;> rfl
    have hev2 : handshakes (io_watches_events c2.io_channel) = [] := by
      cases c2.io_channel <;> rfl
    have hun : handshakes (channel_unref_events c2.io_channel) = [] := by
      cases c2.io_channel <;> rfl
    replace hbs : handshakes ev1 = if lm_connection_get_use_ssl c then [cd.fd] else [] := hbs
    split at h
    · simp only [Option.some.injEq] at h
      rw [← h]
      simp only [handshakes_append, hev0, hbs, hun, List.nil_append, List.append_nil]
    · split at h
      · simp only [Option.some.injEq] at h
        rw [← h]
        simp only [handshakes_append, hev0, hbs, hev2, handshakes_send, handshakes_do_close,
          List.nil_append, List.append_nil]
      · split at h
        · simp only [Option.some.injEq] at h
          rw [← h]
          simp only [handshakes_append, hev0, hbs, hev2, handshakes_send,
            handshakes_send_message, handshakes_do_close, List.nil_append, List.append_nil]
        · simp only [Option.some.injEq] at h
          rw [← h]
          simp only [handshakes_append, hev0, hbs, hev2, handshakes_send,
            handshakes_send_message, List.nil_append, List.append_nil]

/-- An open on a connection that is not open, has a server and no proxy, when the
connect on the first candidate is in progress: the attempt waits on the socket of
that candidate. -/
theorem open_starts (os : Nat → ConnectOutcome) (resolve : String → Option (List Nat))
    (c : LmConnection) (function : Option Nat) (server : String) (first : Nat)
    (rest : List Nat) (fd : Nat)
    (hno : lm_connection_is_open c = false) (hserver : c.server = some server)
    (hproxy : c.proxy = none) (hres : resolve server = some (first :: rest))
    (hos : os first = .in_progress fd) :
    lm_connection_open os resolve c function 0 none =
      some (true, none, opening c function,
        some (waiting_attempt (first :: rest) (first :: rest) fd),
        gnutls_init_events c ++ [.trying first (c.port % 65536), .watch fd]) := by
  have hno2 : lm_connection_is_open
      { c with open_cb := some (_lm_utils_new_callback function 0 none) } = false := hno
  unfold lm_connection_open connection_do_open
  rw [if_neg (by rw [hno2]; simp)]
  dsimp only
  simp only [hserver, hproxy, hres]
  rw [do_connect_in_progress _ os (first :: rest) first rest (-1) none fd hos]
  simp only [connect_port, opening, hserver, hproxy, gnutls_init_events,
    lm_connection_get_use_ssl]

theorem failover_events_filters (port : Nat) (sock : Nat → Nat) (pre : List Nat) :
    channel_unrefs (failover_events port sock pre) = pre.map sock ∧
    tried (failover_events port sock pre) = pre ∧
    handshakes (failover_events port sock pre) = [] ∧
    raw_sends (failover_events port sock pre) = [] ∧
    message_sends (failover_events port sock pre) = [] := by
  induction pre with
  | nil => exact ⟨rfl, rfl, rfl, rfl, rfl⟩
  | cons p l ih =>
    obtain ⟨h1, h2, h3, h4, h5⟩ := ih
    have hcons : failover_events port sock (p :: l) =
        [Event.trying p port, .watch (sock p), .channel_unref (sock p)] ++
          failover_events port sock l := by
      simp [failover_events]
    rw [hcons]
    refine ⟨?_, ?_, ?_, ?_, ?_⟩
    · simp only [channel_unrefs, List.filterMap_append] at h1 ⊢
      rw [h1]; rfl
    · simp only [tried, List.filterMap_append] at h2 ⊢
      rw [h2]; rfl
    · simp only [handshakes, List.filterMap_append] at h3 ⊢
      rw [h3]; rfl
    · simp only [raw_sends, List.filterMap_append] at h4 ⊢
      rw [h4]; rfl
    · simp only [message_sends, List.filterMap_append] at h5 ⊢
      rw [h5]; rfl

/-- C18: with no proxy, when the connects to the first k candidates of the
resolved list fail by an error condition on their sockets and the socket of the
next candidate becomes writable, the sequencer fails over k times, through the
candidates in list order, and then runs `connection_succeeded` once, on the
socket of candidate k+1; up to there no TLS handshake is started and nothing is
sent, and the only handshake `connection_succeeded` starts is on that socket. -/
theorem C18_failover_then_success (tls : TlsSession) (os : Nat → ConnectOutcome)
    (resolve : String → Option (List Nat)) (negotiate : Bool) (c : LmConnection)
    (function : Option Nat) (server : String) (pre : List Nat) (a : Nat) (post : List Nat)
    (sock : Nat → Nat)
    (hno : lm_connection_is_open c = false) (hserver : c.server = some server)
    (hproxy : c.proxy = none) (hres : resolve server = some (pre ++ a :: post))
    (hos : ∀ x ∈ pre ++ [a], os x = .in_progress (sock x)) :
    open_and_connect tls os resolve negotiate c function
        (List.replicate pre.length .ERR ++ [.OUT]) =
      (connection_succeeded tls (opening c function)
          (waiting_attempt (pre ++ a :: post) (a :: post) (sock a))).map
        (fun r => (r.1, none, gnutls_init_events c ++ failover_events (c.port % 65536) sock pre ++
          [Event.trying a (c.port % 65536), .watch (sock a)] ++ r.2)) ∧
    channel_unrefs (gnutls_init_events c ++ failover_events (c.port % 65536) sock pre ++
      [Event.trying a (c.port % 65536), .watch (sock a)]) = pre.map sock ∧
    tried (gnutls_init_events c ++ failover_events (c.port % 65536) sock pre ++
      [Event.trying a (c.port % 65536), .watch (sock a)]) = pre ++ [a] ∧
    handshakes (gnutls_init_events c ++ failover_events (c.port % 65536) sock pre ++
      [Event.trying a (c.port % 65536), .watch (sock a)]) = [] ∧
    raw_sends (gnutls_init_events c ++ failover_events (c.port % 65536) sock pre ++
      [Event.trying a (c.port % 65536), .watch (sock a)]) = [] ∧
    message_sends (gnutls_init_events c ++ failover_events (c.port % 65536) sock pre ++
      [Event.trying a (c.port % 65536), .watch (sock a)]) = [] ∧
    (∀ r, connection_succeeded tls (opening c function)
        (waiting_attempt (pre ++ a :: post) (a :: post) (sock a)) = some r →
      handshakes r.2 = if lm_connection_get_use_ssl c then [((sock a : Nat) : Int)] else []) := by
  obtain ⟨f1, f2, f3, f4, f5⟩ := failover_events_filters (c.port % 65536) sock pre
  have hinit : channel_unrefs (gnutls_init_events c) = [] ∧ tried (gnutls_init_events c) = [] ∧
      handshakes (gnutls_init_events c) = [] ∧ raw_sends (gnutls_init_events c) = [] ∧
      message_sends (gnutls_init_events c) = [] := by
    unfold gnutls_init_events
    cases lm_connection_get_use_ssl c <;> exact ⟨rfl, rfl, rfl, rfl, rfl⟩
  obtain ⟨i1, i2, i3, i4, i5⟩ := hinit
  refine ⟨?_, ?_, ?_, ?_, ?_, ?_, ?_⟩
  · have hpo : (opening c function).proxy = none := hproxy
    have hport : connect_port (opening c function) = c.port % 65536 := by
      simp [connect_port, hpo]; rfl
    cases pre with
    | nil =>
      have hs := open_starts os resolve c function server a post (sock a) hno hserver hproxy
        hres (hos a (by simp))
      simp only [open_and_connect, hs, List.length_nil, List.replicate_zero, List.nil_append]
      rw [connect_run_writable tls os negotiate _ _ hpo]
      cases connection_succeeded tls (opening c function)
          (waiting_attempt (a :: post) (a :: post) (sock a)) with
      | none => rfl
      | some r => simp [failover_events]
    | cons p l =>
      have hs := open_starts os resolve c function server p (l ++ a :: post) (sock p) hno
        hserver hproxy hres (hos p (by simp))
      have hrun := connect_run_failover tls os negotiate (opening c function)
        (p :: (l ++ a :: post)) sock a post hpo l p
        (fun x hx => hos x (by
          rcases List.mem_append.mp hx with h | h
          · exact List.mem_append_left _ (List.mem_cons_of_mem _ h)
          · exact List.mem_append_right _ h))
      rw [hport] at hrun
      simp only [open_and_connect, hs, List.length_cons, List.cons_append]
      rw [hrun]
      cases connection_succeeded tls (opening c function)
          (waiting_attempt (p :: (l ++ a :: post)) (a :: post) (sock a)) with
      | none => rfl
      | some r => simp [failover_events]
  · simp only [channel_unrefs, List.filterMap_append] at f1 i1 ⊢
    rw [f1, i1]; simp
  · simp only [tried, List.filterMap_append] at f2 i2 ⊢
    rw [f2, i2]; simp
  · simp only [handshakes, List.filterMap_append] at f3 i3 ⊢
    rw [f3, i3]; simp
  · simp only [raw_sends, List.filterMap_append] at f4 i4 ⊢
    rw [f4, i4]; simp
  · simp only [message_sends, List.filterMap_append] at f5 i5 ⊢
    rw [f5, i5]; simp
  · intro r hr
    exact succeeded_handshakes tls (opening c function) _ r rfl hr

theorem C18_failover_then_success_witness :
    (open_and_connect tls_ok sample_os (sample_resolve [10, 11, 12]) true conn_tls (some 1)
        [.ERR, .ERR, .OUT] =
      (connection_succeeded tls_ok (opening conn_tls (some 1))
          (waiting_attempt [10, 11, 12] [12] 112)).map
        (fun r => (r.1, none, gnutls_init_events conn_tls ++
          failover_events 5222 (fun a => a + 100) [10, 11] ++
          [Event.trying 12 5222, .watch 112] ++ r.2))) ∧
    channel_unrefs (gnutls_init_events conn_tls ++
      failover_events 5222 (fun a => a + 100) [10, 11] ++
      [Event.trying 12 5222, .watch 112]) = [110, 111] ∧
    tried (gnutls_init_events conn_tls ++
      failover_events 5222 (fun a => a + 100) [10, 11] ++
      [Event.trying 12 5222, .watch 112]) = [10, 11, 12] ∧
    handshakes (gnutls_init_events conn_tls ++
      failover_events 5222 (fun a => a + 100) [10, 11] ++
      [Event.trying 12 5222, .watch 112]) = [] ∧
    (open_and_connect tls_ok sample_os (sample_resolve [10, 11, 12]) true conn_tls (some 1)
        [.ERR, .ERR, .OUT]).map
        (fun r => (r.1.io_channel, r.2.1, handshakes r.2.2, raw_sends r.2.2)) =
      some (some 112, none, [112], ["<?xml version='1.0' encoding='UTF-8'?>"]) ∧
    (open_and_connect tls_ok sample_os (sample_resolve [10, 11]) true
        { conn0 with port := 70000 } (some 1) [.ERR, .OUT]).map (fun r => tried_ports r.2.2) =
      some [(10, 4464), (11, 4464)] :=
  have h := C18_failover_then_success tls_ok sample_os (sample_resolve [10, 11, 12]) true
    conn_tls (some 1) "jabber.example.org" [10, 11] 12 [] (fun a => a + 100)
    (by decide) rfl rfl rfl
    (by
      intro x hx
      simp only [List.cons_append, List.nil_append, List.mem_cons, List.mem_singleton,
        List.mem_nil_iff, or_false] at hx
      rcases hx with rfl | rfl | rfl <;> rfl)
  ⟨h.1, h.2.1, h.2.2.1, h.2.2.2.1, by decide, by decide⟩

/-- C19, the code at a failing input: behind a proxy, with candidates 10 and 11,
the socket of candidate 10 becomes writable and the negotiation on it fails.
The callback fails over to candidate 11 and, in the same call, goes on into
`connection_succeeded`: socket 111, whose connect is still in progress and is
still watched by the attempt, becomes the transport of the connection and the
stream header is sent on it. An error condition on the same socket only fails
over. With candidate 10 alone the attempt is freed before `connection_succeeded`
reads it, and the model stops. -/
theorem C19_failed_negotiation_runs_succeeded :
    (open_and_connect tls_ok sample_os (sample_resolve [10, 11]) false conn_proxy (some 1)
        [.OUT]).map (fun r => (r.1.io_channel, r.1.fd, r.2.1, r.2.2)) =
      some (some 111, 111, some (waiting_attempt [10, 11] [11] 111),
        [.trying 10 8080, .watch 110, .proxy_negotiate 110, .channel_unref 110,
         .trying 11 8080, .watch 111, .set_blocking 111, .io_watches 111,
         .send "<?xml version='1.0' encoding='UTF-8'?>",
         .send_message (LmMessage.mk .STREAM (.mk "stream:stream" none
           [("to", "jabber.example.org"),
            ("xmlns:stream", "http://etherx.jabber.org/streams"),
            ("xmlns", "jabber:client")] []))]) ∧
    (open_and_connect tls_ok sample_os (sample_resolve [10, 11]) false conn_proxy (some 1)
        [.ERR]).map (fun r => (r.1.io_channel, r.1.fd, r.2.1, r.2.2)) =
      some (none, 0, some (waiting_attempt [10, 11] [11] 111),
        [.trying 10 8080, .watch 110, .channel_unref 110, .trying 11 8080, .watch 111]) ∧
    open_and_connect tls_ok sample_os (sample_resolve [10]) false conn_proxy (some 1)
      [.OUT] = none := by
  refine ⟨?_, ?_, ?_⟩ <;> first | decide | rfl

/-- C20, the code at a failing input: an open on candidates 10 and 11 whose
connects both fail, by an error condition on the socket or at once in
`connect`. When the last candidate has failed the attempt is freed and nothing
else is done: the open callback is not called and stays stored, and the
connection is left in state CONNECTING with no attempt pending. -/
theorem C20_exhaustion_is_silent :
    (open_and_connect tls_ok sample_os (sample_resolve [10, 11]) true conn0 (some 1)
        [.ERR, .ERR]).map (fun r => (r.1.state, r.1.open_cb, r.2.1, open_results r.2.2, r.2.2)) =
      some (.CONNECTING, some (_lm_utils_new_callback (some 1) 0 none), none, [],
        [.trying 10 5222, .watch 110, .channel_unref 110,
         .trying 11 5222, .watch 111, .channel_unref 111]) ∧
    (lm_connection_open (fun a => .connect_failed (a + 100)) (sample_resolve [10, 11]) conn0
        (some 1) 0 none).map
        (fun r => (r.1, r.2.1, r.2.2.1.state, r.2.2.1.open_cb, r.2.2.2.1, r.2.2.2.2)) =
      some (true, none, .CONNECTING, some (_lm_utils_new_callback (some 1) 0 none), none,
        [.trying 10 5222, .close_fd 110, .trying 11 5222, .close_fd 111]) := by
  refine ⟨?_, ?_⟩ <;> rfl

/-! ## Certificate verification (C21, C22) -/

theorem run_checks_spec (f : Nat → LmSSLStatus → LmSSLResponse) (n : Nat)
    (checks : List (Bool × LmSSLStatus)) :
    run_checks f n checks =
      (spec_success f n (failing_of checks),
        (spec_decisions f n (failing_of checks)).map Event.ssl_decision) := by
  induction checks generalizing n with
  | nil => rfl
  | cons p rest ih =>
    obtain ⟨failing, status⟩ := p
    cases failing with
    | false =>
      have h : failing_of ((false, status) :: rest) = failing_of rest := by
        simp [failing_of]
      rw [h, ← ih n]
      simp [run_checks]
    | true =>
      have h : failing_of ((true, status) :: rest) = status :: failing_of rest := by
        simp [failing_of]
      rw [h]
      by_cases hf : f n status = .CONTINUE
      · simp [run_checks, spec_success, spec_decisions, hf, ih (n + 1)]
      · simp [run_checks, spec_success, spec_decisions, hf]

theorem spec_decisions_of_success (f : Nat → LmSSLStatus → LmSSLResponse) (n : Nat)
    (l : List LmSSLStatus) (h : spec_success f n l = true) : spec_decisions f n l = l := by
  induction l generalizing n with
  | nil => rfl
  | cons s rest ih =>
    simp only [spec_success, Bool.and_eq_true, decide_eq_true_eq] at h
    simp [spec_decisions, h.1, ih (n + 1) h.2]

theorem spec_success_append (f : Nat → LmSSLStatus → LmSSLResponse) (n : Nat)
    (a b : List LmSSLStatus) :
    spec_success f n (a ++ b) = (spec_success f n a && spec_success f (n + a.length) b) := by
  induction a generalizing n with
  | nil => simp [spec_success]
  | cons s rest ih =>
    have hlen : n + (rest.length + 1) = n + 1 + rest.length := by omega
    show spec_success f n (s :: (rest ++ b)) = _
    simp only [spec_success, ih (n + 1), List.length_cons, Bool.and_assoc, hlen]

theorem spec_decisions_append (f : Nat → LmSSLStatus → LmSSLResponse) (n : Nat)
    (a b : List LmSSLStatus) :
    spec_decisions f n (a ++ b) =
      if spec_success f n a then a ++ spec_decisions f (n + a.length) b
      else spec_decisions f n a := by
  induction a generalizing n with
  | nil => simp [spec_success]
  | cons s rest ih =>
    have hlen : n + (rest.length + 1) = n + 1 + rest.length := by omega
    show spec_decisions f n (s :: (rest ++ b)) = _
    by_cases hf : f n s = .CONTINUE
    · simp only [spec_decisions, spec_success, hf, if_true, ih (n + 1), decide_True,
        Bool.true_and, List.length_cons, hlen]
      cases spec_success f (n + 1) rest <;> simp
    · simp [spec_decisions, spec_success, hf]

theorem failing_of_cons (b : Bool) (s : LmSSLStatus) (rest : List (Bool × LmSSLStatus)) :
    failing_of ((b, s) :: rest) = (if b then [s] else []) ++ failing_of rest := by
  cases b <;> simp [failing_of]

theorem failing_of_general (tls : TlsSession) :
    failing_of (general_checks tls) =
      (if tls.verify_peers = GNUTLS_E_NO_CERTIFICATE_FOUND then [.NO_CERT_FOUND] else []) ++
      (if cert_status_flagged tls.verify_peers then [.UNTRUSTED_CERT] else []) ++
      (if tls.expiration_time < tls.time_at_expiry then [.CERT_EXPIRED] else []) ++
      (if tls.activation_time > tls.time_at_activation then [.CERT_NOT_ACTIVATED] else []) := by
  have hnil : failing_of [] = [] := rfl
  simp only [general_checks, failing_of_cons, hnil, decide_eq_true_eq, List.append_nil,
    List.append_assoc]

theorem failing_of_x509 (tls : TlsSession) (c : LmConnection) :
    failing_of (x509_checks tls c) =
      (if tls.hostname_ok then [] else [.CERT_HOSTNAME_MISMATCH]) ++
      (match tls.fingerprint, c.expected_fingerprint with
       | none, _ => [.GENERIC_ERROR]
       | some fp, some expected =>
         if fingerprint_differs expected tls.beyond_expected fp then
         [.CERT_FINGERPRINT_MISMATCH]
       else []
       | some _, none => []) := by
  have hnil : failing_of [] = [] := rfl
  unfold x509_checks
  cases tls.hostname_ok <;> cases tls.fingerprint <;> cases c.expected_fingerprint <;>
    simp [failing_of_cons, hnil]
/-- What `connection_verify_certificate` gives, for every session: the spec's
rule over the failing checks in the order of the code, but for an X.509 session
without a certificate list in which every answer is continue, where the model
stops. -/
theorem verify_certificate_eq (tls : TlsSession) (c : LmConnection) :
    connection_verify_certificate tls c =
      if tls.x509 && !tls.cert_list &&
          spec_success tls.ssl_function 0 (verify_failing_checks tls c) then none
      else some (spec_verify tls.ssl_function (verify_failing_checks tls c)) := by
  have hg := failing_of_general tls
  have hx := failing_of_x509 tls c
  have h1 := run_checks_spec tls.ssl_function 0 (general_checks tls)
  unfold connection_verify_certificate
  simp only [h1]
  generalize hG : failing_of (general_checks tls) = G at hg h1
  have hspec : spec_failing_checks tls c =
      G ++ (if tls.x509 then failing_of (x509_checks tls c) else []) := by
    rw [hg, hx]; rfl
  have hver : verify_failing_checks tls c =
      if tls.x509 && !tls.cert_list then G ++ [LmSSLStatus.NO_CERT_FOUND]
      else G ++ (if tls.x509 then failing_of (x509_checks tls c) else []) := by
    unfold verify_failing_checks
    rw [hspec, hg]
  rw [hver]
  cases hs : spec_success tls.ssl_function 0 G with
  | false =>
    have e1 : ∀ b : List LmSSLStatus, spec_verify tls.ssl_function (G ++ b) =
        (false, (spec_decisions tls.ssl_function 0 G).map Event.ssl_decision) := by
      intro b
      simp [spec_verify, spec_success_append, spec_decisions_append, hs]
    have e0 := e1 []
    rw [List.append_nil] at e0
    cases tls.x509 <;> cases tls.cert_list <;> simp [e0, e1, spec_success_append, hs]
  | true =>
    have hd := spec_decisions_of_success tls.ssl_function 0 G hs
    have hlen : (List.map Event.ssl_decision (spec_decisions tls.ssl_function 0 G)).length =
        G.length := by rw [hd, List.length_map]
    cases hx509 : tls.x509 with
    | false => simp [spec_verify, hs, hd]
    | true =>
      cases hcl : tls.cert_list with
      | false =>
        by_cases hf : tls.ssl_function G.length .NO_CERT_FOUND = .CONTINUE
        · simp [hlen, hf, spec_success_append, hs, spec_success]
        · simp [hlen, hf, spec_success_append, hs, spec_success, spec_verify,
            spec_decisions_append, spec_decisions, hd]
      | true =>
        simp only [hlen, run_checks_spec, Bool.not_true, Bool.false_eq_true, if_false,
          Bool.and_false, Bool.and_true, Bool.false_and, if_true]
        simp [spec_verify, spec_success_append, spec_decisions_append, hs, hd]

theorem verify_failing_checks_of_list (tls : TlsSession) (c : LmConnection)
    (h : tls.x509 = false ∨ tls.cert_list = true) :
    verify_failing_checks tls c = spec_failing_checks tls c := by
  unfold verify_failing_checks
  rcases h with h | h <;> simp [h]

theorem spec_decisions_isPrefix (f : Nat → LmSSLStatus → LmSSLResponse) (n : Nat)
    (l : List LmSSLStatus) : spec_decisions f n l <+: l := by
  induction l generalizing n with
  | nil => exact List.prefix_refl _
  | cons s rest ih =>
    unfold spec_decisions
    by_cases hf : f n s = .CONTINUE
    · simp only [hf, if_true]
      exact (List.prefix_cons_inj s).mpr (ih (n + 1))
    · simp only [hf, if_false]
      exact ⟨rest, rfl⟩
/-- C21, in the form the code satisfies: `connection_verify_certificate` asks
the decision callback about each failing check, once, with the status of that
check, in the order no certificate found, untrusted, expired, not activated, then
for an X.509 session with a certificate list host name mismatch and fingerprint
mismatch (generic error when the fingerprint cannot be computed), and for an
X.509 session without a certificate list no certificate found once more; it
returns FALSE at the first answer that is not continue, asking about no later
check, and TRUE exactly when every answer is continue, in which case every
failing check was asked about. The X.509 session without a certificate list in
which every answer is continue is left out. -/
theorem C21_verify_certificate (tls : TlsSession) (c : LmConnection)
    (h : tls.x509 = true → tls.cert_list = false →
      spec_success tls.ssl_function 0 (verify_failing_checks tls c) = false) :
    connection_verify_certificate tls c =
      some (spec_verify tls.ssl_function (verify_failing_checks tls c)) ∧
    ((tls.x509 = false ∨ tls.cert_list = true) →
      verify_failing_checks tls c = spec_failing_checks tls c) ∧
    spec_decisions tls.ssl_function 0 (verify_failing_checks tls c) <+:
      verify_failing_checks tls c ∧
    (spec_success tls.ssl_function 0 (verify_failing_checks tls c) = true →
      spec_decisions tls.ssl_function 0 (verify_failing_checks tls c) =
        verify_failing_checks tls c) := by
  refine ⟨?_, verify_failing_checks_of_list tls c, spec_decisions_isPrefix _ _ _,
    spec_decisions_of_success _ _ _⟩
  rw [verify_certificate_eq]
  cases hx : tls.x509 with
  | false => simp
  | true =>
    cases hc : tls.cert_list with
    | true => simp
    | false => simp [h hx hc]

theorem C21_verify_certificate_witness :
    connection_verify_certificate tls_expired conn_pinned =
      some (spec_verify tls_expired.ssl_function (verify_failing_checks tls_expired conn_pinned)) ∧
    spec_verify tls_expired.ssl_function (verify_failing_checks tls_expired conn_pinned) =
      (false, [.ssl_decision .CERT_EXPIRED, .ssl_decision .CERT_HOSTNAME_MISMATCH]) ∧
    verify_failing_checks tls_expired conn_pinned =
      [.CERT_EXPIRED, .CERT_HOSTNAME_MISMATCH, .CERT_FINGERPRINT_MISMATCH] ∧
    connection_verify_certificate tls_ok conn_pinned =
      some (true, [.ssl_decision .CERT_FINGERPRINT_MISMATCH]) ∧
    connection_verify_certificate tls_ok conn_tls = some (true, []) :=
  ⟨(C21_verify_certificate tls_expired conn_pinned (fun _ h => by cases h)).1,
    by decide, by decide, by decide, by decide⟩

/-- C21 as stated fails: when the peer presents no certificate (the verification
reports no certificate, the certificate list of the X.509 session is NULL) and
the callback lets the first three concerns pass,
`connection_verify_certificate` asks about no certificate found a second time,
after certificate expired, and returns FALSE on the answer; by the order of the
claim the callback is asked three times and the verification succeeds. -/
theorem C21_counterexample :
    connection_verify_certificate tls_no_cert conn_tls =
      some (false, [.ssl_decision .NO_CERT_FOUND, .ssl_decision .UNTRUSTED_CERT,
        .ssl_decision .CERT_EXPIRED, .ssl_decision .NO_CERT_FOUND]) ∧
    spec_verify tls_no_cert.ssl_function (spec_failing_checks tls_no_cert conn_tls) =
      (true, [.ssl_decision .NO_CERT_FOUND, .ssl_decision .UNTRUSTED_CERT,
        .ssl_decision .CERT_EXPIRED]) ∧
    connection_verify_certificate tls_no_cert conn_tls ≠
      some (spec_verify tls_no_cert.ssl_function (spec_failing_checks tls_no_cert conn_tls)) := by
  decide

/-- For an expected fingerprint of at least `digest_size` bytes the comparison is
that of its first `digest_size` bytes with the digest. -/
theorem fingerprint_differs_iff (expected : String) (beyond : Nat → Nat) (fp : List Nat)
    (hlen : fp.length ≤ (c_string_bytes expected).length) :
    fingerprint_differs expected beyond fp = true ↔
      (c_string_bytes expected).take fp.length ≠ fp := by
  unfold fingerprint_differs
  rw [List.any_eq_true]
  constructor
  · rintro ⟨i, hi, hne⟩ heq
    have hi2 : i < fp.length := List.mem_range.mp hi
    have hb : expected_byte expected beyond i = (c_string_bytes expected).getD i 0 := by
      unfold expected_byte
      rw [if_pos (by omega)]
    rw [hb] at hne
    have : fp.getD i 0 = (c_string_bytes expected).getD i 0 := by
      conv_lhs => rw [← heq]
      simp [List.getD_eq_getElem?_getD, List.getElem?_take, hi2]
    rw [this] at hne
    exact absurd rfl (bne_iff_ne.mp hne)
  · intro hne
    by_contra hno
    apply hne
    apply List.ext_getElem
    · simp [hlen]
    · intro i h1 h2
      have hi : i < fp.length := h2
      have hb : expected_byte expected beyond i = (c_string_bytes expected).getD i 0 := by
        unfold expected_byte
        rw [if_pos (by omega)]
      have hq : ¬ (expected_byte expected beyond i != fp.getD i 0) = true := by
        intro hq
        exact hno ⟨i, List.mem_range.mpr hi, hq⟩
      simp only [bne_iff_ne, ne_eq, not_not] at hq
      rw [hb] at hq
      have hi3 : i < (c_string_bytes expected).length := by omega
      have e1 : (c_string_bytes expected).getD i 0 = (c_string_bytes expected)[i] := by
        simp [List.getD_eq_getElem?_getD, List.getElem?_eq_getElem, hi3]
      have e2 : fp.getD i 0 = fp[i] := by
        simp [List.getD_eq_getElem?_getD, List.getElem?_eq_getElem, hi]
      rw [List.getElem_take, ← e1, hq, e2]

/-- C23, the code at a failing input: in the sample run
`lm_connection_cancel_open` is called in state CONNECTING, after the connect and
the TLS handshake have succeeded and the stream header is sent; when the stream
opening of the server is dispatched afterwards the open callback is called with
success and the connection is CONNECTED, the cancel flag still set. The flag is
read at the head of `connection_succeeded` only: a cancel issued before the
socket becomes writable does abort the open there, nothing being installed,
started, sent or called. -/
theorem C23_late_cancel_still_opens :
    cancel_late_run.map (fun r => (r.1, r.2.1.state, r.2.1.cancel_open, r.2.2)) =
      some (.CONNECTING, .CONNECTED, true,
        [.gnutls_global_init, .trying 10 5222, .watch 110, .set_blocking 110,
         .gnutls_handshake 110, .io_watches 110,
         .send "<?xml version='1.0' encoding='UTF-8'?>",
         .send_message (LmMessage.mk .STREAM (.mk "stream:stream" none
           [("to", "jabber.example.org"),
            ("xmlns:stream", "http://etherx.jabber.org/streams"),
            ("xmlns", "jabber:client")] [])),
         .open_result 1 true,
         .free_callback (_lm_utils_new_callback (some 1) 0 none)]) ∧
    (connect_run tls_ok sample_os true (lm_connection_cancel_open (opening conn_tls (some 1)))
        (some (waiting_attempt [10] [10] 110)) [.OUT]).map
        (fun r => (r.1.state, r.1.cancel_open, r.1.io_channel, r.2.1, r.2.2)) =
      some (.CONNECTING, true, none, none, []) := by
  refine ⟨?_, ?_⟩
  · decide
  · rfl

theorem attempt_started_of_not_open_call (c : LmConnection) (o : Op)
    (h : is_open_call (.op o) = false) : attempt_started c o = none := by
  cases o <;> first | rfl | simp [is_open_call] at h

theorem run_step_attempts (env : Env) (w w1 : LmConnection × List LmConnectData) (o : RunOp)
    (h0 : w.2.length ≤ 1) (hopen : is_open_call o = true → w.2 = [])
    (h : run_step env w o = some w1) : w1.2.length ≤ 1 := by
  cases o with
  | op o =>
    unfold run_step at h
    cases hs : step env w.1 o with
    | none => simp [hs] at h
    | some r =>
      simp only [hs, Option.some.injEq] at h
      rw [← h]
      cases hc : is_open_call (.op o) with
      | true =>
        rw [hopen hc]
        cases attempt_started w.1 o <;> simp
      | false =>
        rw [attempt_started_of_not_open_call w.1 o hc]
        simpa using h0
  | socket_condition i condition tls os negotiate =>
    unfold run_step at h
    cases hg : w.2.get? i with
    | none =>
      simp only [hg, Option.some.injEq] at h
      rw [← h]; exact h0
    | some cd =>
      simp only [hg] at h
      cases hcb : connection_connect_cb tls os negotiate w.1 cd condition with
      | none => simp [hcb] at h
      | some r =>
        simp only [hcb, Option.some.injEq] at h
        rw [← h]
        have hi : i < w.2.length := by
          rcases List.get?_eq_some.mp hg with ⟨hi, _⟩
          exact hi
        have he : (w.2.eraseIdx i).length = w.2.length - 1 := by
          rw [List.length_eraseIdx, if_pos hi]
        cases r.2.1 <;> simp <;> omega

/-- C24, in the form the code satisfies: in every run of operations, engine
events and socket conditions on one connection in which `lm_connection_open` is
not called while a connect attempt is waiting on its socket, at most one connect
attempt is waiting at any time; and an `lm_connection_open` on an open
connection starts none. -/
theorem C24_one_attempt (env : Env) (w : LmConnection × List LmConnectData)
    (ops : List RunOp) (h0 : w.2.length ≤ 1)
    (hopen : ∀ t ∈ run env w ops, is_open_call t.2.1 = true → t.1.2 = []) :
    (∀ t ∈ run env w ops, t.2.2.2.length ≤ 1) ∧
    ∀ (c : LmConnection) (function : Option Nat) (user_data : Nat) (notify : Option Nat)
      (os : Nat → ConnectOutcome) (resolve : String → Option (List Nat)),
      lm_connection_is_open c = true →
        attempt_started c (.lm_connection_open function user_data notify os resolve) = none := by
  refine ⟨?_, ?_⟩
  · induction ops generalizing w with
    | nil => intro t ht; simp [run] at ht
    | cons o ops ih =>
      intro t ht
      unfold run at ht hopen
      cases hs : run_step env w o with
      | none => simp [hs] at ht
      | some w1 =>
        simp only [hs, List.mem_cons] at ht hopen
        have h1 : w1.2.length ≤ 1 :=
          run_step_attempts env w w1 o h0 (hopen (w, o, w1) (Or.inl rfl)) hs
        rcases ht with rfl | ht
        · exact h1
        · exact ih w1 h1 (fun t2 ht2 => hopen t2 (Or.inr ht2)) t ht
  · intro c function user_data notify os resolve hop
    have hop2 : lm_connection_is_open
        { c with open_cb := some (_lm_utils_new_callback function user_data notify) } = true :=
      hop
    simp [attempt_started, lm_connection_open, connection_do_open, hop2]

theorem run_ops_mem (env : Env) (w : LmConnection × List LmConnectData) (ops : List RunOp) :
    ∀ t ∈ run env w ops, t.2.1 ∈ ops := by
  induction ops generalizing w with
  | nil => intro t ht; simp [run] at ht
  | cons o ops ih =>
    intro t ht
    unfold run at ht
    cases hs : run_step env w o with
    | none => simp [hs] at ht
    | some w1 =>
      simp only [hs, List.mem_cons] at ht
      rcases ht with rfl | ht
      · exact List.mem_cons_self _ _
      · exact List.mem_cons_of_mem _ (ih w1 t ht)

/-- A run that starts without an attempt and calls `lm_connection_open` at most
as its first step never calls it while an attempt is waiting. -/
theorem run_opens_first (env : Env) (w : LmConnection × List LmConnectData) (o : RunOp)
    (rest : List RunOp) (hw : w.2 = []) (hrest : ∀ x ∈ rest, is_open_call x = false) :
    ∀ t ∈ run env w (o :: rest), is_open_call t.2.1 = true → t.1.2 = [] := by
  intro t ht hcall
  unfold run at ht
  cases hs : run_step env w o with
  | none => simp [hs] at ht
  | some w1 =>
    simp only [hs, List.mem_cons] at ht
    rcases ht with rfl | ht
    · exact hw
    · have hm := run_ops_mem env w1 rest t ht
      rw [hrest _ hm] at hcall
      cases hcall

theorem C24_one_attempt_witness :
    (∀ t ∈ run env0 (conn0, []) open_once, t.2.2.2.length ≤ 1) ∧
    (run env0 (conn0, []) open_once).map (fun t => (t.2.2.1.state, t.2.2.2)) =
      [(.CONNECTING, [waiting_attempt [10, 11] [10, 11] 110]),
       (.CONNECTING, [waiting_attempt [10, 11] [11] 111]),
       (.CONNECTING, []), (.CONNECTING, []), (.CONNECTED, [])] :=
  ⟨(C24_one_attempt env0 (conn0, []) open_once (by decide)
      (run_opens_first env0 (conn0, []) _ _ rfl (by
        intro x hx
        simp only [List.mem_cons, List.mem_singleton, List.mem_nil_iff, or_false] at hx
        rcases hx with rfl | rfl | rfl | rfl <;> rfl))).1,
    by decide⟩

/-- C24 as stated fails: a second `lm_connection_open`, called while the
connection is CONNECTING and the first attempt is waiting on socket 110, is not
refused and starts a second attempt, on socket 210: two attempts are waiting at
the same time. -/
theorem C24_counterexample :
    (run env0 (conn0, []) open_twice).map (fun t => (t.1.1.state, t.2.2.1.state, t.2.2.2)) =
      [(.DISCONNECTED, .CONNECTING, [waiting_attempt [10] [10] 110]),
       (.CONNECTING, .CONNECTING,
         [waiting_attempt [10] [10] 110, waiting_attempt [10] [10] 210])] ∧
    ¬ ∀ n ∈ (run env0 (conn0, []) open_twice).map (fun t => t.2.2.2.length), n ≤ 1 := by
  decide

/-! ## Handlers of equal priority (C25) -/

/-- Where `g_slist_insert_sorted` puts a new entry with the compare function of
the connection: after the entries of strictly higher priority that lead the
chain, and so before every entry of equal priority. -/
theorem insert_sorted_split (chain : List HandlerData) (hd : HandlerData) :
    ∃ pre post,
      g_slist_insert_sorted chain hd connection_handler_compare_func = pre ++ hd :: post ∧
      chain = pre ++ post ∧ ∀ e ∈ pre, e.priority ≠ hd.priority := by
  induction chain with
  | nil => exact ⟨[], [], rfl, rfl, (fun e he => by cases he)⟩
  | cons x rest ih =>
    by_cases hc : connection_handler_compare_func hd x > 0
    · obtain ⟨pre, post, h1, h2, h3⟩ := ih
      refine ⟨x :: pre, post, ?_, ?_, ?_⟩
      · simp only [g_slist_insert_sorted, hc, if_true, h1, List.cons_append]
      · rw [h2, List.cons_append]
      · intro e he
        rcases List.mem_cons.mp he with rfl | he
        · intro heq
          unfold connection_handler_compare_func to_gint at hc
          rw [heq] at hc
          simp at hc
        · exact h3 e he
    · exact ⟨[], x :: rest, by simp only [g_slist_insert_sorted, hc, if_false, List.nil_append],
        rfl, (fun e he => by cases he)⟩

/-- C25, in the form the code satisfies: a handler registered for a message
type is put before every handler registered earlier for that type with the same
priority; when the handlers of the chain answer ALLOW_MORE_HANDLERS, a message of
that type that matches no id-based handler is given to the handler registered
later before any handler of equal priority registered earlier. -/
theorem C25_equal_priority_later_first (env : Env) (c : LmConnection) (type : LmMessageType)
    (handler : LmMessageHandler) (priority : Int) (m : LmMessage)
    (ht1 : type ≠ .STREAM) (ht2 : type ≠ .UNKNOWN) (hm : lm_message_get_type m = type)
    (hnoid : ∀ id, lm_message_node_get_attribute m.node "id" = some id →
      g_hash_table_lookup c.id_handlers id = none)
    (hchain : ∀ hd ∈ c.handlers type, answers_allow hd.handler m)
    (hallow : answers_allow handler m) :
    ∃ pre post, c.handlers type = pre ++ post ∧ (∀ e ∈ pre, e.priority ≠ priority) ∧
      connection_handle_message env
          (lm_connection_register_message_handler c handler type priority) m =
        some (lm_connection_register_message_handler c handler type priority,
          pre.map (fun hd => Event.handler hd.handler.ident m) ++
            Event.handler handler.ident m ::
              post.map (fun hd => Event.handler hd.handler.ident m)) := by
  obtain ⟨pre, post, h1, h2, h3⟩ :=
    insert_sorted_split (c.handlers type) { priority := priority, handler := handler }
  have hreg : (lm_connection_register_message_handler c handler type priority).handlers
      (lm_message_get_type m) = pre ++ { priority := priority, handler := handler } :: post := by
    rw [hm, ← h1]
    simp [lm_connection_register_message_handler, ht2]
  have hid : (lm_connection_register_message_handler c handler type priority).id_handlers =
      c.id_handlers := by
    simp [lm_connection_register_message_handler, ht2]
  refine ⟨pre, post, h2, h3, ?_⟩
  rw [handle_message_walks_chain env _ m (by rw [hm]; exact ht1) (by rw [hm]; exact ht2)
    (by rw [hid]; exact hnoid) (by
      rw [hreg]
      intro hd hhd
      rcases List.mem_append.mp hhd with h | h
      · exact hchain hd (by rw [h2]; exact List.mem_append_left _ h)
      · rcases List.mem_cons.mp h with rfl | h
        · exact hallow
        · exact hchain hd (by rw [h2]; exact List.mem_append_right _ h)), hreg]
  simp

theorem C25_equal_priority_later_first_witness :
    ∃ pre post,
      (lm_connection_register_message_handler conn0 (app_handler 1 .ALLOW_MORE_HANDLERS)
        .MESSAGE LM_HANDLER_PRIORITY_NORMAL).handlers .MESSAGE = pre ++ post ∧
      (∀ e ∈ pre, e.priority ≠ LM_HANDLER_PRIORITY_NORMAL) ∧
      connection_handle_message env0
          (lm_connection_register_message_handler
            (lm_connection_register_message_handler conn0 (app_handler 1 .ALLOW_MORE_HANDLERS)
              .MESSAGE LM_HANDLER_PRIORITY_NORMAL)
            (app_handler 2 .ALLOW_MORE_HANDLERS) .MESSAGE LM_HANDLER_PRIORITY_NORMAL) msg0 =
        some (lm_connection_register_message_handler
            (lm_connection_register_message_handler conn0 (app_handler 1 .ALLOW_MORE_HANDLERS)
              .MESSAGE LM_HANDLER_PRIORITY_NORMAL)
            (app_handler 2 .ALLOW_MORE_HANDLERS) .MESSAGE LM_HANDLER_PRIORITY_NORMAL,
          pre.map (fun hd => Event.handler hd.handler.ident msg0) ++
            Event.handler (app_handler 2 .ALLOW_MORE_HANDLERS).ident msg0 ::
              post.map (fun hd => Event.handler hd.handler.ident msg0)) :=
  C25_equal_priority_later_first env0
    (lm_connection_register_message_handler conn0 (app_handler 1 .ALLOW_MORE_HANDLERS)
      .MESSAGE LM_HANDLER_PRIORITY_NORMAL)
    .MESSAGE (app_handler 2 .ALLOW_MORE_HANDLERS) LM_HANDLER_PRIORITY_NORMAL msg0
    (by decide) (by decide) rfl (fun id h => by cases h)
    (by
      intro hd hhd
      have h : hd = HandlerData.mk LM_HANDLER_PRIORITY_NORMAL
          (app_handler 1 .ALLOW_MORE_HANDLERS) := by
        simpa [lm_connection_register_message_handler, conn0, lm_connection_new,
          g_slist_insert_sorted] using hhd
      rw [h]
      exact ⟨_, rfl, rfl⟩)
    ⟨_, rfl, rfl⟩

/-- C25 as stated fails: of two handlers registered for message stanzas with the
same priority, first handler 1 and then handler 2, the one registered later is
invoked first. -/
theorem C25_counterexample :
    (connection_handle_message env0
      (register_all conn0 .MESSAGE
        [(app_handler 1 .ALLOW_MORE_HANDLERS, LM_HANDLER_PRIORITY_NORMAL),
         (app_handler 2 .ALLOW_MORE_HANDLERS, LM_HANDLER_PRIORITY_NORMAL)]) msg0).map
        (fun r => invocations r.2) = some [2, 1] ∧
    (connection_handle_message env0
      (register_all conn0 .MESSAGE
        [(app_handler 1 .ALLOW_MORE_HANDLERS, LM_HANDLER_PRIORITY_NORMAL),
         (app_handler 2 .ALLOW_MORE_HANDLERS, LM_HANDLER_PRIORITY_NORMAL)]) msg0).map
        (fun r => invocations r.2) ≠ some [1, 2] := by
  decide
/-! ## Transport failures (C26, C29) -/

/-- What `connection_do_close` followed by `connection_signal_disconnect` does
on an open connection: the state is DISCONNECTED, the channel is gone, and the
disconnect callback, when its function is set, is called once with the reason. -/
theorem close_and_signal_open (c : LmConnection) (reason : LmDisconnectReason)
    (ho : lm_connection_is_open c = true) :
    (connection_do_close c).1.state = .DISCONNECTED ∧
    (connection_do_close c).1.io_channel = none ∧
    disconnects ((connection_do_close c).2 ++
        connection_signal_disconnect (connection_do_close c).1 reason) =
      if callback_set c.disconnect_cb then [reason] else [] := by
  obtain ⟨h1, h2, h3, h4, _⟩ := do_close_open c ho
  have hsd := signal_disconnect_disconnects (connection_do_close c).1 reason
  rw [h3] at hsd
  refine ⟨h1, h2, ?_⟩
  simp only [disconnects, List.filterMap_append] at h4 hsd ⊢
  rw [h4, hsd]
  rfl

/-- What `connection_in_event` does on an open connection with a channel, by
the status it computes for the read. -/
theorem in_event_open (c : LmConnection) (ch : Nat) (bytes_read : Int)
    (read_status : GIOStatus) (parsed : List LmMessage)
    (ho : lm_connection_is_open c = true) (hch : c.io_channel = some ch) :
    (∀ reason, spec_read_reason (read_status_of c bytes_read read_status) = some reason →
      (connection_in_event c bytes_read read_status parsed).1 = false ∧
      (connection_in_event c bytes_read read_status parsed).2.1.state = .DISCONNECTED ∧
      (connection_in_event c bytes_read read_status parsed).2.1.io_channel = none ∧
      disconnects (connection_in_event c bytes_read read_status parsed).2.2 =
        if callback_set c.disconnect_cb then [reason] else []) ∧
    (read_status_of c bytes_read read_status = .AGAIN →
      connection_in_event c bytes_read read_status parsed = (true, c, [])) := by
  refine ⟨?_, ?_⟩
  · intro reason hr
    unfold connection_in_event
    simp only [hch]
    cases hs : read_status_of c bytes_read read_status with
    | NORMAL => simp [hs, spec_read_reason] at hr
    | AGAIN => simp [hs, spec_read_reason] at hr
    | EOF =>
      simp only [hs, spec_read_reason, Option.some.injEq] at hr
      rw [← hr]
      exact ⟨rfl, close_and_signal_open c .HUP ho⟩
    | ERROR =>
      simp only [hs, spec_read_reason, Option.some.injEq] at hr
      rw [← hr]
      exact ⟨rfl, close_and_signal_open c .ERROR ho⟩
    | other v =>
      simp only [hs, spec_read_reason, Option.some.injEq] at hr
      rw [← hr]
      exact ⟨rfl, close_and_signal_open c .UNKNOWN ho⟩
  · intro hs
    simp only [connection_in_event, hch, hs]

/-- C26, in the form the code satisfies: on an open connection with a channel,
without SSL a read whose status is end of file disconnects with reason hang-up,
a read error with reason error, any other status that is neither normal nor
try-again with reason unknown; with SSL a read that ends in end of file or fails
(`gnutls_record_recv` gives 0 or a negative count other than try-again)
disconnects with reason error; in each of these cases the watch function returns
FALSE, the state is DISCONNECTED, the channel is gone and the disconnect
callback, when its function is set, is called exactly once with that reason; a
read to be tried again changes nothing, calls nothing and keeps the watch
(TRUE); an error event disconnects in the same way with reason error and a
hang-up event with reason hang-up. -/
theorem C26_transport_failures (c : LmConnection) (ch : Nat) (bytes_read : Int)
    (read_status : GIOStatus) (parsed : List LmMessage)
    (ho : lm_connection_is_open c = true) (hch : c.io_channel = some ch) :
    (lm_connection_get_use_ssl c = false →
      ∀ reason, spec_read_reason read_status = some reason →
        (connection_in_event c bytes_read read_status parsed).1 = false ∧
        (connection_in_event c bytes_read read_status parsed).2.1.state = .DISCONNECTED ∧
        (connection_in_event c bytes_read read_status parsed).2.1.io_channel = none ∧
        disconnects (connection_in_event c bytes_read read_status parsed).2.2 =
          if callback_set c.disconnect_cb then [reason] else []) ∧
    (lm_connection_get_use_ssl c = false → read_status = .AGAIN →
      connection_in_event c bytes_read read_status parsed = (true, c, [])) ∧
    (lm_connection_get_use_ssl c = true → bytes_read ≠ GNUTLS_E_AGAIN → bytes_read ≤ 0 →
      (connection_in_event c bytes_read read_status parsed).1 = false ∧
      (connection_in_event c bytes_read read_status parsed).2.1.state = .DISCONNECTED ∧
      (connection_in_event c bytes_read read_status parsed).2.1.io_channel = none ∧
      disconnects (connection_in_event c bytes_read read_status parsed).2.2 =
        if callback_set c.disconnect_cb then [.ERROR] else []) ∧
    (lm_connection_get_use_ssl c = true → bytes_read = GNUTLS_E_AGAIN →
      connection_in_event c bytes_read read_status parsed = (true, c, [])) ∧
    ((connection_error_event c).2.1.state = .DISCONNECTED ∧
      (connection_error_event c).2.1.io_channel = none ∧
      disconnects (connection_error_event c).2.2 =
        if callback_set c.disconnect_cb then [.ERROR] else []) ∧
    ((connection_hup_event c).2.1.state = .DISCONNECTED ∧
      (connection_hup_event c).2.1.io_channel = none ∧
      disconnects (connection_hup_event c).2.2 =
        if callback_set c.disconnect_cb then [.HUP] else []) := by
  obtain ⟨h1, h2⟩ := in_event_open c ch bytes_read read_status parsed ho hch
  refine ⟨?_, ?_, ?_, ?_, ?_, ?_⟩
  · intro hssl reason hr
    have hst : read_status_of c bytes_read read_status = read_status := by
      simp [read_status_of, hssl]
    exact h1 reason (by rw [hst]; exact hr)
  · intro hssl hs
    have hst : read_status_of c bytes_read read_status = read_status := by
      simp [read_status_of, hssl]
    exact h2 (by rw [hst]; exact hs)
  · intro hssl hna hle
    have hst : read_status_of c bytes_read read_status = .ERROR := by
      simp [read_status_of, hssl, hna, hle]
    exact h1 .ERROR (by rw [hst]; rfl)
  · intro hssl ha
    have hst : read_status_of c bytes_read read_status = .AGAIN := by
      simp [read_status_of, hssl, ha]
    exact h2 hst
  · simp only [connection_error_event, hch]
    exact close_and_signal_open c .ERROR ho
  · simp only [connection_hup_event, hch]
    exact close_and_signal_open c .HUP ho

theorem C26_transport_failures_witness :
    ((connection_in_event conn_open_watched 0 .EOF []).1 = false ∧
      (connection_in_event conn_open_watched 0 .EOF []).2.1.state = .DISCONNECTED ∧
      (connection_in_event conn_open_watched 0 .EOF []).2.1.io_channel = none ∧
      disconnects (connection_in_event conn_open_watched 0 .EOF []).2.2 =
        (if callback_set (some (_lm_utils_new_callback (some 4) 0 none)) then [.HUP] else [])) ∧
    ((connection_in_event conn_open_tls 0 .NORMAL []).1 = false ∧
      (connection_in_event conn_open_tls 0 .NORMAL []).2.1.state = .DISCONNECTED ∧
      (connection_in_event conn_open_tls 0 .NORMAL []).2.1.io_channel = none ∧
      disconnects (connection_in_event conn_open_tls 0 .NORMAL []).2.2 =
        (if callback_set (some (_lm_utils_new_callback (some 4) 0 none)) then [.ERROR]
          else [])) :=
  ⟨(C26_transport_failures conn_open_watched 7 0 .EOF [] rfl rfl).1 rfl .HUP rfl,
    (C26_transport_failures conn_open_tls 7 0 .NORMAL [] rfl rfl).2.2.1 rfl (by decide)
      (by decide)⟩

/-- C26 as stated fails: on the open sample connection that uses SSL a read
that ends in end of file (`gnutls_record_recv` gives 0) disconnects with reason
error, not hang-up. -/
theorem C26_counterexample :
    lm_connection_is_open conn_open_tls = true ∧
    disconnects (connection_in_event conn_open_tls 0 .EOF []).2.2 = [.ERROR] ∧
    disconnects (connection_in_event conn_open_tls 0 .EOF []).2.2 ≠ [.HUP] := by
  decide

/-- What `connection_do_close` followed by `connection_signal_disconnect` does
on a connection in state CONNECTING that has a channel: the channel is dropped,
the disconnect callback, when its function is set, is called once with the
reason, and `connection_do_close` returns before the state is reset. -/
theorem close_and_signal_connecting (c : LmConnection) (ch : Nat) (reason : LmDisconnectReason)
    (hs : c.state = .CONNECTING) (hch : c.io_channel = some ch) :
    (connection_do_close c).1.state = .CONNECTING ∧
    (connection_do_close c).1.io_channel = none ∧
    (connection_do_close c).2 ++ connection_signal_disconnect (connection_do_close c).1 reason =
      Event.channel_unref ch :: connection_signal_disconnect c reason ∧
    disconnects ((connection_do_close c).2 ++
        connection_signal_disconnect (connection_do_close c).1 reason) =
      if callback_set c.disconnect_cb then [reason] else [] := by
  have hno : lm_connection_is_open
      { c with io_channel := none, incoming_source := c.incoming_source - 1 } = false := by
    simp [lm_connection_is_open, hs, LmConnectionState.toNat]
  have hd : connection_do_close c =
      ({ c with io_channel := none, incoming_source := c.incoming_source - 1 },
        [Event.channel_unref ch]) := by
    unfold connection_do_close
    simp only [hno, hch, Bool.not_false, if_true]
  rw [hd]
  refine ⟨hs, rfl, rfl, ?_⟩
  have hsd := signal_disconnect_disconnects c reason
  have he : connection_signal_disconnect
      { c with io_channel := none, incoming_source := c.incoming_source - 1 } reason =
        connection_signal_disconnect c reason := rfl
  simp only [he, disconnects, List.filterMap_append] at hsd ⊢
  rw [hsd]
  rfl

/-- C29: in state CONNECTING with the transport installed, a failed read, an
error event and a hang-up event drop the channel and call the disconnect
callback, when its function is set, once with the reason, but
`connection_do_close` returns before it resets the state: the connection is
still CONNECTING afterwards, not DISCONNECTED. -/
theorem C29_failure_while_connecting (c : LmConnection) (ch : Nat) (bytes_read : Int)
    (read_status : GIOStatus) (parsed : List LmMessage)
    (hs : c.state = .CONNECTING) (hch : c.io_channel = some ch) :
    (∀ reason, spec_read_reason (read_status_of c bytes_read read_status) = some reason →
      (connection_in_event c bytes_read read_status parsed).2.1.state = .CONNECTING ∧
      (connection_in_event c bytes_read read_status parsed).2.1.io_channel = none ∧
      (connection_in_event c bytes_read read_status parsed).2.2 =
        Event.channel_unref ch :: connection_signal_disconnect c reason ∧
      disconnects (connection_in_event c bytes_read read_status parsed).2.2 =
        if callback_set c.disconnect_cb then [reason] else []) ∧
    ((connection_error_event c).2.1.state = .CONNECTING ∧
      (connection_error_event c).2.1.io_channel = none ∧
      (connection_error_event c).2.2 =
        Event.channel_unref ch :: connection_signal_disconnect c .ERROR ∧
      disconnects (connection_error_event c).2.2 =
        if callback_set c.disconnect_cb then [.ERROR] else []) ∧
    ((connection_hup_event c).2.1.state = .CONNECTING ∧
      (connection_hup_event c).2.1.io_channel = none ∧
      (connection_hup_event c).2.2 =
        Event.channel_unref ch :: connection_signal_disconnect c .HUP ∧
      disconnects (connection_hup_event c).2.2 =
        if callback_set c.disconnect_cb then [.HUP] else []) := by
  refine ⟨?_, ?_, ?_⟩
  · intro reason hr
    unfold connection_in_event
    simp only [hch]
    cases hst : read_status_of c bytes_read read_status with
    | NORMAL => simp [hst, spec_read_reason] at hr
    | AGAIN => simp [hst, spec_read_reason] at hr
    | EOF =>
      simp only [hst, spec_read_reason, Option.some.injEq] at hr
      rw [← hr]
      exact close_and_signal_connecting c ch .HUP hs hch
    | ERROR =>
      simp only [hst, spec_read_reason, Option.some.injEq] at hr
      rw [← hr]
      exact close_and_signal_connecting c ch .ERROR hs hch
    | other v =>
      simp only [hst, spec_read_reason, Option.some.injEq] at hr
      rw [← hr]
      exact close_and_signal_connecting c ch .UNKNOWN hs hch
  · simp only [connection_error_event, hch]
    exact close_and_signal_connecting c ch .ERROR hs hch
  · simp only [connection_hup_event, hch]
    exact close_and_signal_connecting c ch .HUP hs hch

theorem C29_failure_while_connecting_witness :
    (connection_error_event
      { conn_connecting with disconnect_cb := some (_lm_utils_new_callback (some 4) 0 none) }
      ).2.1.state = .CONNECTING ∧
    (connection_error_event
      { conn_connecting with disconnect_cb := some (_lm_utils_new_callback (some 4) 0 none) }
      ).2.1.io_channel = none ∧
    (connection_error_event
      { conn_connecting with disconnect_cb := some (_lm_utils_new_callback (some 4) 0 none) }
      ).2.2 = [.channel_unref 5, .disconnect 4 .ERROR] :=
  have h := (C29_failure_while_connecting
    { conn_connecting with disconnect_cb := some (_lm_utils_new_callback (some 4) 0 none) }
    5 0 .NORMAL [] rfl rfl).2.1
  ⟨h.1, h.2.1, h.2.2.1⟩
/-! ## Failed resolution (C30) -/

theorem do_open_resolution_failure (os : Nat → ConnectOutcome)
    (resolve : String → Option (List Nat)) (c : LmConnection) (server : String)
    (hno : lm_connection_is_open c = false) (hserver : c.server = some server)
    (hres : resolve (match c.proxy with
      | some proxy => proxy.server
      | none => server) = none) :
    ∃ c1, connection_do_open os resolve c = some (false, some .CONNECTION_OPEN, c1, none, []) ∧
      c1.state = .CONNECTING ∧ c1.incoming_source = c.incoming_source + 1 ∧
      c1.cancel_open = false ∧ c1.open_cb = c.open_cb := by
  refine ⟨{ c with incoming_source := c.incoming_source + 1, cancel_open := false,
                   state := .CONNECTING }, ?_, rfl, rfl, rfl, rfl⟩
  unfold connection_do_open
  rw [if_neg (by rw [hno]; simp)]
  dsimp only
  cases hp : c.proxy <;> simp only [hp] at hres <;> simp [hserver, hp, hres]

/-- C30: when the address lookup fails in `connection_do_open` (for the proxy
when one is set, else for the server), on a connection that is not open and has
a server, the call returns FALSE with the open error and starts no connect
attempt and no connect, but the state is already CONNECTING and the incoming
source already attached, and they stay so: the failed open leaves the connection
CONNECTING, whatever its state was, and `lm_connection_open` leaves the callback
stored as well. -/
theorem C30_resolution_failure (os : Nat → ConnectOutcome)
    (resolve : String → Option (List Nat)) (c : LmConnection) (server : String)
    (function : Option Nat) (user_data : Nat) (notify : Option Nat)
    (hno : lm_connection_is_open c = false) (hserver : c.server = some server)
    (hres : resolve (match c.proxy with
      | some proxy => proxy.server
      | none => server) = none) :
    (∃ c1, connection_do_open os resolve c = some (false, some .CONNECTION_OPEN, c1, none, []) ∧
      c1.state = .CONNECTING ∧ c1.incoming_source = c.incoming_source + 1) ∧
    (∃ c1, lm_connection_open os resolve c function user_data notify =
        some (false, some .CONNECTION_OPEN, c1, none, []) ∧
      c1.state = .CONNECTING ∧ c1.incoming_source = c.incoming_source + 1 ∧
      c1.open_cb = some (_lm_utils_new_callback function user_data notify)) := by
  constructor
  · obtain ⟨c1, h1, h2, h3, _, _⟩ := do_open_resolution_failure os resolve c server hno hserver hres
    exact ⟨c1, h1, h2, h3⟩
  · obtain ⟨c1, h1, h2, h3, _, h5⟩ := do_open_resolution_failure os resolve
      { c with open_cb := some (_lm_utils_new_callback function user_data notify) } server
      hno hserver hres
    exact ⟨c1, h1, h2, h3, h5⟩

theorem C30_resolution_failure_witness :
    (∃ c1, connection_do_open sample_os (fun _ => none) conn0 =
        some (false, some .CONNECTION_OPEN, c1, none, []) ∧
      c1.state = .CONNECTING ∧ c1.incoming_source = conn0.incoming_source + 1) ∧
    (lm_connection_open sample_os (fun _ => none) conn0 (some 1) 0 none).map
        (fun r => (r.1, r.2.1, r.2.2.1.state, r.2.2.1.incoming_source, r.2.2.2.1, r.2.2.2.2)) =
      some (false, some .CONNECTION_OPEN, .CONNECTING, 1, none, []) ∧
    conn0.state = .DISCONNECTED :=
  ⟨(C30_resolution_failure sample_os (fun _ => none) conn0 "jabber.example.org" (some 1) 0 none
      rfl rfl rfl).1, rfl, rfl⟩
/-! ## Authentication replies of another type (C28), the blocking authentication (C27) -/

/-- C28: when the reply to the authentication stanza has a `type` attribute
that is neither `result` nor `error`, `connection_auth_reply` calls the auth
callback, when its function is set, once with success, releases the slot and
answers REMOVE_MESSAGE, and leaves the state as it was: on a connection that is
AUTHENTICATING the caller is told of success while
`lm_connection_is_authenticated` reports false. -/
theorem C28_auth_reply_other_type (c : LmConnection) (m : LmMessage) (type : String)
    (ht : lm_message_node_get_attribute m.node "type" = some type)
    (h1 : type ≠ "result") (h2 : type ≠ "error") :
    ∃ c1, connection_auth_reply c m = some (.REMOVE_MESSAGE, c1,
        fire_and_free c.auth_cb (fun f => Event.auth_result f true)) ∧
      c1.state = c.state ∧ c1.auth_cb = none ∧
      (c.state = .AUTHENTICATING → lm_connection_is_authenticated c1 = false) := by
  refine ⟨{ c with auth_cb := none }, ?_, rfl, rfl, ?_⟩
  · simp only [connection_auth_reply, ht, if_neg h1, if_neg h2, fire_and_free,
      _lm_utils_free_callback]
    cases hcb : c.auth_cb with
    | none => rfl
    | some cb => cases hfn : cb.func <;> rfl
  · intro hs
    simp [lm_connection_is_authenticated, hs, LmConnectionState.toNat]

theorem C28_auth_reply_other_type_witness :
    ∃ c1, connection_auth_reply conn_authenticating
        (stanza .IQ "iq" [("type", "get"), ("id", "id1")]) =
          some (.REMOVE_MESSAGE, c1,
            fire_and_free conn_authenticating.auth_cb (fun f => Event.auth_result f true)) ∧
      c1.state = conn_authenticating.state ∧ c1.auth_cb = none ∧
      (conn_authenticating.state = .AUTHENTICATING →
        lm_connection_is_authenticated c1 = false) :=
  C28_auth_reply_other_type conn_authenticating _ "get" rfl (by decide) (by decide)

theorem new_messages_ssl_func (parsed : List LmMessage) (c : LmConnection) :
    (parsed.foldl connection_new_message_cb c).ssl_func = c.ssl_func := by
  induction parsed generalizing c with
  | nil => rfl
  | cons m l ih => simp only [List.foldl_cons]; rw [ih]; rfl

theorem do_close_ssl_func (c : LmConnection) :
    (connection_do_close c).1.ssl_func = c.ssl_func := by
  unfold connection_do_close
  simp only []
  split <;> rfl

theorem closing_congr (c c1 : LmConnection) (e : LoopEvent) (h : c1.ssl_func = c.ssl_func) :
    closing c1 e = closing c e := by
  cases e <;> simp [closing, read_status_of, lm_connection_get_use_ssl, h]

/-- A watch function leaves the state as it was or DISCONNECTED, and as it was
when it is none that closes; the verification function stays. -/
theorem loop_event_run_state (c : LmConnection) (e : LoopEvent) :
    (loop_event_run c e).1.ssl_func = c.ssl_func ∧
    ((loop_event_run c e).1.state = c.state ∨ (loop_event_run c e).1.state = .DISCONNECTED) ∧
    (closing c e = false → (loop_event_run c e).1.state = c.state) := by
  cases e with
  | connection_in_event bytes_read read_status parsed =>
    refine ⟨?_, in_event_state c bytes_read read_status parsed, ?_⟩
    · simp only [loop_event_run, connection_in_event]
      split
      · rfl
      · split
        · exact new_messages_ssl_func parsed c
        · rfl
        · exact do_close_ssl_func c
        · exact do_close_ssl_func c
        · exact do_close_ssl_func c
    · intro hq
      simp only [closing] at hq
      simp only [loop_event_run, connection_in_event]
      split
      · rfl
      · split
        · exact new_messages_state parsed c
        · rfl
        · rename_i hs; simp [hs, spec_read_reason] at hq
        · rename_i hs; simp [hs, spec_read_reason] at hq
        · rename_i hs; simp [hs, spec_read_reason] at hq
  | connection_error_event =>
    refine ⟨?_, error_event_state c, (fun hq => by simp [closing] at hq)⟩
    simp only [loop_event_run, connection_error_event]
    split
    · rfl
    · exact do_close_ssl_func c
  | connection_hup_event =>
    refine ⟨?_, hup_event_state c, (fun hq => by simp [closing] at hq)⟩
    simp only [loop_event_run, connection_hup_event]
    split
    · rfl
    · exact do_close_ssl_func c

theorem loop_turn_run_state (c : LmConnection) (turn : List LoopEvent) :
    (loop_turn_run c turn).1.ssl_func = c.ssl_func ∧
    ((loop_turn_run c turn).1.state = c.state ∨ (loop_turn_run c turn).1.state = .DISCONNECTED) ∧
    ((∀ e ∈ turn, closing c e = false) → (loop_turn_run c turn).1.state = c.state) := by
  induction turn generalizing c with
  | nil => exact ⟨rfl, Or.inl rfl, fun _ => rfl⟩
  | cons e rest ih =>
    obtain ⟨h1, h2, h3⟩ := loop_event_run_state c e
    obtain ⟨k1, k2, k3⟩ := ih (loop_event_run c e).1
    simp only [loop_turn_run]
    refine ⟨by rw [k1, h1], ?_, ?_⟩
    · rcases k2 with k | k
      · rw [k]; exact h2
      · exact Or.inr k
    · intro hq
      rw [k3 (fun x hx => by
        rw [closing_congr _ _ x h1]
        exact hq x (List.mem_cons_of_mem _ hx)), h3 (hq e (List.mem_cons_self _ _))]

theorem wait_for_reply_state (id : String) (c : LmConnection) (turns : List (List LoopEvent))
    (r : LmMessage × LmConnection × List Event) (h : wait_for_reply id c turns = some r) :
    r.2.1.ssl_func = c.ssl_func ∧
    (r.2.1.state = c.state ∨ r.2.1.state = .DISCONNECTED) ∧
    ((∀ turn ∈ turns, ∀ e ∈ turn, closing c e = false) → r.2.1.state = c.state) := by
  induction turns generalizing c r with
  | nil => simp [wait_for_reply] at h
  | cons turn turns ih =>
    obtain ⟨h1, h2, h3⟩ := loop_turn_run_state c turn
    unfold wait_for_reply at h
    simp only [] at h
    split at h
    · simp only [Option.some.injEq] at h
      rw [← h]
      exact ⟨h1, h2, fun hq => h3 (hq turn (List.mem_cons_self _ _))⟩
    · split at h
      · cases h
      · rename_i reply c2 ev2 hw
        simp only [Option.some.injEq] at h
        obtain ⟨k1, k2, k3⟩ := ih (loop_turn_run c turn).1 _ hw
        rw [← h]
        refine ⟨by rw [k1, h1], ?_, ?_⟩
        · rcases k2 with k | k
          · exact k ▸ h2
          · exact Or.inr k
        · intro hq
          have e1 := k3 (fun t ht x hx => by
            rw [closing_congr _ _ x h1]
            exact hq t (List.mem_cons_of_mem _ ht) x hx)
          have e2 := h3 (hq turn (List.mem_cons_self _ _))
          exact e1.trans e2

theorem send_with_reply_and_block_state (env : Env) (c : LmConnection) (message : LmMessage)
    (turns : List (List LoopEvent)) (r : LmMessage × LmConnection × List Event)
    (h : lm_connection_send_with_reply_and_block env c message turns = some r) :
    r.2.1.ssl_func = c.ssl_func ∧
    (r.2.1.state = c.state ∨ r.2.1.state = .DISCONNECTED) ∧
    ((∀ turn ∈ turns, ∀ e ∈ turn, closing c e = false) → r.2.1.state = c.state) := by
  unfold lm_connection_send_with_reply_and_block at h
  simp only [] at h
  split at h
  · cases h
  · rename_i reply c2 ev hw
    simp only [Option.some.injEq] at h
    obtain ⟨k1, k2, k3⟩ := wait_for_reply_state _ _ _ _ hw
    rw [← h]
    cases hid : lm_message_node_get_attribute message.node "id" with
    | none =>
      simp only [hid] at k1 k2 k3
      exact ⟨k1, k2, fun hq => k3 (fun t ht x hx => by
        rw [← hq t ht x hx]
        exact closing_congr _ _ x rfl)⟩
    | some v =>
      simp only [hid] at k1 k2 k3
      exact ⟨k1, k2, fun hq => k3 (fun t ht x hx => by
        rw [← hq t ht x hx]
        exact closing_congr _ _ x rfl)⟩

/-- C27, in the form the code satisfies: `lm_connection_authenticate_and_block`
assigns the lifecycle state nowhere. When it returns, the state is what it was
before the call, or DISCONNECTED; it is what it was before the call whenever no
watch function that closes the connection ran during the two waits; and in every
case, also when it returns TRUE on a reply of type result, a connection that was
not authenticated before the call is not authenticated after it. -/
theorem C27_authenticate_and_block_state (env : Env)
    (lm_message_get_sub_type : LmMessage → Option LmMessageSubType) (c : LmConnection)
    (username password resource : String) (turns1 turns2 : List (List LoopEvent))
    (r : (Bool × Option LmError) × LmConnection × List Event)
    (h : lm_connection_authenticate_and_block env lm_message_get_sub_type c username password
      resource turns1 turns2 = some r) :
    (r.2.1.state = c.state ∨ r.2.1.state = .DISCONNECTED) ∧
    ((∀ turn ∈ turns1 ++ turns2, ∀ e ∈ turn, closing c e = false) → r.2.1.state = c.state) ∧
    (lm_connection_is_authenticated c = false →
      lm_connection_is_authenticated r.2.1 = false) := by
  have key : (r.2.1.state = c.state ∨ r.2.1.state = .DISCONNECTED) ∧
      ((∀ turn ∈ turns1 ++ turns2, ∀ e ∈ turn, closing c e = false) →
        r.2.1.state = c.state) := by
    unfold lm_connection_authenticate_and_block at h
    split at h
    · simp only [Option.some.injEq] at h
      rw [← h]
      exact ⟨Or.inl rfl, fun _ => rfl⟩
    · split at h
      · cases h
      · rename_i r1 hr1
        obtain ⟨a1, a2, a3⟩ := send_with_reply_and_block_state env c _ turns1 r1 hr1
        split at h
        · cases h
        · rename_i m hm
          split at h
          · cases h
          · rename_i r2 hr2
            obtain ⟨b1, b2, b3⟩ := send_with_reply_and_block_state env r1.2.1 _ turns2 r2 hr2
            have hst : r.2.1 = r2.2.1 := by
              split at h
              · simp only [Option.some.injEq] at h
                rw [← h]
              · simp only [Option.some.injEq] at h
                rw [← h]
              · cases h
            rw [hst]
            refine ⟨?_, ?_⟩
            · rcases b2 with k | k
              · rw [k]; exact a2
              · exact Or.inr k
            · intro hq
              have e1 := a3 (fun t ht x hx => hq t (List.mem_append_left _ ht) x hx)
              have e2 := b3 (fun t ht x hx => by
                rw [closing_congr _ _ x a1]
                exact hq t (List.mem_append_right _ ht) x hx)
              exact e2.trans e1
  refine ⟨key.1, key.2, ?_⟩
  intro hna
  rcases key.1 with k | k
  · simp only [lm_connection_is_authenticated, k] at hna ⊢
    exact hna
  · simp [lm_connection_is_authenticated, k, LmConnectionState.toNat]

theorem C27_authenticate_and_block_state_witness :
    ∃ r, lm_connection_authenticate_and_block env0 sub_type_of_attribute conn_open "romeo"
        "secret" "orchard" [[.connection_in_event 1 .NORMAL [discovery_reply "id0"]]]
        [[.connection_in_event 1 .NORMAL
          [stanza .IQ "iq" [("type", "result"), ("id", "id1")]]]] = some r ∧
      r.1 = (true, none) ∧ r.2.1.state = conn_open.state ∧
      lm_connection_is_authenticated r.2.1 = false := by
  have hmap : (lm_connection_authenticate_and_block env0 sub_type_of_attribute conn_open
      "romeo" "secret" "orchard" [[.connection_in_event 1 .NORMAL [discovery_reply "id0"]]]
      [[.connection_in_event 1 .NORMAL
        [stanza .IQ "iq" [("type", "result"), ("id", "id1")]]]]).map (fun r => r.1) =
        some (true, none) := by decide
  cases h : lm_connection_authenticate_and_block env0 sub_type_of_attribute conn_open
      "romeo" "secret" "orchard" [[.connection_in_event 1 .NORMAL [discovery_reply "id0"]]]
      [[.connection_in_event 1 .NORMAL
        [stanza .IQ "iq" [("type", "result"), ("id", "id1")]]]] with
  | none =>
    rw [h] at hmap
    cases hmap
  | some r =>
    rw [h] at hmap
    have hthm := C27_authenticate_and_block_state env0 sub_type_of_attribute conn_open "romeo"
      "secret" "orchard" _ _ r h
    refine ⟨r, rfl, by simpa using hmap, hthm.2.1 ?_, hthm.2.2 rfl⟩
    intro turn ht e he
    simp only [List.cons_append, List.nil_append, List.mem_cons, List.mem_singleton,
      List.mem_nil_iff, or_false] at ht
    rcases ht with rfl | rfl <;>
      (simp only [List.mem_singleton] at he; rw [he]; rfl)

/-- C27 as stated fails: when the reply of type result is read and the peer
hangs up in the same turn of the main loop of the second wait,
`lm_connection_authenticate_and_block` returns TRUE and the state, CONNECTED
before the call, is DISCONNECTED after it. -/
theorem C27_counterexample :
    conn_open.state = .CONNECTED ∧
    (lm_connection_authenticate_and_block env0 sub_type_of_attribute conn_open "romeo" "secret"
        "orchard" [[.connection_in_event 1 .NORMAL [discovery_reply "id0"]]]
        [[.connection_in_event 1 .NORMAL [stanza .IQ "iq" [("type", "result"), ("id", "id1")]],
          .connection_hup_event]]).map
        (fun r => (r.1, r.2.1.state)) =
      some ((true, none), .DISCONNECTED) := by
  decide

end Loudmouth
